import Mathlib

/-!
# Guit County website: the REST back end and two client scripts

A shallow embedding of `server.js` (the generic CRUD route factory
`createCrudRoutes` and the routes next to it) and of `models/index.js` (the
Mongoose schemas), with the part of Mongoose and MongoDB the routes call into
written out as explicit functions on a store state; and of the state machines
of `assets/js/auth.js` (the login form) and `assets/js/slideshow.js` (the hero
slideshow).

Conventions.
* A JSON object is an association list of field name and value; the first
  binding of a name is the one that counts.
* Time is an integer (milliseconds since the epoch), an ObjectId is a natural
  number (the value of its 24 hexadecimal digits).
* A request handler is a function of the request environment, the store before
  the request and the request data; it returns the store after the request and
  the response.
* Request bodies are flat objects of scalar values whose keys are plain field
  names; update operators and dotted paths are outside the model.
* A number is an integer that a double holds: every integer up to 2^53 in
  magnitude, and beyond it the integers that are doubles. Sums and renderings
  are rounded as the doubles round them (`addOne`, `numberToString`). Numbers
  with a fraction are outside the model.
* A query runs on the documents as they are stored; a document it returns is
  loaded, which fills in the default of every schema path the stored document
  lacks (`Model.hydrate`). Stored values fit the type of their path; the order
  of the keys of an object is not modelled.
* Of the members of a Mongoose document that `Object.assign` can overwrite,
  `save` is modelled; body keys that name other members are outside the model.
-/

namespace Guit

/-! ## Values and objects -/

/-- A scalar held in a request body or in a stored document. -/
inductive Value where
  | null
  | bool (b : Bool)
  | num (n : Int)
  | str (s : String)
  | date (t : Int)
  | oid (n : Nat)
  deriving DecidableEq, Repr

/-- A plain object: field names with their values, in insertion order. -/
abbrev Fields := List (String × Value)

/-- Property read `o[k]`; `none` stands for `undefined`. -/
def getField (o : Fields) (k : String) : Option Value :=
  (o.find? (fun p => p.1 == k)).map Prod.snd

/-- Property write `o[k] = v`: in place when the key exists, appended otherwise. -/
def setField : Fields → String → Value → Fields
  | [], k, v => [(k, v)]
  | (k0, v0) :: rest, k, v =>
    if k0 == k then (k0, v) :: rest else (k0, v0) :: setField rest k v

/-- Property removal `delete o[k]`. -/
def deleteField (o : Fields) (k : String) : Fields :=
  o.filter (fun p => !(p.1 == k))

/-- A stored document: its `_id` and its other fields (`__v` among them). -/
structure Doc where
  _id : Nat
  fields : Fields
  deriving DecidableEq, Repr

/-- Plain-object view of a document (`item.toObject()`, also what `res.json(item)` serialises). -/
def Doc.toObject (d : Doc) : Fields :=
  ("_id", Value.oid d._id) :: d.fields

/-! ## Schemas (`models/index.js`) -/

/-- The models exported by `models/index.js`. -/
inductive ModelName where
  | User | Slide | Service | Education | History | Healthcare | Politician
  | Military | Payam | Boma | Sport | Message | Newsletter | Setting
  | News | Artist | Leader | Student | Commissioner
  deriving DecidableEq, Repr

/-- Declared type of a schema path. -/
inductive SchemaType where
  | string | number | date | boolean
  deriving DecidableEq, Repr

/-- Default of a schema path: none, a literal, or `Date.now`. -/
inductive PathDefault where
  | absent
  | lit (v : Value)
  | dateNow
  deriving DecidableEq, Repr

/-- One path of a schema with the options the source gives it. -/
structure SchemaPath where
  name : String
  type : SchemaType
  required : Bool
  unique : Bool
  sparse : Bool
  dflt : PathDefault
  deriving DecidableEq, Repr

/-- Path written `name: String`. -/
def pString (n : String) : SchemaPath := ⟨n, .string, false, false, false, .absent⟩
/-- Path written `name: { type: String, default: d }`. -/
def pStringD (n d : String) : SchemaPath := ⟨n, .string, false, false, false, .lit (.str d)⟩
/-- Path written `name: Number`. -/
def pNumber (n : String) : SchemaPath := ⟨n, .number, false, false, false, .absent⟩
/-- Path written `name: { type: Number, default: d }`. -/
def pNumberD (n : String) (d : Int) : SchemaPath := ⟨n, .number, false, false, false, .lit (.num d)⟩
/-- Path written `name: Date`. -/
def pDate (n : String) : SchemaPath := ⟨n, .date, false, false, false, .absent⟩
/-- Path written `name: { type: Date, default: Date.now }`. -/
def pDateNow (n : String) : SchemaPath := ⟨n, .date, false, false, false, .dateNow⟩
/-- Path written `name: { type: Boolean, default: d }`. -/
def pBoolD (n : String) (d : Bool) : SchemaPath := ⟨n, .boolean, false, false, false, .lit (.bool d)⟩

def userSchema : List SchemaPath :=
  [ ⟨"username", .string, false, true, true, .absent⟩,
    pString "firstName", pString "lastName",
    ⟨"email", .string, true, true, false, .absent⟩,
    ⟨"password", .string, true, false, false, .absent⟩,
    pString "phone", pString "gender", pString "location",
    pStringD "role" "admin", pStringD "status" "active",
    pDateNow "createdAt", pDateNow "updatedAt" ]

def slideSchema : List SchemaPath :=
  [ pString "title", pString "subtitle", pString "image", pString "btnText",
    pString "btnLink", pNumberD "order" 0, pStringD "status" "active",
    pDateNow "createdAt", pDateNow "updatedAt" ]

def serviceSchema : List SchemaPath :=
  [ pString "name", pString "category", pString "location", pString "description",
    pStringD "status" "active", pDateNow "createdAt", pDateNow "updatedAt" ]

def educationSchema : List SchemaPath :=
  [ pString "name", pString "level", pString "location", pString "principal",
    pString "image", pStringD "status" "active",
    pDateNow "createdAt", pDateNow "updatedAt" ]

def historySchema : List SchemaPath :=
  [ pString "title", pString "year", pString "category", pString "description",
    pString "image", pStringD "mediaType" "image", pString "mediaUrl",
    pDateNow "createdAt", pDateNow "updatedAt" ]

def healthcareSchema : List SchemaPath :=
  [ pString "name", pString "type", pString "location", pString "director",
    pString "services", pString "image", pStringD "status" "active",
    pDateNow "createdAt", pDateNow "updatedAt" ]

def politicianSchema : List SchemaPath :=
  [ pString "name", pString "position", pString "party", pString "bio",
    pString "photo", pStringD "status" "active",
    pDateNow "createdAt", pDateNow "updatedAt" ]

def militarySchema : List SchemaPath :=
  [ pString "name", pString "rank", pString "branch", pString "unit",
    pString "bio", pString "photo", pStringD "status" "active",
    pDateNow "createdAt", pDateNow "updatedAt" ]

def payamSchema : List SchemaPath :=
  [ pString "name", pString "chief", pString "population", pString "image",
    pStringD "status" "active", pDateNow "createdAt", pDateNow "updatedAt" ]

def bomaSchema : List SchemaPath :=
  [ pString "name", pString "payam", pString "chief", pString "population",
    pString "image", pStringD "status" "active",
    pDateNow "createdAt", pDateNow "updatedAt" ]

def sportSchema : List SchemaPath :=
  [ pString "name", pString "category", pString "details", pString "location",
    pString "image", pStringD "status" "active",
    pDateNow "createdAt", pDateNow "updatedAt" ]

def messageSchema : List SchemaPath :=
  [ pString "name", pString "email", pString "subject", pString "message",
    pStringD "status" "new", pDateNow "createdAt" ]

def newsletterSchema : List SchemaPath :=
  [ ⟨"email", .string, true, true, false, .absent⟩, pDateNow "subscribedAt" ]

def settingSchema : List SchemaPath :=
  [ pString "siteTitle", pString "contactEmail", pString "contactPhone",
    pString "facebook", pString "twitter", pString "instagram", pString "youtube",
    pDateNow "updatedAt" ]

def newsSchema : List SchemaPath :=
  [ pString "title", pString "category", pString "author", pString "content",
    pString "image", pStringD "mediaType" "image", pString "mediaUrl",
    pNumberD "likes" 0, pStringD "status" "published", pDateNow "date",
    pDateNow "createdAt", pDateNow "updatedAt" ]

def artistSchema : List SchemaPath :=
  [ pString "fullName", pString "stageName", pString "category", pString "genre",
    pString "bio", pString "achievements", pString "payam", pString "contact",
    pString "facebook", pString "instagram", pString "youtube", pString "tiktok",
    pString "photo", pBoolD "featured" false, pStringD "status" "active",
    pDateNow "createdAt", pDateNow "updatedAt" ]

def leaderSchema : List SchemaPath :=
  [ pString "fullName", pString "title", pString "category", pString "payam",
    pString "boma", pString "bio", pString "phone", pString "email",
    pString "photo", pStringD "status" "active",
    pDateNow "createdAt", pDateNow "updatedAt" ]

def studentSchema : List SchemaPath :=
  [ pString "fullName", pString "firstName", pString "middleName", pString "lastName",
    pString "gender", pDate "dob", pString "payam", pString "photo", pString "level",
    pString "studyStatus", pString "institution", pString "country", pString "field",
    pString "specialization", pString "year", pNumber "enrollYear", pNumber "gradYear",
    pBoolD "scholarship" false, pString "scholarshipName", pString "scholarshipType",
    pString "phone", pString "email", pString "address", pString "facebook",
    pString "linkedIn", pString "achievements", pString "activities",
    pString "careerGoal", pString "memberStatus", pDate "joinDate",
    pBoolD "notable" false, pStringD "status" "active",
    pDateNow "createdAt", pDateNow "updatedAt" ]

def commissionerSchema : List SchemaPath :=
  [ pString "name", pString "message", pString "photo", pDateNow "updatedAt" ]

/-- The schema each model is compiled from (`module.exports`). -/
def ModelName.schema : ModelName → List SchemaPath
  | .User => userSchema
  | .Slide => slideSchema
  | .Service => serviceSchema
  | .Education => educationSchema
  | .History => historySchema
  | .Healthcare => healthcareSchema
  | .Politician => politicianSchema
  | .Military => militarySchema
  | .Payam => payamSchema
  | .Boma => bomaSchema
  | .Sport => sportSchema
  | .Message => messageSchema
  | .Newsletter => newsletterSchema
  | .Setting => settingSchema
  | .News => newsSchema
  | .Artist => artistSchema
  | .Leader => leaderSchema
  | .Student => studentSchema
  | .Commissioner => commissionerSchema

/-- The version key Mongoose adds to every schema; a new document is saved with `__v: 0`. -/
def versionPath : SchemaPath := pNumberD "__v" 0

/-- Every path a model can store besides `_id`: the declared ones and the version key. -/
def ModelName.paths (M : ModelName) : List SchemaPath :=
  M.schema ++ [versionPath]

/-- The schema path of a given name, when the model has one. -/
def ModelName.path? (M : ModelName) (k : String) : Option SchemaPath :=
  M.paths.find? (fun p => p.name == k)

/-- The models registered with `createCrudRoutes`, with their resource names. -/
def crudResources : List (ModelName × String) :=
  [ (.Slide, "slides"), (.Service, "services"), (.Education, "education"),
    (.History, "history"), (.Healthcare, "healthcare"), (.Politician, "politicians"),
    (.Military, "military"), (.Payam, "payams"), (.Boma, "bomas"), (.Sport, "sports"),
    (.Message, "messages"), (.Newsletter, "newsletter"), (.User, "users"),
    (.News, "news"), (.Artist, "artists"), (.Leader, "leaders"),
    (.Student, "students"), (.Commissioner, "commissioner") ]

/-! ## Request environment and store -/

/-- What a request meets besides the store: the clock, the ObjectId generator,
an unexpected failure of the store (per collection, with its message), and the
JavaScript conversions of strings to numbers and dates. -/
structure Env where
  now : Int
  newId : Nat
  fault : ModelName → Option String
  parseNumber : String → Option Int
  parseDate : String → Option Int

/-- The document store: one collection per model, in insertion order. -/
structure Store where
  coll : ModelName → List Doc

/-- Replace one collection. -/
def Store.put (st : Store) (M : ModelName) (l : List Doc) : Store :=
  ⟨fun N => if N = M then l else st.coll N⟩

/-- Body of a response. -/
inductive Json where
  | null
  | object (o : Fields)
  | array (items : List Fields)
  deriving DecidableEq, Repr

/-- A response: status code and JSON body. -/
structure Response where
  status : Nat
  body : Json
  deriving DecidableEq, Repr

/-! ## Casting (Mongoose) -/

/-- Value of one hexadecimal digit. -/
def hexDigit? (c : Char) : Option Nat :=
  if 48 ≤ c.toNat ∧ c.toNat ≤ 57 then some (c.toNat - 48)
  else if 97 ≤ c.toNat ∧ c.toNat ≤ 102 then some (c.toNat - 87)
  else if 65 ≤ c.toNat ∧ c.toNat ≤ 70 then some (c.toNat - 55)
  else none

/-- Value of a string of hexadecimal digits, most significant first. -/
def parseHex : List Char → Nat → Option Nat
  | [], acc => some acc
  | c :: cs, acc =>
    match hexDigit? c with
    | some d => parseHex cs (16 * acc + d)
    | none => none

/-- Cast of a string to an ObjectId: exactly 24 hexadecimal digits. (The
12-byte form that older drivers also accept is not modelled.) -/
def castObjectId (s : String) : Option Nat :=
  if s.length = 24 then parseHex s.data 0 else none

/-- The 24 hexadecimal digits of an ObjectId. -/
def oidToHex (n : Nat) : String :=
  String.mk ((List.range 24).reverse.map
    (fun i => let d := n / 16 ^ i % 16
              if d < 10 then Char.ofNat (48 + d) else Char.ofNat (87 + d)))

/-- Message of a CastError (wording abridged, as for every error message below). -/
def castError (type path : String) : String :=
  "Cast to " ++ type ++ " failed at path " ++ path

/-- The exponent of the unit in the last place of a natural number of at least
53 bits, read as a double: the number of bits above 53. -/
def ulpExponent (a : Nat) : Nat :=
  ((List.range 1024).find? (fun e => a < 2 ^ (e + 53))).getD 1024

/-- The double nearest to an integer, as an integer (ties go to the even
significand); an integer under 2^53 in magnitude is a double. Values beyond
the range of the doubles are outside the model. -/
def roundDouble (m : Int) : Int :=
  if m.natAbs < 2 ^ 53 then m
  else
    let e := ulpExponent m.natAbs
    let q := m.natAbs / 2 ^ e
    let r := m.natAbs % 2 ^ e
    let q1 := if 2 ^ e < 2 * r ∨ (2 * r = 2 ^ e ∧ q % 2 = 1) then q + 1 else q
    if m < 0 then -((q1 * 2 ^ e : Nat) : Int) else ((q1 * 2 ^ e : Nat) : Int)

/-- The sum `x + 1` of JavaScript for an integer `x`: exact up to 2^53; above,
where the doubles are the even integers up to 2^54 and the multiples of 4 or
more beyond, the sum is rounded to the nearest double, ties to the even
significand. -/
def addOne (n : Int) : Int :=
  if -(2 ^ 53 : Int) ≤ n ∧ n < 2 ^ 53 then n + 1
  else if n.natAbs ≤ 2 ^ 54 ∧ (0 < n ∨ n.natAbs ≠ 2 ^ 53) ∧
      ¬ (0 < n ∧ n.natAbs = 2 ^ 54) then
    (if n.natAbs / 2 % 2 = 0 then n else n + 2)
  else n

/-- The integer with the fewest significant decimal digits whose nearest
double is the double `v` (of two with as few digits the one nearer to `v`, the
even one when they are as near). -/
def shortestDecimal (v : Nat) : Nat :=
  ((List.range (Nat.toDigits 10 v).length).findSome? (fun j =>
    let scale := 10 ^ ((Nat.toDigits 10 v).length - (j + 1))
    let lo := v / scale * scale
    let hi := (v / scale + 1) * scale
    if roundDouble lo = v ∧ roundDouble hi = v then
      (if v - lo < hi - v then some lo
       else if hi - v < v - lo then some hi
       else if (v / scale) % 2 = 0 then some lo else some hi)
    else if roundDouble lo = v then some lo
    else if roundDouble hi = v then some hi
    else none)).getD v

/-- The digits of a natural number without its trailing zeros. -/
def significantDigits (c : Nat) : List Char :=
  ((Nat.toDigits 10 c).reverse.dropWhile (fun ch => ch == '0')).reverse

/-- The string `String(x)` of JavaScript for an integer `x`: the decimal
digits under 2^53; above, the shortest decimal that reads back as the same
double, written out in full under 10^21 and with an exponent from there on. -/
def numberToString (n : Int) : String :=
  if n.natAbs < 2 ^ 53 then toString n
  else
    let c := shortestDecimal (roundDouble n).natAbs
    let sign := if n < 0 then "-" else ""
    if c < 10 ^ 21 then sign ++ String.mk (Nat.toDigits 10 c)
    else
      match significantDigits c with
      | [] => sign ++ "0"
      | [d] => sign ++ String.mk [d] ++ "e+" ++ toString ((Nat.toDigits 10 c).length - 1)
      | d :: rest =>
        sign ++ String.mk (d :: '.' :: rest) ++ "e+" ++
          toString ((Nat.toDigits 10 c).length - 1)

/-- Cast to String: `value.toString()`. -/
def castString (path : String) : Value → Except String Value
  | .null => .ok .null
  | .str s => .ok (.str s)
  | .num n => .ok (.str (numberToString n))
  | .bool b => .ok (.str (if b then "true" else "false"))
  | .oid n => .ok (.str (oidToHex n))
  | .date _ => .error (castError "string" path)

/-- Cast to Number. -/
def castNumber (env : Env) (path : String) : Value → Except String Value
  | .null => .ok .null
  | .num n => .ok (.num n)
  | .bool b => .ok (.num (if b then 1 else 0))
  | .str s =>
    if s = "" then .ok .null
    else match env.parseNumber s with
      | some n => .ok (.num n)
      | none => .error (castError "Number" path)
  | .date t => .ok (.num t)
  | .oid _ => .error (castError "Number" path)

/-- Greatest absolute time value of a JavaScript Date. -/
def maxDate : Nat := 8640000000000000

/-- Cast to Date. -/
def castDate (env : Env) (path : String) : Value → Except String Value
  | .null => .ok .null
  | .date t => .ok (.date t)
  | .num n => if n.natAbs ≤ maxDate then .ok (.date n) else .error (castError "date" path)
  | .str s =>
    if s = "" then .ok .null
    else match env.parseDate s with
      | some t => .ok (.date t)
      | none => .error (castError "date" path)
  | .bool _ => .error (castError "date" path)
  | .oid _ => .error (castError "date" path)

/-- Cast to Boolean. -/
def castBoolean (path : String) : Value → Except String Value
  | .null => .ok .null
  | .bool b => .ok (.bool b)
  | .num n =>
    if n = 1 then .ok (.bool true) else if n = 0 then .ok (.bool false)
    else .error (castError "Boolean" path)
  | .str s =>
    if s = "true" ∨ s = "1" ∨ s = "yes" then .ok (.bool true)
    else if s = "false" ∨ s = "0" ∨ s = "no" then .ok (.bool false)
    else .error (castError "Boolean" path)
  | .date _ => .error (castError "Boolean" path)
  | .oid _ => .error (castError "Boolean" path)

/-- Cast of a value to the declared type of a path. -/
def castValue (env : Env) (p : SchemaPath) (v : Value) : Except String Value :=
  match p.type with
  | .string => castString p.name v
  | .number => castNumber env p.name v
  | .date => castDate env p.name v
  | .boolean => castBoolean p.name v

/-- Whether a value already has a declared type, or is null: such a value is
stored as it is given. -/
def Value.fits : SchemaType → Value → Bool
  | _, .null => true
  | .string, .str _ => true
  | .number, .num _ => true
  | .date, .date _ => true
  | .boolean, .bool _ => true
  | _, _ => false

/-- Cast of a value given for `_id`. -/
def castIdValue : Value → Except String Nat
  | .oid n => .ok n
  | .str s =>
    match castObjectId s with
    | some n => .ok n
    | none => .error (castError "ObjectId" "_id")
  | _ => .error (castError "ObjectId" "_id")

/-! ## Store operations (Mongoose and MongoDB) -/

/-- Comparison key of a field value in MongoDB sort order: type bracket first
(missing and null lowest, then numbers, strings, ObjectIds, booleans, dates),
then the value inside the bracket. -/
def bsonKey : Option Value → ℕ ×ₗ ℤ ×ₗ List ℕ
  | none => toLex (1, toLex (0, []))
  | some .null => toLex (1, toLex (0, []))
  | some (.num n) => toLex (2, toLex (n, []))
  | some (.str s) => toLex (3, toLex (0, s.data.map Char.toNat))
  | some (.oid n) => toLex (7, toLex ((n : Int), []))
  | some (.bool b) => toLex (8, toLex (if b then 1 else 0, []))
  | some (.date t) => toLex (9, toLex (t, []))

/-- The relation of `sort({ k: -1 })`: `a` may stand before `b`. -/
def sortsBefore (k : String) (a b : Doc) : Prop :=
  bsonKey (getField b.toObject k) ≤ bsonKey (getField a.toObject k)

instance (k : String) : DecidableRel (sortsBefore k) :=
  fun a b => inferInstanceAs (Decidable (bsonKey (getField b.toObject k) ≤ bsonKey (getField a.toObject k)))

/-- Result order of `.sort({ k: -1 })`. MongoDB leaves the order among equal
keys open; the earlier stored document is put first here. -/
def sortDesc (k : String) (l : List Doc) : List Doc :=
  l.insertionSort (sortsBefore k)

/-- The first document of a collection with a given `_id`. -/
def findDoc (l : List Doc) (i : Nat) : Option Doc :=
  l.find? (fun d => d._id == i)

/-- The value a default gives at a request: nothing, the literal, or the clock. -/
def PathDefault.value (env : Env) : PathDefault → Option Value
  | .absent => none
  | .lit v => some v
  | .dateNow => some (.date env.now)

/-- The defaults of the schema paths an object lacks, in the order of the schema. -/
def missingDefaults (env : Env) (o : Fields) : List SchemaPath → Fields
  | [] => []
  | p :: ps =>
    match getField o p.name, p.dflt.value env with
    | none, some v => (p.name, v) :: missingDefaults env o ps
    | _, _ => missingDefaults env o ps

/-- The document Mongoose makes of a stored one when a query loads it: the
stored fields, and the default of every schema path that is missing (a stored
null stays; the version key has no default). -/
def Model.hydrate (env : Env) (M : ModelName) (d : Doc) : Doc :=
  ⟨d._id, d.fields ++ missingDefaults env d.fields M.schema⟩

/-- A document that holds every schema path that has a default, as each
document the routes store does: loading it adds nothing. -/
def Doc.Complete (M : ModelName) (d : Doc) : Prop :=
  ∀ p ∈ M.schema, p.dflt ≠ .absent → getField d.fields p.name ≠ none

instance (M : ModelName) (d : Doc) : Decidable (d.Complete M) :=
  inferInstanceAs (Decidable (∀ p ∈ M.schema, p.dflt ≠ .absent → getField d.fields p.name ≠ none))

/-- The query `Model.find().sort({ updatedAt: -1 })`: the sort runs on the
stored documents. -/
def Model.findSorted (env : Env) (st : Store) (M : ModelName) (k : String) :
    Except String (List Doc) :=
  match env.fault M with
  | some e => .error e
  | none => .ok ((sortDesc k (st.coll M)).map (Model.hydrate env M))

/-- The query `Model.findById(id)`. -/
def Model.findById (env : Env) (st : Store) (M : ModelName) (id : String) :
    Except String (Option Doc) :=
  match castObjectId id with
  | none => .error (castError "ObjectId" "_id")
  | some i =>
    match env.fault M with
    | some e => .error e
    | none => .ok ((findDoc (st.coll M) i).map (Model.hydrate env M))

/-- Fields of a new document along the schema paths: the cast body value where
the body has the path, the default where it has not. -/
def buildFields (env : Env) (body : Fields) : List SchemaPath → Except String Fields
  | [] => .ok []
  | p :: ps =>
    match getField body p.name with
    | some v =>
      match castValue env p v with
      | .error e => .error e
      | .ok c =>
        match buildFields env body ps with
        | .error e => .error e
        | .ok rest => .ok ((p.name, c) :: rest)
    | none =>
      match buildFields env body ps with
      | .error e => .error e
      | .ok rest =>
        match p.dflt.value env with
        | none => .ok rest
        | some v => .ok ((p.name, v) :: rest)

/-- The document `new Model(body)`: strict mode keeps only schema paths; a
cast failure is reported when the document is saved. -/
def Model.new (env : Env) (M : ModelName) (body : Fields) : Except String Doc :=
  match (match getField body "_id" with
         | none => Except.ok env.newId
         | some v => castIdValue v) with
  | .error e => .error e
  | .ok i =>
    match buildFields env body M.paths with
    | .error e => .error e
    | .ok fs => .ok ⟨i, fs⟩

/-- The `required` validator of a path on a document. -/
def requiredOk (p : SchemaPath) (o : Fields) : Bool :=
  !p.required ||
    match getField o p.name with
    | none => false
    | some .null => false
    | some (.str s) => !(s == "")
    | some _ => true

/-- The first required path a document fails, if any. -/
def failedRequired (M : ModelName) (o : Fields) : Option SchemaPath :=
  M.schema.find? (fun p => !requiredOk p o)

/-- The key a document has in the index of a path: a missing field is indexed
as null, unless the index is sparse. -/
def indexKey (p : SchemaPath) (d : Doc) : Option Value :=
  match getField d.fields p.name with
  | some v => some v
  | none => if p.sparse then none else some .null

/-- Whether storing `d` next to `others` breaks a unique index (`_id` or a
path declared `unique`). -/
def duplicateKey (M : ModelName) (others : List Doc) (d : Doc) : Bool :=
  others.any (fun e => e._id == d._id) ||
    M.schema.any (fun p => p.unique &&
      match indexKey p d with
      | none => false
      | some v => others.any (fun e => indexKey p e == some v))

/-- The call `newItem.save()` on a new document: validation, then the insert. -/
def Model.save (env : Env) (st : Store) (M : ModelName) (item : Except String Doc) :
    Except String (Store × Doc) :=
  match item with
  | .error e => .error e
  | .ok d =>
    match failedRequired M d.fields with
    | some p => .error ("Path " ++ p.name ++ " is required.")
    | none =>
      match env.fault M with
      | some e => .error e
      | none =>
        if duplicateKey M (st.coll M) d then .error "E11000 duplicate key error"
        else .ok (st.put M (st.coll M ++ [d]), d)

/-- Cast of an update document: strict mode drops keys that are no schema
path, `_id` is kept apart, every other value is cast to its path. -/
def castUpdate (env : Env) (M : ModelName) : Fields → Except String Fields
  | [] => .ok []
  | (k, v) :: rest =>
    if k = "_id" then
      match castIdValue v with
      | .error e => .error e
      | .ok i =>
        match castUpdate env M rest with
        | .error e => .error e
        | .ok r => .ok ((k, Value.oid i) :: r)
    else
      match M.path? k with
      | none => castUpdate env M rest
      | some p =>
        match castValue env p v with
        | .error e => .error e
        | .ok c =>
          match castUpdate env M rest with
          | .error e => .error e
          | .ok r => .ok ((k, c) :: r)

/-- The `$set` of an update on the fields of a document; of two bindings of one
key the first counts. -/
def applySet (o : Fields) (u : Fields) : Fields :=
  u.foldr (fun p acc => if p.1 = "_id" then acc else setField acc p.1 p.2) o

/-- Replace the first document with a given `_id`. -/
def replaceDoc (l : List Doc) (i : Nat) (d : Doc) : List Doc :=
  match l with
  | [] => []
  | e :: rest => if e._id == i then d :: rest else e :: replaceDoc rest i d

/-- The call `Model.findByIdAndUpdate(id, update, { new: true })`: no
validators run, no document is created when none matches; the store takes the
`$set` alone, the document returned is the updated one as loaded. -/
def Model.findByIdAndUpdate (env : Env) (st : Store) (M : ModelName) (id : String)
    (update : Fields) : Except String (Store × Option Doc) :=
  match castObjectId id with
  | none => .error (castError "ObjectId" "_id")
  | some i =>
    match castUpdate env M update with
    | .error e => .error e
    | .ok u =>
      match env.fault M with
      | some e => .error e
      | none =>
        match findDoc (st.coll M) i with
        | none => .ok (st, none)
        | some d =>
          if (match getField u "_id" with
              | some v => v != Value.oid i
              | none => false) then
            .error "Performing an update on the path _id would modify the immutable field _id"
          else
            let d1 : Doc := ⟨d._id, applySet d.fields u⟩
            if duplicateKey M ((st.coll M).filter (fun e => !(e._id == i))) d1 then
              .error "E11000 duplicate key error"
            else .ok (st.put M (replaceDoc (st.coll M) i d1), some (Model.hydrate env M d1))

/-- The call `Model.findByIdAndDelete(id)`. -/
def Model.findByIdAndDelete (env : Env) (st : Store) (M : ModelName) (id : String) :
    Except String Store :=
  match castObjectId id with
  | none => .error (castError "ObjectId" "_id")
  | some i =>
    match env.fault M with
    | some e => .error e
    | none => .ok (st.put M ((st.coll M).eraseP (fun d => d._id == i)))

/-! ## The generic CRUD routes (`createCrudRoutes`) -/

/-- The body `{ error: err.message }`. -/
def errorBody (msg : String) : Json := .object [("error", .str msg)]

/-- The mapping of GET ALL on one item: `doc.id = doc._id; delete doc._id; delete doc.__v`. -/
def exposeId (item : Doc) : Fields :=
  let doc := item.toObject
  let doc := match getField doc "_id" with
    | some v => setField doc "id" v
    | none => doc
  let doc := deleteField doc "_id"
  deleteField doc "__v"

namespace createCrudRoutes

/-- GET ALL: `router.get("/R")`. -/
def getAll (env : Env) (st : Store) (M : ModelName) : Store × Response :=
  match Model.findSorted env st M "updatedAt" with
  | .ok items => (st, ⟨200, .array (items.map exposeId)⟩)
  | .error msg => (st, ⟨500, errorBody msg⟩)

/-- GET ONE: `router.get("/R/:id")`. -/
def getOne (env : Env) (st : Store) (M : ModelName) (id : String) : Store × Response :=
  match Model.findById env st M id with
  | .ok none => (st, ⟨404, .object [("message", .str "Not Found")]⟩)
  | .ok (some item) => (st, ⟨200, .object item.toObject⟩)
  | .error msg => (st, ⟨500, errorBody msg⟩)

/-- CREATE: `router.post("/R")`. -/
def create (env : Env) (st : Store) (M : ModelName) (body : Fields) : Store × Response :=
  match Model.save env st M (Model.new env M body) with
  | .ok (st1, savedItem) => (st1, ⟨201, .object savedItem.toObject⟩)
  | .error msg => (st, ⟨400, errorBody msg⟩)

/-- UPDATE: `router.put("/R/:id")`. -/
def update (env : Env) (st : Store) (M : ModelName) (id : String) (body : Fields) :
    Store × Response :=
  let body := setField body "updatedAt" (.date env.now)
  match Model.findByIdAndUpdate env st M id body with
  | .ok (st1, some updatedItem) => (st1, ⟨200, .object updatedItem.toObject⟩)
  | .ok (st1, none) => (st1, ⟨200, .null⟩)
  | .error msg => (st, ⟨400, errorBody msg⟩)

/-- DELETE: `router.delete("/R/:id")`. -/
def delete (env : Env) (st : Store) (M : ModelName) (id : String) : Store × Response :=
  match Model.findByIdAndDelete env st M id with
  | .ok st1 => (st1, ⟨200, .object [("message", .str "Deleted successfully")]⟩)
  | .error msg => (st, ⟨500, errorBody msg⟩)

end createCrudRoutes

/-! ## Queries with a filter and a sort -/

/-- The filters the routes pass to `find`, `findOne` and `countDocuments`
(they are tested on the stored documents):
none (or the empty object), `{ status: s }`, `{ status: { $ne: s } }`,
`{ k: v }`, two conditions in one object, and `$or` of two. -/
inductive Filter where
  | all
  | statusIs (s : String)
  | statusIsNot (s : String)
  | fieldIs (k : String) (v : Value)
  | both (a b : Filter)
  | either (a b : Filter)
  deriving DecidableEq, Repr

/-- Whether a stored value equals the value of a query `{ k: v }`; the query
value null (also what `undefined` is sent as) matches a missing field too. -/
def queryMatches (v : Value) (stored : Option Value) : Bool :=
  if v = Value.null then stored == none || stored == some Value.null
  else stored == some v

/-- Whether a document matches a filter. -/
def Filter.test : Filter → Doc → Bool
  | .all, _ => true
  | .statusIs s, d => getField d.toObject "status" == some (Value.str s)
  | .statusIsNot s, d => !(getField d.toObject "status" == some (Value.str s))
  | .fieldIs k v, d => queryMatches v (getField d.toObject k)
  | .both a b, d => a.test d && b.test d
  | .either a b, d => a.test d || b.test d

/-- The sort of a query: none, `.sort({ k: -1 })` or `.sort({ k: 1 })`. -/
inductive SortSpec where
  | natural
  | desc (k : String)
  | asc (k : String)
  deriving DecidableEq, Repr

/-- The relation of `sort({ k: 1 })`: `a` may stand before `b`. -/
def sortsBeforeAsc (k : String) (a b : Doc) : Prop :=
  bsonKey (getField a.toObject k) ≤ bsonKey (getField b.toObject k)

instance (k : String) : DecidableRel (sortsBeforeAsc k) :=
  fun a b => inferInstanceAs (Decidable (bsonKey (getField a.toObject k) ≤ bsonKey (getField b.toObject k)))

/-- Result order of `.sort({ k: 1 })`, the earlier stored document first among
equal keys. -/
def sortAsc (k : String) (l : List Doc) : List Doc :=
  l.insertionSort (sortsBeforeAsc k)

/-- The documents of a query in result order; without a sort, the order of
insertion. -/
def SortSpec.apply : SortSpec → List Doc → List Doc
  | .natural, l => l
  | .desc k, l => sortDesc k l
  | .asc k, l => sortAsc k l

/-- The query `Model.find(filter).sort(sort)`. -/
def Model.find (env : Env) (st : Store) (M : ModelName) (f : Filter) (s : SortSpec) :
    Except String (List Doc) :=
  match env.fault M with
  | some e => .error e
  | none => .ok ((s.apply ((st.coll M).filter f.test)).map (Model.hydrate env M))

/-- The query `Model.findOne(filter).sort(sort)`: the first document of the
result, or null. -/
def Model.findOne (env : Env) (st : Store) (M : ModelName) (f : Filter) (s : SortSpec) :
    Except String (Option Doc) :=
  match env.fault M with
  | some e => .error e
  | none => .ok ((s.apply ((st.coll M).filter f.test)).head?.map (Model.hydrate env M))

/-- The query `Model.countDocuments(filter)`. -/
def Model.countDocuments (env : Env) (st : Store) (M : ModelName) (f : Filter) :
    Except String Nat :=
  match env.fault M with
  | some e => .error e
  | none => .ok ((st.coll M).filter f.test).length

/-! ## Responses with nested values -/

/-- The value of a top-level key in the body of an aggregate response: a
scalar, an array of documents, a document or null, or a plain object of
scalars. -/
inductive Item where
  | scalar (v : Value)
  | docs (l : List Fields)
  | doc (d : Option Fields)
  | record (o : Fields)
  deriving DecidableEq, Repr

/-- A response whose body is an object of items. -/
structure Aggregate where
  status : Nat
  body : List (String × Item)
  deriving DecidableEq, Repr

/-- The item under a top-level key, if the body has the key. -/
def Aggregate.item (r : Aggregate) (k : String) : Option Item :=
  (r.body.find? (fun p => p.1 == k)).map Prod.snd

/-- The body `{ error: err.message }` of an aggregate response. -/
def errorItems (msg : String) : List (String × Item) := [("error", .scalar (.str msg))]

/-! ## The consolidated public data (`router.get("/public-data")`) -/

/-- One list of the public data: its key, the model read, the filter and the sort. -/
structure ListRead where
  key : String
  model : ModelName
  filter : Filter
  sort : SortSpec
  deriving DecidableEq, Repr

/-- The lists of the public data in the order in which the handler awaits them. -/
def publicLists : List ListRead :=
  [ ⟨"news", .News, .statusIs "published", .desc "date"⟩,
    ⟨"services", .Service, .statusIs "active", .desc "createdAt"⟩,
    ⟨"education", .Education, .statusIs "active", .natural⟩,
    ⟨"healthcare", .Healthcare, .statusIs "active", .natural⟩,
    ⟨"politicians", .Politician, .statusIs "active", .natural⟩,
    ⟨"military", .Military, .statusIs "active", .natural⟩,
    ⟨"payams", .Payam, .statusIs "active", .natural⟩,
    ⟨"bomas", .Boma, .statusIs "active", .natural⟩,
    ⟨"sports", .Sport, .statusIs "active", .natural⟩,
    ⟨"artists", .Artist, .statusIs "active", .natural⟩,
    ⟨"leaders", .Leader, .statusIs "active", .natural⟩,
    ⟨"students", .Student, .statusIs "active", .natural⟩,
    ⟨"slides", .Slide, .statusIs "active", .asc "order"⟩,
    ⟨"history", .History, .all, .desc "year"⟩ ]

/-- The reads of the lists one after the other; the first failure ends them. -/
def readLists (env : Env) (st : Store) : List ListRead → Except String (List (String × Item))
  | [] => .ok []
  | r :: rs =>
    match Model.find env st r.model r.filter r.sort with
    | .error e => .error e
    | .ok found =>
      match readLists env st rs with
      | .error e => .error e
      | .ok rest => .ok ((r.key, Item.docs (found.map Doc.toObject)) :: rest)

/-- The three last keys of the public data: `settings`, `commissioner` (the
most recently updated profile) and `stats`. -/
def readSingles (env : Env) (st : Store) : Except String (List (String × Item)) :=
  match Model.findOne env st .Setting .all .natural with
  | .error e => .error e
  | .ok settings =>
    match Model.findOne env st .Commissioner .all (.desc "updatedAt") with
    | .error e => .error e
    | .ok commissioner =>
      match Model.countDocuments env st .Student (.statusIs "active") with
      | .error e => .error e
      | .ok totalStudents =>
        match Model.countDocuments env st .News (.statusIs "published") with
        | .error e => .error e
        | .ok totalNews =>
          .ok [ ("settings", Item.doc (settings.map Doc.toObject)),
                ("commissioner", Item.doc (commissioner.map Doc.toObject)),
                ("stats", Item.record [("totalStudents", .num totalStudents),
                                       ("totalNews", .num totalNews)]) ]

/-- The handler of `GET /api/public-data`: every read inside one `try`. -/
def getPublicData (env : Env) (st : Store) : Store × Aggregate :=
  match readLists env st publicLists with
  | .error msg => (st, ⟨500, errorItems msg⟩)
  | .ok lists =>
    match readSingles env st with
    | .error msg => (st, ⟨500, errorItems msg⟩)
    | .ok singles => (st, ⟨200, lists ++ singles⟩)

/-! ## Documents in memory and the settings (`router.get("/settings")`, `router.put("/settings")`) -/

/-- The statements `Object.assign(doc, body)` and `doc.save()` on a loaded
document: every key of the body that is a schema path is set to its cast
value, the other keys are not stored; `save` writes the paths that were set
and the defaults that were filled in when the document was loaded, so the
stored document becomes the loaded one with the paths set. A body key `save`
replaces the method, and the call of `save` throws. A value that does not
cast, another `_id`, a failed validator, a store failure or a broken unique
index makes `save` throw as well, and nothing is stored. -/
def Document.assignSave (env : Env) (st : Store) (M : ModelName) (doc : Doc) (body : Fields) :
    Except String (Store × Doc) :=
  if (getField body "save").isSome then .error "settings.save is not a function"
  else
  match castUpdate env M body with
  | .error e => .error e
  | .ok u =>
    if (match getField u "_id" with
        | some v => v != Value.oid doc._id
        | none => false) then
      .error "Performing an update on the path _id would modify the immutable field _id"
    else
      match failedRequired M (applySet doc.fields u) with
      | some p => .error ("Path " ++ p.name ++ " is required.")
      | none =>
        match env.fault M with
        | some e => .error e
        | none =>
          if duplicateKey M ((st.coll M).filter (fun e => !(e._id == doc._id)))
              ⟨doc._id, applySet doc.fields u⟩ then
            .error "E11000 duplicate key error"
          else
            .ok (st.put M (replaceDoc (st.coll M) doc._id ⟨doc._id, applySet doc.fields u⟩),
              ⟨doc._id, applySet doc.fields u⟩)

/-- The handler of `GET /api/settings`: the first settings document, created
from the empty object when there is none. -/
def getSettings (env : Env) (st : Store) : Store × Response :=
  match Model.findOne env st .Setting .all .natural with
  | .error msg => (st, ⟨500, errorBody msg⟩)
  | .ok (some settings) => (st, ⟨200, .object settings.toObject⟩)
  | .ok none =>
    match Model.save env st .Setting (Model.new env .Setting []) with
    | .ok (st1, settings) => (st1, ⟨200, .object settings.toObject⟩)
    | .error msg => (st, ⟨500, errorBody msg⟩)

/-- The handler of `PUT /api/settings`: `new Setting(req.body)` when there is
no settings document, `Object.assign(settings, req.body)` when there is one,
then `settings.updatedAt = new Date()` and `save`. The assignment of
`updatedAt` replaces what the body gave for that path, so the body enters with
the stamp written over it. -/
def putSettings (env : Env) (st : Store) (body : Fields) : Store × Response :=
  match Model.findOne env st .Setting .all .natural with
  | .error msg => (st, ⟨500, errorBody msg⟩)
  | .ok none =>
    match Model.save env st .Setting
        (Model.new env .Setting (setField body "updatedAt" (.date env.now))) with
    | .ok (st1, settings) => (st1, ⟨200, .object settings.toObject⟩)
    | .error msg => (st, ⟨500, errorBody msg⟩)
  | .ok (some settings) =>
    match Document.assignSave env st .Setting settings
        (setField body "updatedAt" (.date env.now)) with
    | .ok (st1, saved) => (st1, ⟨200, .object saved.toObject⟩)
    | .error msg => (st, ⟨500, errorBody msg⟩)

/-- A request to the settings. -/
inductive SettingsRequest where
  | get
  | put (body : Fields)
  deriving DecidableEq, Repr

/-- One settings request handled. -/
def settingsStep (env : Env) (st : Store) : SettingsRequest → Store × Response
  | .get => getSettings env st
  | .put body => putSettings env st body

/-- A sequence of settings requests, each with its environment, handled one
after the other: the store at the end and the responses in order. -/
def runSettings : List (Env × SettingsRequest) → Store → Store × List Response
  | [], st => (st, [])
  | (env, r) :: rest, st =>
    let out := settingsStep env st r
    let tail := runSettings rest out.1
    (tail.1, out.2 :: tail.2)

/-- The collections the public data reads. -/
def publicModels : List ModelName :=
  publicLists.map (fun r => r.model) ++ [.Setting, .Commissioner]

/-- The stored documents one list read finds when the store does not fail, in
result order; the response holds them as loaded. -/
def ListRead.result (st : Store) (r : ListRead) : List Doc :=
  r.sort.apply ((st.coll r.model).filter r.filter.test)

/-! ## Uploads (`upload`, `router.post("/upload")`) -/

/-- A file part of a multipart request as multer hands it to the filter: the
field it comes under, the name and the content type the client declares, and
its size in bytes. -/
structure FilePart where
  fieldname : String
  originalname : String
  mimetype : String
  size : Nat
  deriving DecidableEq, Repr

/-- The uploads directory: the names of the files in it. -/
abbrev Disk := List String

/-- An error of the upload middleware: a `MulterError`, or another `Error`. -/
inductive UploadFailure where
  | multer (msg : String)
  | other (msg : String)
  deriving DecidableEq, Repr

/-- The test `s.startsWith(p)`. -/
def startsWith (s p : String) : Bool := p.data.isPrefixOf s.data

/-- A string in lower case, as the multipart parser hands on the declared type
of a part. -/
def lowerCase (s : String) : String :=
  String.mk (s.data.map (fun c =>
    if 65 ≤ c.toNat ∧ c.toNat ≤ 90 then Char.ofNat (c.toNat + 32) else c))

/-- The `fileFilter` of `upload`: whether the declared type, which the filter
sees in lower case, is accepted. -/
def fileFilter (file : FilePart) : Bool :=
  startsWith (lowerCase file.mimetype) "image/" ||
    startsWith (lowerCase file.mimetype) "video/" ||
    startsWith (lowerCase file.mimetype) "audio/"

/-- The limit `fileSize` of `upload`: 50 MB. -/
def fileSizeLimit : Nat := 50 * 1024 * 1024

/-- The extension of a file name (`path.extname`): from the last dot of the last
path segment, empty when there is none or when the only dot leads the segment. -/
def extname (name : String) : String :=
  match (name.data.reverse.takeWhile (fun c => c != '/')).reverse with
  | [] => ""
  | c :: rest =>
    if c :: rest = ['.', '.'] then ""
    else if rest.contains '.' then
      String.mk ('.' :: (rest.reverse.takeWhile (fun c => c != '.')).reverse)
    else ""

/-- The `filename` of the disk storage: field name, `Date.now()`, a random
number below 10^9 and the extension of the original name. -/
def storageFilename (now : Int) (rand : Nat) (file : FilePart) : String :=
  file.fieldname ++ "-" ++ toString now ++ "-" ++ toString rand ++ extname file.originalname

/-- The middleware `upload.single("image")` on the file parts of a request: a
part under another field, or a second part, is an unexpected field; a part the
filter refuses ends the upload with the error of the filter; a part that
reaches the size limit ends it with a `MulterError`. After an error no file of the request
is left on the disk. -/
def uploadSingle (now : Int) (rand : Nat) (disk : Disk) :
    List FilePart → Except UploadFailure (Disk × Option String)
  | [] => .ok (disk, none)
  | file :: rest =>
    if file.fieldname != "image" then .error (.multer "Unexpected field")
    else if !fileFilter file then
      .error (.other "Only images, videos, and audio files are allowed")
    else if file.size ≥ fileSizeLimit then .error (.multer "File too large")
    else if !rest.isEmpty then .error (.multer "Unexpected field")
    else
      .ok (if disk.contains (storageFilename now rand file) then disk
           else storageFilename now rand file :: disk,
           some (storageFilename now rand file))

/-- The handler of `POST /api/upload`. -/
def postUpload (now : Int) (rand : Nat) (disk : Disk) (files : List FilePart) :
    Disk × Response :=
  match uploadSingle now rand disk files with
  | .error (.multer msg) => (disk, ⟨400, errorBody ("Upload error: " ++ msg)⟩)
  | .error (.other msg) => (disk, ⟨500, errorBody ("Server error: " ++ msg)⟩)
  | .ok (disk1, none) => (disk1, ⟨400, errorBody "No file selected"⟩)
  | .ok (disk1, some filename) =>
    (disk1, ⟨200, .object [("url", .str ("/uploads/" ++ filename))]⟩)

/-! ## Likes, statistics and accounts -/

/-- The value of `news.likes || 0`: the stored number, 0 when the field is
missing or null. (The routes store a number or null at this path; a stored
value of another kind counts as 0 here.) -/
def likesOrZero : Option Value → Int
  | some (.num n) => n
  | _ => 0

/-- The handler of `POST /api/news/:id/like`. -/
def likeNews (env : Env) (st : Store) (id : String) : Store × Response :=
  match Model.findById env st .News id with
  | .error msg => (st, ⟨500, errorBody msg⟩)
  | .ok none => (st, ⟨404, .object [("message", .str "News not found")]⟩)
  | .ok (some news) =>
    match Document.assignSave env st .News news
        [("likes", .num (addOne (likesOrZero (getField news.fields "likes"))))] with
    | .ok (st1, _) =>
      (st1, ⟨200, .object [("success", .bool true),
        ("likes", .num (addOne (likesOrZero (getField news.fields "likes"))))]⟩)
    | .error msg => (st, ⟨500, errorBody msg⟩)

/-- One count of the statistics: its key, the model and the filter. -/
structure CountRead where
  key : String
  model : ModelName
  filter : Filter
  deriving DecidableEq, Repr

/-- The counts of `GET /api/stats` in the order in which the handler awaits them. -/
def statsCounts : List CountRead :=
  [ ⟨"services", .Service, .all⟩, ⟨"education", .Education, .all⟩,
    ⟨"healthcare", .Healthcare, .all⟩, ⟨"politicians", .Politician, .all⟩,
    ⟨"news", .News, .all⟩, ⟨"artists", .Artist, .all⟩, ⟨"leaders", .Leader, .all⟩,
    ⟨"students", .Student, .all⟩, ⟨"users", .User, .all⟩, ⟨"slides", .Slide, .all⟩,
    ⟨"payams", .Payam, .all⟩, ⟨"bomas", .Boma, .all⟩, ⟨"sports", .Sport, .all⟩,
    ⟨"military", .Military, .all⟩, ⟨"history", .History, .all⟩,
    ⟨"messages", .Message, .all⟩, ⟨"commissioner", .Commissioner, .all⟩,
    ⟨"unreadMessages", .Message, .statusIsNot "read"⟩,
    ⟨"publishedNews", .News, .statusIs "published"⟩ ]

/-- The counts one after the other; the first failure ends them. -/
def readCounts (env : Env) (st : Store) : List CountRead → Except String Fields
  | [] => .ok []
  | r :: rs =>
    match Model.countDocuments env st r.model r.filter with
    | .error e => .error e
    | .ok n =>
      match readCounts env st rs with
      | .error e => .error e
      | .ok rest => .ok ((r.key, Value.num n) :: rest)

/-- The handler of `GET /api/stats`. -/
def getStats (env : Env) (st : Store) : Store × Response :=
  match readCounts env st statsCounts with
  | .ok stats => (st, ⟨200, .object stats⟩)
  | .error msg => (st, ⟨500, errorBody msg⟩)

/-- The part of an e-mail address before the first `@` (`email.split("@")[0]`). -/
def emailLocalPart (email : String) : String :=
  String.mk (email.data.takeWhile (fun c => c != '@'))

/-- The fields of a body under given keys, the undefined ones left out. -/
def pickFields (body : Fields) (keys : List String) : Fields :=
  keys.filterMap (fun k => (getField body k).map (fun v => (k, v)))

/-- The body `{ success, message }`. -/
def successBody (ok : Bool) (msg : String) : Json :=
  .object [("success", .bool ok), ("message", .str msg)]

/-- The handler of `POST /api/auth/register`. An `email` that is no string
makes `email.split` throw after the search for an existing user. -/
def register (env : Env) (st : Store) (body : Fields) : Store × Response :=
  match castString "email" ((getField body "email").getD .null) with
  | .error msg => (st, ⟨500, successBody false msg⟩)
  | .ok q =>
    match Model.findOne env st .User (.fieldIs "email" q) .natural with
    | .error msg => (st, ⟨500, successBody false msg⟩)
    | .ok (some _) => (st, ⟨400, successBody false "Email already registered"⟩)
    | .ok none =>
      match getField body "email" with
      | some (.str email) =>
        match Model.save env st .User (Model.new env .User
            (("username", .str (emailLocalPart email)) ::
              pickFields body ["email", "password", "firstName", "lastName", "phone",
                "gender", "location"])) with
        | .ok (st1, _) => (st1, ⟨201, successBody true "Registration successful"⟩)
        | .error msg => (st, ⟨500, successBody false msg⟩)
      | _ => (st, ⟨500, successBody false "email.split is not a function"⟩)

/-- Truthiness of a field value in JavaScript. -/
def truthy : Option Value → Bool
  | some (.str s) => s != ""
  | some (.num n) => n != 0
  | some (.bool b) => b
  | some (.date _) => true
  | some (.oid _) => true
  | some .null => false
  | none => false

/-- A key with its value, left out when the value is undefined. -/
def optionalField (k : String) : Option Value → Fields
  | some v => [(k, v)]
  | none => []

/-- The object `{ username: user.username || user.firstName, role, id }`. -/
def userSummary (user : Doc) : Fields :=
  optionalField "username"
      (if truthy (getField user.fields "username") then getField user.fields "username"
       else getField user.fields "firstName") ++
    optionalField "role" (getField user.fields "role") ++ [("id", Value.oid user._id)]

/-- The handler of `POST /api/auth/login`: the first user whose username or
e-mail address is the given name and whose password is the given one. -/
def login (env : Env) (st : Store) (body : Fields) : Store × Aggregate :=
  match castString "username" ((getField body "username").getD .null),
      castString "password" ((getField body "password").getD .null) with
  | .ok username, .ok password =>
    match Model.findOne env st .User
        (.both (.either (.fieldIs "username" username) (.fieldIs "email" username))
          (.fieldIs "password" password)) .natural with
    | .ok (some user) =>
      (st, ⟨200, [("success", .scalar (.bool true)), ("user", .record (userSummary user))]⟩)
    | .ok none =>
      (st, ⟨401, [("success", .scalar (.bool false)),
        ("message", .scalar (.str "Invalid credentials"))]⟩)
    | .error _ =>
      (st, ⟨500, [("success", .scalar (.bool false)),
        ("message", .scalar (.str "Internal server error"))]⟩)
  | _, _ =>
    (st, ⟨500, [("success", .scalar (.bool false)),
      ("message", .scalar (.str "Internal server error"))]⟩)

/-! ## The API as a whole -/

/-- The model behind a resource name of the generic routes, if the name is
registered. -/
def resourceModel (name : String) : Option ModelName :=
  (crudResources.find? (fun r => r.2 == name)).map Prod.fst

/-- A request to a route of the router mounted at `/api`. The first five are
the generic routes, with the resource name of the path. -/
inductive Request where
  | getAll (resource : String)
  | getOne (resource : String) (id : String)
  | create (resource : String) (body : Fields)
  | update (resource : String) (id : String) (body : Fields)
  | delete (resource : String) (id : String)
  | getSettings
  | putSettings (body : Fields)
  | getPublicData
  | postUpload (files : List FilePart)
  | likeNews (id : String)
  | getStats
  | register (body : Fields)
  | login (body : Fields)
  deriving DecidableEq, Repr

/-- The store after a request. A generic route under a name that is not
registered does not exist, and an upload touches the disk only: both leave the
store as it is. -/
def handle (env : Env) (st : Store) : Request → Store
  | .getAll resource =>
    match resourceModel resource with
    | some M => (createCrudRoutes.getAll env st M).1
    | none => st
  | .getOne resource id =>
    match resourceModel resource with
    | some M => (createCrudRoutes.getOne env st M id).1
    | none => st
  | .create resource body =>
    match resourceModel resource with
    | some M => (createCrudRoutes.create env st M body).1
    | none => st
  | .update resource id body =>
    match resourceModel resource with
    | some M => (createCrudRoutes.update env st M id body).1
    | none => st
  | .delete resource id =>
    match resourceModel resource with
    | some M => (createCrudRoutes.delete env st M id).1
    | none => st
  | .getSettings => (getSettings env st).1
  | .putSettings body => (putSettings env st body).1
  | .getPublicData => (getPublicData env st).1
  | .postUpload _ => st
  | .likeNews id => (likeNews env st id).1
  | .getStats => (getStats env st).1
  | .register body => (register env st body).1
  | .login body => (login env st body).1

/-- Whether a request is to a route that inserts into a collection: the
generic create of the resource of the collection, the two settings routes for
the settings, the registration for the users. -/
def Request.insertsInto (N : ModelName) : Request → Bool
  | .create resource _ => resourceModel resource == some N
  | .getSettings => N == .Setting
  | .putSettings _ => N == .Setting
  | .register _ => N == .User
  | _ => false

/-- A sequence of requests, each with its environment, handled one after the
other. -/
def handleAll : List (Env × Request) → Store → Store
  | [], st => st
  | (env, r) :: rest, st => handleAll rest (handle env st r)

/-! ## The default administrator (`seedAdmin`) -/

/-- The object `seedAdmin` passes to `new User`. -/
def seedAdminBody : Fields :=
  [("username", .str "admin"), ("email", .str "admin@guitcounty.gov"),
   ("password", .str "admin123"), ("firstName", .str "System"),
   ("lastName", .str "Administrator"), ("role", .str "admin")]

/-- The function `seedAdmin`, run when the server starts listening: the
default administrator is saved when no user has the role `admin`; whatever is
thrown is logged and dropped. -/
def seedAdmin (env : Env) (st : Store) : Store :=
  match Model.countDocuments env st .User (.fieldIs "role" (.str "admin")) with
  | .error _ => st
  | .ok adminCount =>
    if adminCount = 0 then
      match Model.save env st .User (Model.new env .User seedAdminBody) with
      | .ok (st1, _) => st1
      | .error _ => st
    else st

/-! ## The login form (`assets/js/auth.js`)

The script keeps the count of failed attempts in a variable and in the session
storage, the lockout and the session in the local storage. A page is the
variable together with the two storages; a page load and a submission of the
form are functions of the clock and the page. Of the document only what the
handler reads (the two form fields) and what it reports (the message) is
kept, as the inputs and the outcome of a submission. -/

namespace Auth

/-- The object `CONFIG` (the storage keys left out). -/
structure Config where
  username : String
  password : String
  SESSION_DURATION : Int
  MAX_LOGIN_ATTEMPTS : Int
  LOCKOUT_DURATION : Int
  deriving DecidableEq, Repr

/-- The constants of the script. -/
def CONFIG : Config := ⟨"admin", "password", 3600000, 5, 300000⟩

/-- The value stored under `guitLoginLockout`. -/
structure Lockout where
  lockedAt : Int
  expiresAt : Int
  deriving DecidableEq, Repr

/-- The value stored under `guitAdminSession`. -/
structure Session where
  username : String
  loginTime : Int
  expiresAt : Int
  deriving DecidableEq, Repr

/-- The variable `loginAttempts`, the entry `loginAttempts` of the session
storage (a number the script wrote, or nothing), the lockout and the session
of the local storage, and whether the submit handler is attached. -/
structure Page where
  loginAttempts : Nat
  storedAttempts : Option Nat
  lockout : Option Lockout
  session : Option Session
  formReady : Bool
  deriving DecidableEq, Repr

/-- What a submission shows: nothing (no handler attached), the lockout
message with its minutes, the request for both fields, the success message, or
the message of invalid credentials with the attempts remaining. -/
inductive Outcome where
  | noHandler
  | lockedOut (minutes : Int)
  | missingInput
  | success
  | invalid (remainingAttempts : Int)
  deriving DecidableEq, Repr

/-- White space and line terminators of ECMAScript, as `trim` removes them. -/
def isWhiteSpace (c : Char) : Bool :=
  [9, 10, 11, 12, 13, 32, 160, 5760, 8192, 8193, 8194, 8195, 8196, 8197, 8198, 8199, 8200,
    8201, 8202, 8232, 8233, 8239, 8287, 12288, 65279].contains c.toNat

/-- The method `String.prototype.trim`. -/
def trim (s : String) : String :=
  String.mk ((s.data.dropWhile isWhiteSpace).reverse.dropWhile isWhiteSpace).reverse

/-- The function `authenticate`. -/
def authenticate (username password : String) : Bool :=
  username == CONFIG.username && password == CONFIG.password

/-- The function `createSession`. -/
def createSession (now : Int) (username : String) (p : Page) : Page :=
  { p with session := some ⟨username, now, now + CONFIG.SESSION_DURATION⟩ }

/-- The function `isLoggedIn`: an expired session is removed. -/
def isLoggedIn (now : Int) (p : Page) : Bool × Page :=
  match p.session with
  | none => (false, p)
  | some session =>
    if now > session.expiresAt then (false, { p with session := none }) else (true, p)

/-- The function `lockoutUser`; both readings of the clock fall in one instant. -/
def lockoutUser (now : Int) (p : Page) : Page :=
  { p with lockout := some ⟨now, now + CONFIG.LOCKOUT_DURATION⟩ }

/-- The function `isLockedOut`: an expired lockout is removed. -/
def isLockedOut (now : Int) (p : Page) : Bool × Page :=
  match p.lockout with
  | none => (false, p)
  | some lockout =>
    if now > lockout.expiresAt then (false, { p with lockout := none }) else (true, p)

/-- The minutes `handleLockout` reports: `Math.ceil((expiresAt - now) / 1000 / 60)`.
The script calls it only when a lockout is stored (without one it would throw;
0 stands for that here). -/
def handleLockout (now : Int) (p : Page) : Outcome :=
  match p.lockout with
  | none => .lockedOut 0
  | some lockout => .lockedOut (-((now - lockout.expiresAt) / 60000))

/-- The function `init` at a page load: the variable starts at 0; a visitor
who is logged in is redirected, one who is locked out gets no form; otherwise
the handler is attached and the stored count is read. -/
def init (now : Int) (p : Page) : Page :=
  match isLoggedIn now { p with loginAttempts := 0, formReady := false } with
  | (true, p1) => p1
  | (false, p1) =>
    match isLockedOut now p1 with
    | (true, p2) => p2
    | (false, p2) =>
      { p2 with formReady := true,
                loginAttempts := match p2.storedAttempts with
                  | some n => n
                  | none => 0 }

/-- The submit handler: `now` is the clock when the form is submitted,
`later` the clock after the delay of 500 ms; `username` and `password` are
what the form data holds (nothing for a field that is missing or disabled). -/
def submit (now later : Int) (username password : Option String) (p : Page) :
    Page × Outcome :=
  if !p.formReady then (p, .noHandler)
  else
    match isLockedOut now p with
    | (true, p1) => (p1, handleLockout now p1)
    | (false, p1) =>
      match username.map trim, password with
      | some u, some pw =>
        if u = "" ∨ pw = "" then (p1, .missingInput)
        else if authenticate u pw then
          (createSession later u { p1 with loginAttempts := 0, storedAttempts := none },
            .success)
        else
          let p2 : Page := { p1 with loginAttempts := p1.loginAttempts + 1,
                                     storedAttempts := some (p1.loginAttempts + 1) }
          if CONFIG.MAX_LOGIN_ATTEMPTS - (p2.loginAttempts : Int) ≤ 0 then
            (lockoutUser later p2, handleLockout later (lockoutUser later p2))
          else (p2, .invalid (CONFIG.MAX_LOGIN_ATTEMPTS - (p2.loginAttempts : Int)))
      | _, _ => (p1, .missingInput)

/-- A page of a visitor without failed attempts, lockout or session, the form
ready. -/
def freshPage : Page := ⟨0, none, none, none, true⟩

/-- Submissions one after the other: each with its two clock readings and its
two fields; the page at the end and the outcomes in order. -/
def submitAll : List (Int × Int × Option String × Option String) → Page → Page × List Outcome
  | [], p => (p, [])
  | (now, later, username, password) :: rest, p =>
    let out := submit now later username password p
    let tail := submitAll rest out.1
    (tail.1, out.2 :: tail.2)

end Auth

/-! ## The hero slideshow (`assets/js/slideshow.js`)

The state object of the script with the fields the slide control reads and
writes. The document enters through the number of slide elements it holds at
a call; the end of a transition (the timer `showSlide` sets) is a step of its
own. Slide indices are integers. -/

namespace Slideshow

/-- The fields of `CONFIG` the slide control reads. -/
structure Config where
  AUTO_PLAY : Bool
  LOOP : Bool
  deriving DecidableEq, Repr

/-- The object `CONFIG` as the script sets it. -/
def CONFIG : Config := ⟨true, true⟩

/-- The object `state`; `slideInterval` is whether the interval timer is set. -/
structure State where
  currentSlide : Int
  totalSlides : Nat
  slideInterval : Bool
  isPaused : Bool
  isInitialized : Bool
  isTransitioning : Bool
  deriving DecidableEq, Repr

/-- The state the script starts with. -/
def initialState : State := ⟨0, 0, false, false, false, false⟩

/-- The function `showSlide`: ignored during a transition and for an index
out of range. -/
def showSlide (s : State) (index : Int) : State :=
  if s.isTransitioning then s
  else if index < 0 ∨ index ≥ (s.totalSlides : Int) then s
  else { s with isTransitioning := true, currentSlide := index }

/-- The timer of `showSlide` after `TRANSITION_DURATION`. -/
def transitionEnd (s : State) : State :=
  { s with isTransitioning := false }

/-- The function `nextSlide`. -/
def nextSlide (cfg : Config) (s : State) : State :=
  showSlide s
    (if s.currentSlide + 1 ≥ (s.totalSlides : Int) then
       (if cfg.LOOP then 0 else (s.totalSlides : Int) - 1)
     else s.currentSlide + 1)

/-- The function `prevSlide`. -/
def prevSlide (cfg : Config) (s : State) : State :=
  showSlide s
    (if s.currentSlide - 1 < 0 then
       (if cfg.LOOP then (s.totalSlides : Int) - 1 else 0)
     else s.currentSlide - 1)

/-- The function `goToSlide` on a number. -/
def goToSlide (s : State) (index : Int) : State :=
  showSlide s index

/-- The function `stopAutoPlay`. -/
def stopAutoPlay (s : State) : State :=
  { s with slideInterval := false }

/-- The function `startAutoPlay`. -/
def startAutoPlay (cfg : Config) (s : State) : State :=
  if !cfg.AUTO_PLAY then stopAutoPlay s else { stopAutoPlay s with slideInterval := true }

/-- The tick of the interval timer of `startAutoPlay`. -/
def autoPlayTick (cfg : Config) (s : State) : State :=
  if s.slideInterval && !s.isPaused && !s.isTransitioning then nextSlide cfg s else s

/-- The function `init` on a document with `slides` slide elements. -/
def init (cfg : Config) (slides : Nat) (s : State) : State :=
  if s.isInitialized then s
  else if slides = 0 then s
  else
    let s1 := showSlide { s with totalSlides := slides } 0
    let s2 := if cfg.AUTO_PLAY then startAutoPlay cfg s1 else s1
    { s2 with isInitialized := true }

/-- The function `HeroSlideshow.refresh` on a document with `slides` slide elements. -/
def refresh (cfg : Config) (slides : Nat) (s : State) : State :=
  startAutoPlay cfg (goToSlide { stopAutoPlay s with totalSlides := slides } 0)

/-- The function `HeroSlideshow.restart` on a document with `slides` slide
elements; `firstChanged` is whether the first cached slide is no longer the
first slide of the document. -/
def restart (cfg : Config) (slides : Nat) (firstChanged : Bool) (s : State) : State :=
  if slides ≠ s.totalSlides ∨ firstChanged then refresh cfg slides s
  else startAutoPlay cfg (goToSlide (stopAutoPlay s) 0)

/-- An operation on the slideshow. -/
inductive Op where
  | showSlide (index : Int)
  | nextSlide
  | prevSlide
  | goToSlide (index : Int)
  | refresh (slides : Nat)
  | restart (slides : Nat) (firstChanged : Bool)
  | transitionEnd
  deriving DecidableEq, Repr

/-- The state after an operation. -/
def step (cfg : Config) (s : State) : Op → State
  | .showSlide index => showSlide s index
  | .nextSlide => nextSlide cfg s
  | .prevSlide => prevSlide cfg s
  | .goToSlide index => goToSlide s index
  | .refresh slides => refresh cfg slides s
  | .restart slides firstChanged => restart cfg slides firstChanged s
  | .transitionEnd => transitionEnd s

/-- The state after operations one after the other. -/
def run (cfg : Config) : List Op → State → State
  | [], s => s
  | op :: rest, s => run cfg rest (step cfg s op)

end Slideshow

/-- A store in which `_id` is unique inside every collection, as MongoDB keeps it. -/
def Store.UniqueIds (st : Store) : Prop :=
  ∀ M, ((st.coll M).map Doc._id).Nodup

/-! ## Sample data -/

/-- Value of a string of decimal digits, most significant first. -/
def digitsValue : List Char → Nat → Option Nat
  | [], acc => some acc
  | c :: cs, acc =>
    if 48 ≤ c.toNat ∧ c.toNat ≤ 57 then digitsValue cs (10 * acc + (c.toNat - 48)) else none

/-- A reading of strings as numbers that knows the decimal integers. -/
def parseInteger (s : String) : Option Int :=
  match s.data with
  | [] => none
  | c :: cs =>
    if c = '-' then
      (if cs = [] then none else (digitsValue cs 0).map (fun n => -(n : Int)))
    else (digitsValue (c :: cs) 0).map (fun n => (n : Int))

/-- An environment without failures: the clock at 1000, the next ObjectId 7,
number strings read as decimal integers, no date string understood. -/
def env0 : Env := ⟨1000, 7, fun _ => none, parseInteger, fun _ => none⟩

/-- The environment `env0` with the store failing on every collection. -/
def envDown : Env := ⟨1000, 7, fun _ => some "connection lost", parseInteger, fun _ => none⟩

/-- The empty store. -/
def emptyStore : Store := ⟨fun _ => []⟩

/-- A store with one published news item of the date 500. -/
def newsStore0 : Store :=
  ⟨fun M => if M = .News then [⟨1, [("status", .str "published"), ("date", .date 500)]⟩]
    else []⟩

/-- The body of the example scenario: a news item created as a draft. -/
def draftBody : Fields :=
  [("title", .str "Road Repairs Begin"), ("category", .str "Infrastructure"),
   ("status", .str "draft")]

/-- The document `env0` makes of `draftBody`. -/
def draftDoc : Doc :=
  ⟨7, [("title", .str "Road Repairs Begin"), ("category", .str "Infrastructure"),
    ("mediaType", .str "image"), ("likes", .num 0), ("status", .str "draft"),
    ("date", .date 1000), ("createdAt", .date 1000), ("updatedAt", .date 1000),
    ("__v", .num 0)]⟩

/-- The environment `env0` with the next ObjectId 8. -/
def env8 : Env := ⟨1000, 8, fun _ => none, parseInteger, fun _ => none⟩

/-- The environment `env0` with the store failing on the services only. -/
def envServicesDown : Env :=
  ⟨1000, 7, fun M => if M = .Service then some "read failed" else none, parseInteger,
    fun _ => none⟩

/-- A store with two slides: the first holds the `updatedAt` 5 and nothing
else, the second a title and no `updatedAt`. -/
def staleSlides : Store :=
  ⟨fun M => if M = .Slide then
      [⟨1, [("updatedAt", .date 5)]⟩, ⟨2, [("title", .str "Welcome")]⟩]
    else []⟩

/-- A store with one slide, stored with a title and nothing else. -/
def titleSlide : Store :=
  ⟨fun M => if M = .Slide then [⟨7, [("title", .str "Welcome")]⟩] else []⟩

/-- A store with one message, stored with a name and nothing else. -/
def oneMessage : Store :=
  ⟨fun M => if M = .Message then [⟨3, [("name", .str "Nyakor"), ("__v", .num 0)]⟩] else []⟩

/-- A store with two history entries, of the years 2024 and 999, each stored
with every path its schema fills in. -/
def yearsStore : Store :=
  ⟨fun M => if M = .History then
      [⟨1, [("year", .str "2024"), ("mediaType", .str "image"), ("createdAt", .date 10),
            ("updatedAt", .date 10)]⟩,
       ⟨2, [("year", .str "999"), ("mediaType", .str "image"), ("createdAt", .date 20),
            ("updatedAt", .date 20)]⟩]
    else []⟩

/-- The environment `env0` at a later time. -/
def envLater : Env := ⟨2000, 9, fun _ => none, parseInteger, fun _ => none⟩

/-- A store with one published news item that holds its three dates and none of
the other paths its schema fills in. -/
def datedNews : Store :=
  ⟨fun M => if M = .News then
      [⟨1, [("status", .str "published"), ("date", .date 500), ("createdAt", .date 400),
            ("updatedAt", .date 450)]⟩]
    else []⟩

/-- A store with two commissioner profiles, the second updated later. -/
def twoCommissioners : Store :=
  ⟨fun M => if M = .Commissioner then
      [⟨1, [("name", .str "A"), ("updatedAt", .date 100)]⟩,
       ⟨2, [("name", .str "B"), ("updatedAt", .date 200)]⟩]
    else []⟩

/-- A store with three messages, one of them read, and two news items, one of
them published. -/
def mailStore : Store :=
  ⟨fun M =>
    if M = .Message then
      [⟨1, [("status", .str "read")]⟩, ⟨2, [("status", .str "unread")]⟩,
       ⟨3, [("name", .str "C")]⟩]
    else if M = .News then
      [⟨4, [("status", .str "published")]⟩, ⟨5, [("status", .str "draft")]⟩]
    else []⟩

/-- A store with one news item that was liked five times. -/
def likedStore : Store :=
  ⟨fun M => if M = .News then
      [⟨1, [("title", .str "Fair"), ("likes", .num 5), ("status", .str "published")]⟩]
    else []⟩

/-- A store with one user, stored through the generic route of the users:
username `y@b.com`, e-mail address `zed@b.com`, password `p`. -/
def zedStore : Store :=
  (createCrudRoutes.create env0 emptyStore .User
    [("username", .str "y@b.com"), ("email", .str "zed@b.com"), ("password", .str "p")]).1

/-- The body of a registration with the e-mail address `y@b.com`. -/
def ybBody : Fields := [("email", .str "y@b.com"), ("password", .str "p")]

/-- The body of a login with the name `y` and the password `p`. -/
def yLogin : Fields := [("username", .str "y"), ("password", .str "p")]

/-- A store with one user, stored through the generic route of the users: the
username is `admin`, the role is `editor`. -/
def editorStore : Store :=
  (createCrudRoutes.create env0 emptyStore .User
    [("username", .str "admin"), ("email", .str "a@b.c"), ("password", .str "x"),
     ("role", .str "editor")]).1

/-- The document `new User` makes of `seedAdminBody` in an environment. -/
def seedAdminDoc (env : Env) : Doc :=
  ⟨env.newId, [("username", .str "admin"), ("firstName", .str "System"),
    ("lastName", .str "Administrator"), ("email", .str "admin@guitcounty.gov"),
    ("password", .str "admin123"), ("role", .str "admin"), ("status", .str "active"),
    ("createdAt", .date env.now), ("updatedAt", .date env.now), ("__v", .num 0)]⟩

/-- Four submissions of the name `admin` with a wrong password, a minute apart. -/
def fourFailures : List (Int × Int × Option String × Option String) :=
  [(0, 500, some "admin", some "wrong"), (60000, 60500, some "admin", some "wrong"),
   (120000, 120500, some " admin ", some "Password"),
   (180000, 180500, some "root", some "password")]

/-- The page after `fourFailures` and a fifth failure, submitted at 240000. -/
def lockedPage : Auth.Page :=
  (Auth.submit 240000 240500 (some "admin") (some "wrong")
    (Auth.submitAll fourFailures Auth.freshPage).1).1

end Guit

/-! ## Objects: reading after writing -/

namespace Guit

theorem getField_cons_self (k : String) (v : Value) (o : Fields) :
    getField ((k, v) :: o) k = some v := by
  simp [getField]

theorem getField_cons_ne {k0 k : String} (v : Value) (o : Fields) (h : k0 ≠ k) :
    getField ((k0, v) :: o) k = getField o k := by
  simp [getField, List.find?_cons, h]

theorem getField_setField_self (o : Fields) (k : String) (v : Value) :
    getField (setField o k v) k = some v := by
  induction o with
  | nil => simp [setField, getField]
  | cons p rest ih =>
    obtain ⟨k0, v0⟩ := p
    by_cases h : k0 = k
    · simp [setField, h, getField]
    · simp only [setField, beq_iff_eq, h, if_false]
      rw [getField_cons_ne _ _ h]
      exact ih

theorem getField_setField_ne (o : Fields) {k k1 : String} (v : Value) (h : k1 ≠ k) :
    getField (setField o k v) k1 = getField o k1 := by
  induction o with
  | nil =>
    simp only [setField]
    rw [getField_cons_ne _ _ (Ne.symm h)]
  | cons p rest ih =>
    obtain ⟨k0, v0⟩ := p
    by_cases h0 : k0 = k
    · subst h0
      simp only [setField, beq_self_eq_true, if_true]
      rw [getField_cons_ne _ _ (Ne.symm h), getField_cons_ne _ _ (Ne.symm h)]
    · simp only [setField, beq_iff_eq, h0, if_false]
      by_cases h1 : k0 = k1
      · subst h1
        rw [getField_cons_self, getField_cons_self]
      · rw [getField_cons_ne _ _ h1, getField_cons_ne _ _ h1]
        exact ih

theorem getField_deleteField_self (o : Fields) (k : String) :
    getField (deleteField o k) k = none := by
  induction o with
  | nil => rfl
  | cons p rest ih =>
    obtain ⟨k0, v0⟩ := p
    by_cases h : k0 = k
    · have : deleteField ((k0, v0) :: rest) k = deleteField rest k := by
        simp [deleteField, h]
      rw [this]
      exact ih
    · have : deleteField ((k0, v0) :: rest) k = (k0, v0) :: deleteField rest k := by
        simp [deleteField, h]
      rw [this, getField_cons_ne _ _ h]
      exact ih

theorem getField_deleteField_ne (o : Fields) {k k1 : String} (h : k1 ≠ k) :
    getField (deleteField o k) k1 = getField o k1 := by
  induction o with
  | nil => rfl
  | cons p rest ih =>
    obtain ⟨k0, v0⟩ := p
    by_cases h0 : k0 = k
    · have e1 : deleteField ((k0, v0) :: rest) k = deleteField rest k := by
        simp [deleteField, h0]
      have h2 : k0 ≠ k1 := by
        rw [h0]
        exact Ne.symm h
      rw [e1, getField_cons_ne _ _ h2]
      exact ih
    · have e1 : deleteField ((k0, v0) :: rest) k = (k0, v0) :: deleteField rest k := by
        simp [deleteField, h0]
      rw [e1]
      by_cases h1 : k0 = k1
      · subst h1
        rw [getField_cons_self, getField_cons_self]
      · rw [getField_cons_ne _ _ h1, getField_cons_ne _ _ h1]
        exact ih

theorem getField_append_some (o1 o2 : Fields) {k : String} {v : Value}
    (h : getField o1 k = some v) : getField (o1 ++ o2) k = some v := by
  unfold getField at h ⊢
  cases hf : o1.find? (fun p => p.1 == k) with
  | none => rw [hf] at h; cases h
  | some p =>
    rw [hf] at h
    simp [List.find?_append, hf] at h ⊢
    exact h

theorem getField_append_none (o1 o2 : Fields) {k : String} (h : getField o1 k = none) :
    getField (o1 ++ o2) k = getField o2 k := by
  unfold getField at h ⊢
  cases hf : o1.find? (fun p => p.1 == k) with
  | none => simp [List.find?_append, hf]
  | some p => rw [hf] at h; cases h

end Guit

/-! ## Loaded documents -/

namespace Guit

theorem schema_names_nodup (M : ModelName) : (M.schema.map (fun p => p.name)).Nodup := by
  cases M <;> decide

theorem default_value_ne_none (env : Env) (dflt : PathDefault) :
    dflt.value env ≠ none ↔ dflt ≠ .absent := by
  cases dflt <;> simp [PathDefault.value]

theorem missingDefaults_none_of_present (env : Env) (o : Fields) (ps : List SchemaPath)
    {k : String} (h : getField o k ≠ none) : getField (missingDefaults env o ps) k = none := by
  induction ps with
  | nil => rfl
  | cons p ps ih =>
    unfold missingDefaults
    cases hp : getField o p.name with
    | some v => exact ih
    | none =>
      cases hd : p.dflt.value env with
      | none => exact ih
      | some v =>
        simp only
        have hne : p.name ≠ k := by
          intro hk
          rw [hk] at hp
          exact h hp
        rw [getField_cons_ne _ _ hne]
        exact ih

theorem missingDefaults_none_of_no_path (env : Env) (o : Fields) (ps : List SchemaPath)
    {k : String} (h : ∀ p ∈ ps, p.name ≠ k) : getField (missingDefaults env o ps) k = none := by
  induction ps with
  | nil => rfl
  | cons p ps ih =>
    have ih' := ih (fun q hq => h q (List.mem_cons_of_mem p hq))
    have hne : p.name ≠ k := h p (List.mem_cons_self p ps)
    unfold missingDefaults
    cases hp : getField o p.name with
    | some v => exact ih'
    | none =>
      cases hd : p.dflt.value env with
      | none => exact ih'
      | some v =>
        simp only
        rw [getField_cons_ne _ _ hne]
        exact ih'

theorem missingDefaults_of_missing (env : Env) (o : Fields) (ps : List SchemaPath)
    (hn : (ps.map (fun p => p.name)).Nodup) {p : SchemaPath} (hp : p ∈ ps)
    (h : getField o p.name = none) :
    getField (missingDefaults env o ps) p.name = p.dflt.value env := by
  induction ps with
  | nil => cases hp
  | cons q qs ih =>
    rw [List.map_cons, List.nodup_cons] at hn
    rcases List.mem_cons.mp hp with hpq | hpq
    · subst hpq
      have hrest : getField (missingDefaults env o qs) p.name = none := by
        apply missingDefaults_none_of_no_path
        intro r hr hname
        exact hn.1 (List.mem_map.mpr ⟨r, hr, hname⟩)
      unfold missingDefaults
      rw [h]
      cases hd : p.dflt.value env with
      | none => exact hrest
      | some v =>
        simp only
        exact getField_cons_self _ _ _
    · have hne : q.name ≠ p.name := by
        intro hname
        exact hn.1 (List.mem_map.mpr ⟨p, hpq, hname.symm⟩)
      have ih' := ih hn.2 hpq
      unfold missingDefaults
      cases hq : getField o q.name with
      | some v => exact ih'
      | none =>
        cases hd : q.dflt.value env with
        | none => exact ih'
        | some v =>
          simp only
          rw [getField_cons_ne _ _ hne]
          exact ih'

theorem missingDefaults_nil (env : Env) (o : Fields) (ps : List SchemaPath)
    (h : ∀ p ∈ ps, p.dflt ≠ .absent → getField o p.name ≠ none) :
    missingDefaults env o ps = [] := by
  induction ps with
  | nil => rfl
  | cons p ps ih =>
    have ih' := ih (fun q hq => h q (List.mem_cons_of_mem p hq))
    unfold missingDefaults
    cases hp : getField o p.name with
    | some v => exact ih'
    | none =>
      cases hd : p.dflt.value env with
      | none => exact ih'
      | some v =>
        have hab : p.dflt ≠ .absent := (default_value_ne_none env p.dflt).mp (by simp [hd])
        exact absurd hp (h p (List.mem_cons_self p ps) hab)

theorem hydrate_id (env : Env) (M : ModelName) (d : Doc) : (Model.hydrate env M d)._id = d._id :=
  rfl

/-- A loaded document holds every stored field as it is stored. -/
theorem hydrate_stored (env : Env) (M : ModelName) (d : Doc) {k : String} {v : Value}
    (h : getField d.fields k = some v) : getField (Model.hydrate env M d).fields k = some v :=
  getField_append_some _ _ h

/-- A loaded document holds the default at a schema path the stored one lacks. -/
theorem hydrate_default (env : Env) (M : ModelName) (d : Doc) {p : SchemaPath}
    (hp : p ∈ M.schema) (h : getField d.fields p.name = none) :
    getField (Model.hydrate env M d).fields p.name = p.dflt.value env := by
  unfold Model.hydrate
  rw [getField_append_none _ _ h]
  exact missingDefaults_of_missing env d.fields M.schema (schema_names_nodup M) hp h

/-- A loaded document holds nothing at a key that is neither stored nor a
schema path. -/
theorem hydrate_other (env : Env) (M : ModelName) (d : Doc) {k : String}
    (hk : ∀ p ∈ M.schema, p.name ≠ k) :
    getField (Model.hydrate env M d).fields k = getField d.fields k := by
  unfold Model.hydrate
  cases h : getField d.fields k with
  | some v => exact getField_append_some _ _ h
  | none =>
    rw [getField_append_none _ _ h]
    exact missingDefaults_none_of_no_path env d.fields M.schema hk

/-- Loading a complete document adds nothing. -/
theorem hydrate_complete (env : Env) (M : ModelName) (d : Doc) (h : d.Complete M) :
    Model.hydrate env M d = d := by
  unfold Model.hydrate
  rw [missingDefaults_nil env d.fields M.schema h, List.append_nil]

/-- A loaded document holds a path that the schema gives no default as it is
stored. -/
theorem hydrate_no_default (env : Env) (M : ModelName) (d : Doc) {k : String}
    (hk : ∀ p ∈ M.schema, p.name = k → p.dflt = .absent) :
    getField (Model.hydrate env M d).fields k = getField d.fields k := by
  cases h : getField d.fields k with
  | some v => exact hydrate_stored env M d h
  | none =>
    by_cases hex : ∃ p ∈ M.schema, p.name = k
    · obtain ⟨p, hp, hname⟩ := hex
      subst hname
      rw [hydrate_default env M d hp h, hk p hp rfl]
      rfl
    · rw [hydrate_other env M d (fun p hp hname => hex ⟨p, hp, hname⟩)]
      exact h

/-- A loaded document is complete. -/
theorem hydrate_is_complete (env : Env) (M : ModelName) (d : Doc) :
    (Model.hydrate env M d).Complete M := by
  intro p hp hab hnone
  cases hs : getField d.fields p.name with
  | some v => rw [hydrate_stored env M d hs] at hnone; cases hnone
  | none =>
    rw [hydrate_default env M d hp hs] at hnone
    exact (default_value_ne_none env p.dflt).mpr hab hnone

/-- Two loads of a document agree wherever the clock does not enter: at the
same clock, or on a document that holds its dated paths. -/
theorem hydrate_congr (env1 env2 : Env) (M : ModelName) (d : Doc)
    (h : env1.now = env2.now ∨
      ∀ p ∈ M.schema, p.dflt = .dateNow → getField d.fields p.name ≠ none) :
    Model.hydrate env1 M d = Model.hydrate env2 M d := by
  unfold Model.hydrate
  congr 2
  have key : ∀ ps : List SchemaPath, (∀ p ∈ ps, p ∈ M.schema) →
      missingDefaults env1 d.fields ps = missingDefaults env2 d.fields ps := by
    intro ps
    induction ps with
    | nil => intro _; rfl
    | cons p ps ih =>
      intro hsub
      have ih' := ih (fun q hq => hsub q (List.mem_cons_of_mem p hq))
      have hp := hsub p (List.mem_cons_self p ps)
      have hval : getField d.fields p.name = none → p.dflt.value env1 = p.dflt.value env2 := by
        intro hnone
        cases hd : p.dflt with
        | absent => rfl
        | lit v => rfl
        | dateNow =>
          rcases h with h | h
          · simp [PathDefault.value, h]
          · exact absurd hnone (h p hp hd)
      unfold missingDefaults
      cases hg : getField d.fields p.name with
      | some v => simpa using ih'
      | none =>
        rw [hval hg, ih']
  exact key M.schema (fun p hp => hp)

/-! ## GET ALL -/

theorem getField_toObject_id (d : Doc) : getField d.toObject "_id" = some (Value.oid d._id) := by
  simp [Doc.toObject, getField]

theorem getField_toObject_ne (d : Doc) {k : String} (h : k ≠ "_id") :
    getField d.toObject k = getField d.fields k := by
  unfold Doc.toObject
  exact getField_cons_ne _ _ (Ne.symm h)

theorem exposeId_eq (d : Doc) :
    exposeId d =
      deleteField (deleteField (setField d.toObject "id" (Value.oid d._id)) "_id") "__v" := by
  simp [exposeId, getField_toObject_id]

theorem exposeId_id (d : Doc) : getField (exposeId d) "id" = some (Value.oid d._id) := by
  rw [exposeId_eq, getField_deleteField_ne _ (by decide), getField_deleteField_ne _ (by decide),
    getField_setField_self]

theorem exposeId_no_id (d : Doc) : getField (exposeId d) "_id" = none := by
  rw [exposeId_eq, getField_deleteField_ne _ (by decide), getField_deleteField_self]

theorem exposeId_no_version (d : Doc) : getField (exposeId d) "__v" = none := by
  rw [exposeId_eq, getField_deleteField_self]

theorem exposeId_other (d : Doc) {k : String} (h1 : k ≠ "id") (h2 : k ≠ "_id")
    (h3 : k ≠ "__v") : getField (exposeId d) k = getField d.toObject k := by
  rw [exposeId_eq, getField_deleteField_ne _ h3, getField_deleteField_ne _ h2,
    getField_setField_ne _ _ h1]

instance sortsBefore_total (k : String) : IsTotal Doc (sortsBefore k) :=
  ⟨fun a b => le_total (bsonKey (getField b.toObject k)) (bsonKey (getField a.toObject k))⟩

instance sortsBefore_trans (k : String) : IsTrans Doc (sortsBefore k) :=
  ⟨fun _ _ _ h1 h2 => le_trans h2 h1⟩

theorem sortDesc_sorted (k : String) (l : List Doc) :
    (sortDesc k l).Sorted (sortsBefore k) :=
  List.sorted_insertionSort (sortsBefore k) l

theorem sortDesc_perm (k : String) (l : List Doc) : (sortDesc k l).Perm l :=
  List.perm_insertionSort (sortsBefore k) l

theorem bsonKey_date_le {ta tb : Int}
    (h : bsonKey (some (Value.date tb)) ≤ bsonKey (some (Value.date ta))) : tb ≤ ta := by
  simp only [bsonKey] at h
  rw [Prod.Lex.le_iff] at h
  rcases h with h | ⟨_, h⟩
  · simp at h
  · rw [Prod.Lex.le_iff] at h
    rcases h with h | ⟨h, _⟩
    · exact le_of_lt h
    · exact le_of_eq h

theorem getAll_healthy (env : Env) (st : Store) (M : ModelName) (h : env.fault M = none) :
    createCrudRoutes.getAll env st M =
      (st, ⟨200, .array ((sortDesc "updatedAt" (st.coll M)).map
        (fun d => exposeId (Model.hydrate env M d)))⟩) := by
  simp [createCrudRoutes.getAll, Model.findSorted, h, List.map_map, Function.comp]

/-- The `updatedAt` a loaded document holds: the stored one, or the default of
the schema when none is stored. -/
theorem hydrate_updatedAt (env : Env) (M : ModelName) (d : Doc) :
    (∀ v, getField d.fields "updatedAt" = some v →
      getField (Model.hydrate env M d).fields "updatedAt" = some v) ∧
    ((∀ p ∈ M.schema, p.name ≠ "updatedAt") →
      getField (Model.hydrate env M d).fields "updatedAt" = getField d.fields "updatedAt") ∧
    (getField d.fields "updatedAt" = none → pDateNow "updatedAt" ∈ M.schema →
      getField (Model.hydrate env M d).fields "updatedAt" = some (.date env.now)) :=
  ⟨fun _ hv => hydrate_stored env M d hv, fun hk => hydrate_other env M d hk,
    fun hnone hp => hydrate_default env M d hp hnone⟩

/-- The schemas without a path `updatedAt` are those of the messages and of
the newsletter; the others declare it with the default `Date.now`. -/
theorem schema_updatedAt (M : ModelName) :
    ((M = .Message ∨ M = .Newsletter) ∧ ∀ p ∈ M.schema, p.name ≠ "updatedAt") ∨
    ((M ≠ .Message ∧ M ≠ .Newsletter) ∧ pDateNow "updatedAt" ∈ M.schema) := by
  cases M <;> decide

theorem exposeId_updatedAt (d : Doc) :
    getField (exposeId d) "updatedAt" = getField d.fields "updatedAt" := by
  rw [exposeId_other d (by decide) (by decide) (by decide),
    getField_toObject_ne d (by decide)]

end Guit

namespace Guit

/-- C6 as stated fails: of two stored slides the first holds the `updatedAt`
5 and the second none; the sort puts the first before the second, which is
served with the time of the request (1000) as its `updatedAt`, so the entry
with the earlier `updatedAt` stands first. -/
theorem C6_counterexample_missing_updatedAt :
    (createCrudRoutes.getAll env0 staleSlides .Slide).2
      = ⟨200, .array
          [[("updatedAt", .date 5), ("order", .num 0), ("status", .str "active"),
              ("createdAt", .date 1000), ("id", .oid 1)],
           [("title", .str "Welcome"), ("order", .num 0), ("status", .str "active"),
              ("createdAt", .date 1000), ("updatedAt", .date 1000), ("id", .oid 2)]]⟩ ∧
    (5 : Int) < 1000 := by
  decide

/-- C6, amended: when the read succeeds, GET ALL answers 200 with one entry
for each stored document, in descending order of the stored `updatedAt` (MongoDB
order, a missing value lowest; of two consecutive documents that both hold a
date the first holds the later or the same one). An entry shows the stored
`updatedAt` of its document; for a document stored without one it shows the
time of the request, and nothing with the messages and the newsletter, whose
schemas declare no `updatedAt`. So the entries themselves are in descending
order of the `updatedAt` they show when every stored document holds one, and
with the messages and the newsletter. -/
theorem C6_getAll_sorted_by_updatedAt (env : Env) (st : Store) (M : ModelName)
    (h : env.fault M = none) :
    ∃ (items : List Fields) (docs : List Doc),
      createCrudRoutes.getAll env st M = (st, ⟨200, .array items⟩) ∧
      docs.Perm (st.coll M) ∧
      List.Chain' (fun a b =>
        bsonKey (getField b.fields "updatedAt") ≤ bsonKey (getField a.fields "updatedAt"))
        docs ∧
      (∀ l1 a b l2 ta tb, docs = l1 ++ a :: b :: l2 →
        getField a.fields "updatedAt" = some (Value.date ta) →
        getField b.fields "updatedAt" = some (Value.date tb) → tb ≤ ta) ∧
      List.Forall₂ (fun (e : Fields) (d : Doc) =>
        getField e "id" = some (Value.oid d._id) ∧
        (∀ v, getField d.fields "updatedAt" = some v → getField e "updatedAt" = some v) ∧
        (getField d.fields "updatedAt" = none →
          ((M = .Message ∨ M = .Newsletter) → getField e "updatedAt" = none) ∧
          ((M ≠ .Message ∧ M ≠ .Newsletter) →
            getField e "updatedAt" = some (.date env.now))))
        items docs ∧
      (((∀ d ∈ st.coll M, getField d.fields "updatedAt" ≠ none) ∨
          M = .Message ∨ M = .Newsletter) →
        List.Chain' (fun a b =>
          bsonKey (getField b "updatedAt") ≤ bsonKey (getField a "updatedAt")) items ∧
        ∀ l1 a b l2 ta tb, items = l1 ++ a :: b :: l2 →
          getField a "updatedAt" = some (Value.date ta) →
          getField b "updatedAt" = some (Value.date tb) → tb ≤ ta) := by
  have hs := (sortDesc_sorted "updatedAt" (st.coll M)).chain'
  have hstored : List.Chain' (fun a b =>
      bsonKey (getField b.fields "updatedAt") ≤ bsonKey (getField a.fields "updatedAt"))
      (sortDesc "updatedAt" (st.coll M)) := by
    refine hs.imp ?_
    intro a b hab
    unfold sortsBefore at hab
    rwa [getField_toObject_ne a (by decide), getField_toObject_ne b (by decide)] at hab
  refine ⟨_, sortDesc "updatedAt" (st.coll M), getAll_healthy env st M h,
    sortDesc_perm _ _, hstored, ?_, ?_, ?_⟩
  · intro l1 a b l2 ta tb hl ha hb
    rw [hl] at hstored
    have h2 := (List.chain'_cons.mp hstored.right_of_append).1
    rw [ha, hb] at h2
    exact bsonKey_date_le h2
  · rw [List.forall₂_map_left_iff]
    refine List.forall₂_same.mpr ?_
    intro d _
    refine ⟨?_, ?_, ?_⟩
    · rw [exposeId_id]
      rfl
    · intro v hv
      rw [exposeId_updatedAt]
      exact hydrate_stored env M d hv
    · intro hnone
      rw [exposeId_updatedAt]
      rcases schema_updatedAt M with ⟨hM, hno⟩ | ⟨hM, hp⟩
      · refine ⟨fun _ => ?_, fun hn => ?_⟩
        · rw [(hydrate_updatedAt env M d).2.1 hno]
          exact hnone
        · rcases hM with hM | hM
          · exact absurd hM hn.1
          · exact absurd hM hn.2
      · refine ⟨fun hn => ?_, fun _ => (hydrate_updatedAt env M d).2.2 hnone hp⟩
        rcases hn with hn | hn
        · exact absurd hn hM.1
        · exact absurd hn hM.2
  · intro hcase
    have hsame : ∀ d ∈ sortDesc "updatedAt" (st.coll M),
        getField (exposeId (Model.hydrate env M d)) "updatedAt"
          = getField d.fields "updatedAt" := by
      intro d hd
      rw [exposeId_updatedAt]
      have hmem : d ∈ st.coll M := (sortDesc_perm _ _).subset hd
      rcases hcase with hall | hM
      · cases hv : getField d.fields "updatedAt" with
        | none => exact absurd hv (hall d hmem)
        | some v => exact hydrate_stored env M d hv
      · rcases schema_updatedAt M with ⟨_, hno⟩ | ⟨hM2, _⟩
        · exact (hydrate_updatedAt env M d).2.1 hno
        · rcases hM with hM | hM
          · exact absurd hM hM2.1
          · exact absurd hM hM2.2
    have hchain : List.Chain' (fun a b =>
        bsonKey (getField b "updatedAt") ≤ bsonKey (getField a "updatedAt"))
        ((sortDesc "updatedAt" (st.coll M)).map
          (fun d => exposeId (Model.hydrate env M d))) := by
      rw [List.chain'_map]
      refine (List.Chain'.iff_mem.mp hstored).imp ?_
      intro a b hab
      rw [hsame a hab.1, hsame b hab.2.1]
      exact hab.2.2
    refine ⟨hchain, ?_⟩
    intro l1 a b l2 ta tb hl ha hb
    rw [hl] at hchain
    have h2 := (List.chain'_cons.mp hchain.right_of_append).1
    rw [ha, hb] at h2
    exact bsonKey_date_le h2

/-- The premise of C6 holds of the two stored slides, of which the second
holds no `updatedAt`. -/
theorem C6_getAll_sorted_by_updatedAt_witness :
    env0.fault .Slide = none ∧
    ∃ (items : List Fields) (docs : List Doc),
      createCrudRoutes.getAll env0 staleSlides .Slide = (staleSlides, ⟨200, .array items⟩) ∧
      docs.Perm (staleSlides.coll .Slide) ∧
      List.Chain' (fun a b =>
        bsonKey (getField b.fields "updatedAt") ≤ bsonKey (getField a.fields "updatedAt"))
        docs ∧
      (∀ l1 a b l2 ta tb, docs = l1 ++ a :: b :: l2 →
        getField a.fields "updatedAt" = some (Value.date ta) →
        getField b.fields "updatedAt" = some (Value.date tb) → tb ≤ ta) ∧
      List.Forall₂ (fun (e : Fields) (d : Doc) =>
        getField e "id" = some (Value.oid d._id) ∧
        (∀ v, getField d.fields "updatedAt" = some v → getField e "updatedAt" = some v) ∧
        (getField d.fields "updatedAt" = none →
          ((ModelName.Slide = .Message ∨ ModelName.Slide = .Newsletter) →
            getField e "updatedAt" = none) ∧
          ((ModelName.Slide ≠ .Message ∧ ModelName.Slide ≠ .Newsletter) →
            getField e "updatedAt" = some (.date env0.now))))
        items docs ∧
      (((∀ d ∈ staleSlides.coll .Slide, getField d.fields "updatedAt" ≠ none) ∨
          ModelName.Slide = .Message ∨ ModelName.Slide = .Newsletter) →
        List.Chain' (fun a b =>
          bsonKey (getField b "updatedAt") ≤ bsonKey (getField a "updatedAt")) items ∧
        ∀ l1 a b l2 ta tb, items = l1 ++ a :: b :: l2 →
          getField a "updatedAt" = some (Value.date ta) →
          getField b "updatedAt" = some (Value.date tb) → tb ≤ ta) :=
  ⟨rfl, C6_getAll_sorted_by_updatedAt env0 staleSlides .Slide rfl⟩

theorem schema_names_public (M : ModelName) :
    ∀ p ∈ M.schema, p.name ≠ "id" ∧ p.name ≠ "_id" ∧ p.name ≠ "__v" := by
  cases M <;> decide

/-- C7 as stated fails: a message is stored with a name and nothing else; its
entry in the array holds the status `new` and the time of the request as
`createdAt`, which the stored document does not hold. -/
theorem C7_counterexample_defaults_added :
    oneMessage.coll .Message = [⟨3, [("name", .str "Nyakor"), ("__v", .num 0)]⟩] ∧
    (createCrudRoutes.getAll env0 oneMessage .Message).2
      = ⟨200, .array [[("name", .str "Nyakor"), ("status", .str "new"),
          ("createdAt", .date 1000), ("id", .oid 3)]]⟩ := by
  decide

/-- C7, amended: when the read succeeds, GET ALL answers 200 with an array
that has one entry for each stored document of the collection and no other (so
the empty array for an empty collection). An entry is its document as loaded,
with the identifier under `id` and neither `_id` nor `__v`: it holds every
other stored field unchanged, the default of every schema path the stored
document lacks, and nothing else; for a document that holds all those paths it
agrees with the stored document on every other field. The store is left as it
was. -/
theorem C7_getAll_entries (env : Env) (st : Store) (M : ModelName)
    (h : env.fault M = none) :
    ∃ (items : List Fields) (docs : List Doc),
      createCrudRoutes.getAll env st M = (st, ⟨200, .array items⟩) ∧
      docs.Perm (st.coll M) ∧
      List.Forall₂ (fun (e : Fields) (d : Doc) =>
        getField e "id" = some (Value.oid d._id) ∧ getField e "_id" = none ∧
        getField e "__v" = none ∧
        (∀ k v, k ≠ "id" → k ≠ "_id" → k ≠ "__v" → getField d.fields k = some v →
          getField e k = some v) ∧
        (∀ p ∈ M.schema, getField d.fields p.name = none →
          getField e p.name = p.dflt.value env) ∧
        (∀ k, k ≠ "id" → k ≠ "_id" → k ≠ "__v" → (∀ p ∈ M.schema, p.name ≠ k) →
          getField e k = getField d.fields k) ∧
        (d.Complete M →
          ∀ k, k ≠ "id" → k ≠ "_id" → k ≠ "__v" → getField e k = getField d.toObject k))
        items docs ∧
      (st.coll M = [] → items = []) := by
  refine ⟨_, sortDesc "updatedAt" (st.coll M), getAll_healthy env st M h,
    sortDesc_perm _ _, ?_, ?_⟩
  · rw [List.forall₂_map_left_iff]
    refine List.forall₂_same.mpr ?_
    intro d _
    have hother : ∀ k, k ≠ "id" → k ≠ "_id" → k ≠ "__v" →
        getField (exposeId (Model.hydrate env M d)) k
          = getField (Model.hydrate env M d).fields k := by
      intro k h1 h2 h3
      rw [exposeId_other _ h1 h2 h3, getField_toObject_ne _ h2]
    refine ⟨?_, exposeId_no_id _, exposeId_no_version _, ?_, ?_, ?_, ?_⟩
    · rw [exposeId_id]
      rfl
    · intro k v h1 h2 h3 hv
      rw [hother k h1 h2 h3]
      exact hydrate_stored env M d hv
    · intro p hp hnone
      obtain ⟨h1, h2, h3⟩ := schema_names_public M p hp
      rw [hother _ h1 h2 h3]
      exact hydrate_default env M d hp hnone
    · intro k h1 h2 h3 hk
      rw [hother k h1 h2 h3]
      exact hydrate_other env M d hk
    · intro hc k h1 h2 h3
      rw [hydrate_complete env M d hc]
      exact exposeId_other d h1 h2 h3
  · intro he
    rw [he]
    rfl

/-- The premise of C7 holds of the collection of one message. -/
theorem C7_getAll_entries_witness :
    env0.fault .Message = none ∧
    ∃ (items : List Fields) (docs : List Doc),
      createCrudRoutes.getAll env0 oneMessage .Message
        = (oneMessage, ⟨200, .array items⟩) ∧
      docs.Perm (oneMessage.coll .Message) ∧
      List.Forall₂ (fun (e : Fields) (d : Doc) =>
        getField e "id" = some (Value.oid d._id) ∧ getField e "_id" = none ∧
        getField e "__v" = none ∧
        (∀ k v, k ≠ "id" → k ≠ "_id" → k ≠ "__v" → getField d.fields k = some v →
          getField e k = some v) ∧
        (∀ p ∈ ModelName.Message.schema, getField d.fields p.name = none →
          getField e p.name = p.dflt.value env0) ∧
        (∀ k, k ≠ "id" → k ≠ "_id" → k ≠ "__v" →
          (∀ p ∈ ModelName.Message.schema, p.name ≠ k) →
          getField e k = getField d.fields k) ∧
        (d.Complete .Message →
          ∀ k, k ≠ "id" → k ≠ "_id" → k ≠ "__v" → getField e k = getField d.toObject k))
        items docs ∧
      (oneMessage.coll .Message = [] → items = []) :=
  ⟨rfl, C7_getAll_entries env0 oneMessage .Message rfl⟩

end Guit

/-! ## GET ONE and DELETE -/

namespace Guit

theorem put_coll_self (st : Store) (M : ModelName) (l : List Doc) :
    (st.put M l).coll M = l := by
  simp [Store.put]

theorem put_coll_ne (st : Store) {M N : ModelName} (l : List Doc) (h : N ≠ M) :
    (st.put M l).coll N = st.coll N := by
  simp [Store.put, h]

theorem findDoc_eq_none {l : List Doc} {i : Nat} :
    findDoc l i = none ↔ ∀ d ∈ l, d._id ≠ i := by
  simp [findDoc, List.find?_eq_none]

theorem findDoc_some {l : List Doc} {i : Nat} {d : Doc} (h : findDoc l i = some d) :
    d ∈ l ∧ d._id = i := by
  unfold findDoc at h
  exact ⟨List.mem_of_find?_eq_some h, by simpa using List.find?_some h⟩

theorem findDoc_of_exists {l : List Doc} {i : Nat} (h : ∃ d ∈ l, d._id = i) :
    ∃ d, findDoc l i = some d := by
  cases hf : findDoc l i with
  | some d => exact ⟨d, rfl⟩
  | none =>
    obtain ⟨d, hd, hi⟩ := h
    exact absurd hi (findDoc_eq_none.mp hf d hd)

theorem findDoc_eraseP_of_nodup (l : List Doc) (i : Nat) (h : (l.map Doc._id).Nodup) :
    findDoc (l.eraseP (fun d => d._id == i)) i = none := by
  induction l with
  | nil => rfl
  | cons e rest ih =>
    rw [List.map_cons, List.nodup_cons] at h
    by_cases he : e._id = i
    · have e1 : (e :: rest).eraseP (fun d => d._id == i) = rest := by
        simp [List.eraseP_cons, he]
      rw [e1, findDoc_eq_none]
      intro d hd hdi
      apply h.1
      rw [he, ← hdi]
      exact List.mem_map_of_mem Doc._id hd
    · have e1 : (e :: rest).eraseP (fun d => d._id == i)
          = e :: rest.eraseP (fun d => d._id == i) := by
        simp [List.eraseP_cons, he]
      rw [e1]
      have e2 : findDoc (e :: rest.eraseP (fun d => d._id == i)) i
          = findDoc (rest.eraseP (fun d => d._id == i)) i := by
        simp [findDoc, List.find?_cons, he]
      rw [e2]
      exact ih h.2

theorem getOne_wellFormed (env : Env) (st : Store) (M : ModelName) (id : String) (i : Nat)
    (hid : castObjectId id = some i) (hf : env.fault M = none) :
    createCrudRoutes.getOne env st M id =
      match findDoc (st.coll M) i with
      | none => (st, ⟨404, .object [("message", .str "Not Found")]⟩)
      | some item => (st, ⟨200, .object (Model.hydrate env M item).toObject⟩) := by
  simp only [createCrudRoutes.getOne, Model.findById, hid, hf]
  cases findDoc (st.coll M) i <;> rfl

theorem delete_wellFormed (env : Env) (st : Store) (M : ModelName) (id : String) (i : Nat)
    (hid : castObjectId id = some i) (hf : env.fault M = none) :
    createCrudRoutes.delete env st M id =
      (st.put M ((st.coll M).eraseP (fun d => d._id == i)),
        ⟨200, .object [("message", .str "Deleted successfully")]⟩) := by
  simp [createCrudRoutes.delete, Model.findByIdAndDelete, hid, hf]

theorem delete_store_cases (env : Env) (st : Store) (M : ModelName) (id : String) :
    (createCrudRoutes.delete env st M id).1 = st ∨
      ∃ i, castObjectId id = some i ∧
        (createCrudRoutes.delete env st M id).1
          = st.put M ((st.coll M).eraseP (fun d => d._id == i)) := by
  cases hid : castObjectId id with
  | none =>
    left
    simp [createCrudRoutes.delete, Model.findByIdAndDelete, hid]
  | some i =>
    cases hf : env.fault M with
    | some e =>
      left
      simp [createCrudRoutes.delete, Model.findByIdAndDelete, hid, hf]
    | none =>
      right
      exact ⟨i, rfl, by rw [delete_wellFormed env st M id i hid hf]⟩

/-- C8 as stated fails: for the path segment `abc`, which is the identifier of
no stored slide, GET ONE answers 500 with the cast failure, not the not-found
body; so it does for a well-formed identifier of no slide when the store fails.
And a slide stored with a title alone is not returned verbatim: the answer
holds the defaults of the paths it lacks, the dated ones with the time of the
request. -/
theorem C8_counterexample_malformed_id :
    (createCrudRoutes.getOne env0 emptyStore .Slide "abc").2
        = ⟨500, errorBody "Cast to ObjectId failed at path _id"⟩ ∧
      (createCrudRoutes.getOne env0 emptyStore .Slide "abc").2
        ≠ ⟨404, .object [("message", .str "Not Found")]⟩ ∧
      (createCrudRoutes.getOne envDown emptyStore .Slide "000000000000000000000007").2
        = ⟨500, errorBody "connection lost"⟩ ∧
      (createCrudRoutes.getOne env0 ⟨fun _ => [⟨7, [("title", .str "Welcome")]⟩]⟩ .Slide
          "000000000000000000000007").2
        = ⟨200, .object [("_id", .oid 7), ("title", .str "Welcome"), ("order", .num 0),
            ("status", .str "active"), ("createdAt", .date 1000),
            ("updatedAt", .date 1000)]⟩ := by
  decide

/-- C8, amended: for a well-formed identifier and a read that meets no store
failure, GET ONE answers 404 with `message: Not Found` when no document of the
collection has the identifier, and otherwise 200 with a stored document of
that identifier as loaded, the identifier under `_id`: every stored field as
it is stored, the default of every schema path the stored document lacks, and
nothing else; a document that holds all those paths is returned as it is
stored. The store is left as it was. -/
theorem C8_getOne_found_or_not_found (env : Env) (st : Store) (M : ModelName)
    (id : String) (i : Nat) (hid : castObjectId id = some i) (hf : env.fault M = none) :
    ((∀ d ∈ st.coll M, d._id ≠ i) →
        createCrudRoutes.getOne env st M id
          = (st, ⟨404, .object [("message", .str "Not Found")]⟩)) ∧
      ((∃ d ∈ st.coll M, d._id = i) →
        ∃ (d : Doc) (item : Fields), d ∈ st.coll M ∧ d._id = i ∧
          createCrudRoutes.getOne env st M id = (st, ⟨200, .object item⟩) ∧
          getField item "_id" = some (Value.oid i) ∧
          (∀ k v, getField d.fields k = some v → k ≠ "_id" → getField item k = some v) ∧
          (∀ p ∈ M.schema, getField d.fields p.name = none →
            getField item p.name = p.dflt.value env) ∧
          (∀ k, k ≠ "_id" → (∀ p ∈ M.schema, p.name ≠ k) →
            getField item k = getField d.fields k) ∧
          (d.Complete M → item = d.toObject)) := by
  rw [getOne_wellFormed env st M id i hid hf]
  constructor
  · intro h
    rw [findDoc_eq_none.mpr h]
  · intro h
    obtain ⟨d, hd⟩ := findDoc_of_exists h
    obtain ⟨hmem, hdi⟩ := findDoc_some hd
    refine ⟨d, (Model.hydrate env M d).toObject, hmem, hdi, ?_, ?_, ?_, ?_, ?_, ?_⟩
    · rw [hd]
    · rw [getField_toObject_id, hydrate_id, hdi]
    · intro k v hv hk
      rw [getField_toObject_ne _ hk]
      exact hydrate_stored env M d hv
    · intro p hp hnone
      rw [getField_toObject_ne _ (schema_names_public M p hp).2.1]
      exact hydrate_default env M d hp hnone
    · intro k hk hno
      rw [getField_toObject_ne _ hk]
      exact hydrate_other env M d hno
    · intro hc
      rw [hydrate_complete env M d hc]

/-- The premises of C8 hold of a store with one slide, asked for by its
identifier. -/
theorem C8_getOne_found_or_not_found_witness :
    castObjectId "000000000000000000000007" = some 7 ∧ env0.fault .Slide = none ∧
    ∃ (d : Doc) (item : Fields), d ∈ titleSlide.coll .Slide ∧ d._id = 7 ∧
      createCrudRoutes.getOne env0 titleSlide .Slide "000000000000000000000007"
        = (titleSlide, ⟨200, .object item⟩) ∧
      getField item "_id" = some (Value.oid 7) ∧
      (∀ k v, getField d.fields k = some v → k ≠ "_id" → getField item k = some v) ∧
      (∀ p ∈ ModelName.Slide.schema, getField d.fields p.name = none →
        getField item p.name = p.dflt.value env0) ∧
      (∀ k, k ≠ "_id" → (∀ p ∈ ModelName.Slide.schema, p.name ≠ k) →
        getField item k = getField d.fields k) ∧
      (d.Complete .Slide → item = d.toObject) :=
  ⟨by decide, rfl,
    (C8_getOne_found_or_not_found env0 titleSlide .Slide
      "000000000000000000000007" 7 (by decide) rfl).2
      ⟨⟨7, [("title", .str "Welcome")]⟩, by decide, rfl⟩⟩

/-- C4 as stated fails: for the path segment `abc` DELETE answers 500 and the
following GET ONE answers 500 as well, not the not-found response; and after a
DELETE that met a store failure GET ONE still answers with the document. -/
theorem C4_counterexample_malformed_id :
    (createCrudRoutes.getOne env0
        (createCrudRoutes.delete env0 emptyStore .Slide "abc").1 .Slide "abc").2
        = ⟨500, errorBody "Cast to ObjectId failed at path _id"⟩ ∧
      (createCrudRoutes.getOne env0
        (createCrudRoutes.delete env0 emptyStore .Slide "abc").1 .Slide "abc").2
        ≠ ⟨404, .object [("message", .str "Not Found")]⟩ ∧
      (createCrudRoutes.getOne env0
        (createCrudRoutes.delete envDown ⟨fun _ => [⟨7, [("title", .str "Welcome")]⟩]⟩
          .Slide "000000000000000000000007").1 .Slide "000000000000000000000007").2
        = ⟨200, .object [("_id", .oid 7), ("title", .str "Welcome"), ("order", .num 0),
            ("status", .str "active"), ("createdAt", .date 1000),
            ("updatedAt", .date 1000)]⟩ := by
  decide

/-- C4, amended: for a well-formed identifier, when neither request meets a
store failure, GET ONE after DELETE of the same identifier answers 404 with
`message: Not Found`. -/
theorem C4_delete_then_getOne_not_found (env env2 : Env) (st : Store) (M : ModelName)
    (id : String) (i : Nat) (hid : castObjectId id = some i)
    (hf : env.fault M = none) (hf2 : env2.fault M = none) (hu : st.UniqueIds) :
    (createCrudRoutes.getOne env2 (createCrudRoutes.delete env st M id).1 M id).2
      = ⟨404, .object [("message", .str "Not Found")]⟩ := by
  rw [delete_wellFormed env st M id i hid hf, getOne_wellFormed env2 _ M id i hid hf2,
    put_coll_self, findDoc_eraseP_of_nodup _ i (hu M)]

/-- Witness of C4: a stored slide is deleted and then asked for. -/
theorem C4_delete_then_getOne_not_found_witness :
    (createCrudRoutes.getOne env0
        (createCrudRoutes.delete env0 ⟨fun _ => [⟨7, [("title", .str "Welcome")]⟩]⟩ .Slide
          "000000000000000000000007").1 .Slide "000000000000000000000007").2
      = ⟨404, .object [("message", .str "Not Found")]⟩ :=
  C4_delete_then_getOne_not_found env0 env0 ⟨fun _ => [⟨7, [("title", .str "Welcome")]⟩]⟩
    .Slide "000000000000000000000007" 7 (by decide) rfl rfl
    (fun _ => by simp)

/-- C5 as stated fails: for the path segment `abc` DELETE answers 500 with the
cast failure, not the acknowledgment; so it does, with the failure message,
when the store fails. -/
theorem C5_counterexample_malformed_id :
    (createCrudRoutes.delete env0 emptyStore .Slide "abc").2
        = ⟨500, errorBody "Cast to ObjectId failed at path _id"⟩ ∧
      (createCrudRoutes.delete env0 emptyStore .Slide "abc").2
        ≠ ⟨200, .object [("message", .str "Deleted successfully")]⟩ ∧
      (createCrudRoutes.delete envDown emptyStore .Slide "000000000000000000000007").2
        = ⟨500, errorBody "connection lost"⟩ := by
  decide

/-- C5, amended: for a well-formed identifier and no store failure DELETE
answers 200 with `message: Deleted successfully`, whether or not a document has
the identifier. In every case the other collections are left as they were, the
collection keeps its documents in order but for at most one, and a document
whose identifier the path segment does not denote stays. -/
theorem C5_delete_acknowledges_and_frames (env : Env) (st : Store) (M : ModelName)
    (id : String) :
    (∀ i, castObjectId id = some i → env.fault M = none →
        (createCrudRoutes.delete env st M id).2
          = ⟨200, .object [("message", .str "Deleted successfully")]⟩) ∧
      (∀ N, N ≠ M → (createCrudRoutes.delete env st M id).1.coll N = st.coll N) ∧
      ((createCrudRoutes.delete env st M id).1.coll M).Sublist (st.coll M) ∧
      (st.coll M).length ≤ ((createCrudRoutes.delete env st M id).1.coll M).length + 1 ∧
      (∀ d ∈ st.coll M, castObjectId id ≠ some d._id →
        d ∈ (createCrudRoutes.delete env st M id).1.coll M) := by
  refine ⟨fun i hid hf => by rw [delete_wellFormed env st M id i hid hf], ?_⟩
  rcases delete_store_cases env st M id with h | ⟨i, hid, h⟩
  · rw [h]
    exact ⟨fun _ _ => rfl, List.Sublist.refl _, Nat.le_succ _, fun _ hd _ => hd⟩
  · rw [h, put_coll_self]
    refine ⟨fun N hN => put_coll_ne st _ hN, List.eraseP_sublist _, ?_, ?_⟩
    · by_cases hex : ∃ a ∈ st.coll M, (fun d : Doc => d._id == i) a = true
      · obtain ⟨a, ha, hpa⟩ := hex
        rw [List.length_eraseP_of_mem ha hpa]
        omega
      · have hnone : ∀ a ∈ st.coll M, ¬ (fun d : Doc => d._id == i) a = true :=
          fun a ha hpa => hex ⟨a, ha, hpa⟩
        rw [List.eraseP_of_forall_not hnone]
        exact Nat.le_succ _
    · intro d hd hne
      have hdi : ¬ (fun e : Doc => e._id == i) d = true := by
        intro hp
        apply hne
        rw [hid]
        simp only [beq_iff_eq] at hp
        rw [hp]
      exact (@List.mem_eraseP_of_neg Doc (fun e : Doc => e._id == i) d (st.coll M) hdi).mpr hd

/-- Witness of C5: of two stored slides the second is deleted; the answer is
the acknowledgment and the first slide stays. -/
theorem C5_delete_acknowledges_and_frames_witness :
    (createCrudRoutes.delete env0
        ⟨fun _ => [⟨6, [("title", .str "A")]⟩, ⟨7, [("title", .str "B")]⟩]⟩ .Slide
        "000000000000000000000007").2
      = ⟨200, .object [("message", .str "Deleted successfully")]⟩ ∧
    (⟨6, [("title", .str "A")]⟩ : Doc) ∈ (createCrudRoutes.delete env0
        ⟨fun _ => [⟨6, [("title", .str "A")]⟩, ⟨7, [("title", .str "B")]⟩]⟩ .Slide
        "000000000000000000000007").1.coll .Slide :=
  ⟨(C5_delete_acknowledges_and_frames env0
      ⟨fun _ => [⟨6, [("title", .str "A")]⟩, ⟨7, [("title", .str "B")]⟩]⟩ .Slide
      "000000000000000000000007").1 7 (by decide) rfl,
   (C5_delete_acknowledges_and_frames env0
      ⟨fun _ => [⟨6, [("title", .str "A")]⟩, ⟨7, [("title", .str "B")]⟩]⟩ .Slide
      "000000000000000000000007").2.2.2.2 _ (List.mem_cons_self _ _) (by decide)⟩

end Guit

/-! ## UPDATE -/

namespace Guit

theorem castUpdate_absent {env : Env} {M : ModelName} {b u : Fields}
    (h : castUpdate env M b = .ok u) {k : String} (hk : getField b k = none) :
    getField u k = none := by
  induction b generalizing u with
  | nil =>
    simp only [castUpdate, Except.ok.injEq] at h
    rw [← h]
    rfl
  | cons p rest ih =>
    obtain ⟨k0, v0⟩ := p
    have hne : k0 ≠ k := by
      intro he
      rw [he, getField_cons_self] at hk
      exact Option.noConfusion hk
    rw [getField_cons_ne _ _ hne] at hk
    unfold castUpdate at h
    split at h
    · split at h
      · exact Except.noConfusion h
      · split at h
        · exact Except.noConfusion h
        · rename_i r hr
          simp only [Except.ok.injEq] at h
          rw [← h, getField_cons_ne _ _ hne]
          exact ih hr hk
    · split at h
      · exact ih h hk
      · split at h
        · exact Except.noConfusion h
        · split at h
          · exact Except.noConfusion h
          · rename_i r hr
            simp only [Except.ok.injEq] at h
            rw [← h, getField_cons_ne _ _ hne]
            exact ih hr hk

theorem castUpdate_undeclared {env : Env} {M : ModelName} {b u : Fields}
    (h : castUpdate env M b = .ok u) {k : String} (hid : k ≠ "_id")
    (hk : M.path? k = none) : getField u k = none := by
  induction b generalizing u with
  | nil =>
    simp only [castUpdate, Except.ok.injEq] at h
    rw [← h]
    rfl
  | cons p rest ih =>
    obtain ⟨k0, v0⟩ := p
    unfold castUpdate at h
    split at h
    · rename_i h0
      split at h
      · exact Except.noConfusion h
      · split at h
        · exact Except.noConfusion h
        · rename_i r hr
          simp only [Except.ok.injEq] at h
          have hne : k0 ≠ k := by
            rw [h0]
            exact Ne.symm hid
          rw [← h, getField_cons_ne _ _ hne]
          exact ih hr
    · split at h
      · exact ih h
      · rename_i p0 hp0
        split at h
        · exact Except.noConfusion h
        · split at h
          · exact Except.noConfusion h
          · rename_i r hr
            simp only [Except.ok.injEq] at h
            have hne : k0 ≠ k := by
              intro he
              rw [he, hk] at hp0
              exact Option.noConfusion hp0
            rw [← h, getField_cons_ne _ _ hne]
            exact ih hr

theorem castUpdate_declared {env : Env} {M : ModelName} {b u : Fields}
    (h : castUpdate env M b = .ok u) {k : String} (hid : k ≠ "_id") {p : SchemaPath}
    (hp : M.path? k = some p) {v : Value} (hk : getField b k = some v) :
    ∃ c, castValue env p v = .ok c ∧ getField u k = some c := by
  induction b generalizing u with
  | nil => exact Option.noConfusion hk
  | cons q rest ih =>
    obtain ⟨k0, v0⟩ := q
    unfold castUpdate at h
    split at h
    · rename_i h0
      have hne : k0 ≠ k := by
        rw [h0]
        exact Ne.symm hid
      rw [getField_cons_ne _ _ hne] at hk
      split at h
      · exact Except.noConfusion h
      · split at h
        · exact Except.noConfusion h
        · rename_i r hr
          simp only [Except.ok.injEq] at h
          rw [← h, getField_cons_ne _ _ hne]
          exact ih hr hk
    · by_cases hkk : k0 = k
      · subst hkk
        rw [getField_cons_self] at hk
        simp only [Option.some.injEq] at hk
        subst hk
        rw [hp] at h
        simp only at h
        split at h
        · exact Except.noConfusion h
        · rename_i c hc
          split at h
          · exact Except.noConfusion h
          · simp only [Except.ok.injEq] at h
            refine ⟨c, hc, ?_⟩
            rw [← h, getField_cons_self]
      · rw [getField_cons_ne _ _ hkk] at hk
        split at h
        · exact ih h hk
        · split at h
          · exact Except.noConfusion h
          · split at h
            · exact Except.noConfusion h
            · rename_i r hr
              simp only [Except.ok.injEq] at h
              rw [← h, getField_cons_ne _ _ hkk]
              exact ih hr hk

theorem applySet_absent (o u : Fields) {k : String} (h : getField u k = none) :
    getField (applySet o u) k = getField o k := by
  induction u with
  | nil => rfl
  | cons p rest ih =>
    obtain ⟨k0, v0⟩ := p
    have hne : k0 ≠ k := by
      intro he
      rw [he, getField_cons_self] at h
      exact Option.noConfusion h
    rw [getField_cons_ne _ _ hne] at h
    have hstep : applySet o ((k0, v0) :: rest)
        = if k0 = "_id" then applySet o rest else setField (applySet o rest) k0 v0 := rfl
    rw [hstep]
    split
    · exact ih h
    · rw [getField_setField_ne _ _ (Ne.symm hne)]
      exact ih h

theorem applySet_present (o u : Fields) {k : String} (hid : k ≠ "_id") {c : Value}
    (h : getField u k = some c) : getField (applySet o u) k = some c := by
  induction u with
  | nil => exact Option.noConfusion h
  | cons p rest ih =>
    obtain ⟨k0, v0⟩ := p
    have hstep : applySet o ((k0, v0) :: rest)
        = if k0 = "_id" then applySet o rest else setField (applySet o rest) k0 v0 := rfl
    rw [hstep]
    by_cases hkk : k0 = k
    · subst hkk
      rw [getField_cons_self] at h
      simp only [Option.some.injEq] at h
      rw [if_neg hid, getField_setField_self, h]
    · rw [getField_cons_ne _ _ hkk] at h
      split
      · exact ih h
      · rw [getField_setField_ne _ _ (Ne.symm hkk)]
        exact ih h

theorem replaceDoc_length (l : List Doc) (i : Nat) (d : Doc) :
    (replaceDoc l i d).length = l.length := by
  induction l with
  | nil => rfl
  | cons e rest ih =>
    unfold replaceDoc
    split
    · rfl
    · simp [ih]

theorem replaceDoc_others (l : List Doc) (i : Nat) (d : Doc) (hd : d._id = i) :
    (replaceDoc l i d).filter (fun e => e._id != i) = l.filter (fun e => e._id != i) := by
  induction l with
  | nil => rfl
  | cons e rest ih =>
    unfold replaceDoc
    split
    · rename_i he
      simp only [beq_iff_eq] at he
      simp [List.filter_cons, he, hd]
    · rw [List.filter_cons, List.filter_cons, ih]

theorem replaceDoc_find (l : List Doc) (i : Nat) (d d1 : Doc) (hd : d1._id = i)
    (h : findDoc l i = some d) : findDoc (replaceDoc l i d1) i = some d1 := by
  induction l with
  | nil => exact Option.noConfusion h
  | cons e rest ih =>
    unfold replaceDoc
    by_cases he : e._id = i
    · simp [he, findDoc, hd]
    · have h2 : findDoc rest i = some d := by
        simpa [findDoc, List.find?_cons, he] using h
      simp only [beq_iff_eq, he, if_false]
      have : findDoc (e :: replaceDoc rest i d1) i = findDoc (replaceDoc rest i d1) i := by
        simp [findDoc, List.find?_cons, he]
      rw [this]
      exact ih h2

theorem findDoc_of_mem_nodup {l : List Doc} {d : Doc} (hd : d ∈ l)
    (hu : (l.map Doc._id).Nodup) : findDoc l d._id = some d := by
  induction l with
  | nil => exact absurd hd (List.not_mem_nil d)
  | cons e rest ih =>
    rw [List.map_cons, List.nodup_cons] at hu
    rcases List.mem_cons.mp hd with h | h
    · subst h
      simp [findDoc]
    · have hne : e._id ≠ d._id := by
        intro he
        apply hu.1
        rw [he]
        exact List.mem_map_of_mem Doc._id h
      have : findDoc (e :: rest) d._id = findDoc rest d._id := by
        simp [findDoc, List.find?_cons, hne]
      rw [this]
      exact ih h hu.2

/-- The body UPDATE hands to the store: the request body stamped with the clock. -/
theorem update_eq (env : Env) (st : Store) (M : ModelName) (id : String) (body : Fields) :
    createCrudRoutes.update env st M id body =
      match Model.findByIdAndUpdate env st M id
          (setField body "updatedAt" (.date env.now)) with
      | .ok (st1, some updatedItem) => (st1, ⟨200, .object updatedItem.toObject⟩)
      | .ok (st1, none) => (st1, ⟨200, .null⟩)
      | .error msg => (st, ⟨400, errorBody msg⟩) := rfl

theorem findByIdAndUpdate_ok {env : Env} {st st1 : Store} {M : ModelName} {id : String}
    {upd : Fields} {res : Option Doc}
    (h : Model.findByIdAndUpdate env st M id upd = .ok (st1, res)) :
    ∃ i u, castObjectId id = some i ∧ castUpdate env M upd = .ok u ∧ env.fault M = none ∧
      ((findDoc (st.coll M) i = none ∧ st1 = st ∧ res = none) ∨
       (∃ d, findDoc (st.coll M) i = some d ∧
          res = some (Model.hydrate env M ⟨d._id, applySet d.fields u⟩) ∧
          st1 = st.put M (replaceDoc (st.coll M) i ⟨d._id, applySet d.fields u⟩))) := by
  unfold Model.findByIdAndUpdate at h
  split at h
  · exact Except.noConfusion h
  · rename_i i hi
    split at h
    · exact Except.noConfusion h
    · rename_i u hu
      split at h
      · exact Except.noConfusion h
      · rename_i hf
        refine ⟨i, u, hi, hu, hf, ?_⟩
        split at h
        · rename_i hfd
          simp only [Except.ok.injEq, Prod.mk.injEq] at h
          exact Or.inl ⟨hfd, h.1.symm, h.2.symm⟩
        · rename_i d hfd
          split at h
          · exact Except.noConfusion h
          · dsimp only at h
            split at h
            · exact Except.noConfusion h
            · simp only [Except.ok.injEq, Prod.mk.injEq] at h
              exact Or.inr ⟨d, hfd, h.2.symm, h.1.symm⟩

/-- The three outcomes of UPDATE: an error with the store untouched, a null
answer with the store untouched, or the first document of the identifier
replaced by its updated version. -/
theorem update_cases (env : Env) (st : Store) (M : ModelName) (id : String) (body : Fields) :
    (∃ msg, createCrudRoutes.update env st M id body = (st, ⟨400, errorBody msg⟩)) ∨
    (∃ i u, castObjectId id = some i ∧
        castUpdate env M (setField body "updatedAt" (.date env.now)) = .ok u ∧
        env.fault M = none ∧ findDoc (st.coll M) i = none ∧
        createCrudRoutes.update env st M id body = (st, ⟨200, .null⟩)) ∨
    (∃ i u d, castObjectId id = some i ∧
        castUpdate env M (setField body "updatedAt" (.date env.now)) = .ok u ∧
        env.fault M = none ∧ findDoc (st.coll M) i = some d ∧
        createCrudRoutes.update env st M id body =
          (st.put M (replaceDoc (st.coll M) i ⟨d._id, applySet d.fields u⟩),
            ⟨200, .object (Model.hydrate env M ⟨d._id, applySet d.fields u⟩).toObject⟩)) := by
  rw [update_eq]
  cases h : Model.findByIdAndUpdate env st M id (setField body "updatedAt" (.date env.now)) with
  | error msg => exact Or.inl ⟨msg, rfl⟩
  | ok out =>
    obtain ⟨st1, res⟩ := out
    obtain ⟨i, u, hi, hu, hf, hcase⟩ := findByIdAndUpdate_ok h
    rcases hcase with ⟨hfd, hst, hres⟩ | ⟨d, hfd, hres, hst⟩
    · subst hst
      subst hres
      exact Or.inr (Or.inl ⟨i, u, hi, hu, hf, hfd, rfl⟩)
    · subst hst
      subst hres
      exact Or.inr (Or.inr ⟨i, u, d, hi, hu, hf, hfd, rfl⟩)

end Guit

namespace Guit

theorem updatedAt_is_date (M : ModelName) :
    (M.path? "updatedAt").all (fun p => p.type == SchemaType.date) = true := by
  cases M <;> rfl

theorem castValue_updatedAt (env : Env) (M : ModelName) (p : SchemaPath)
    (hp : M.path? "updatedAt" = some p) (t : Int) :
    castValue env p (.date t) = .ok (.date t) := by
  have h := updatedAt_is_date M
  rw [hp] at h
  simp only [Option.all_some, beq_iff_eq] at h
  simp [castValue, h, castDate]

theorem update_not_found (env : Env) (st : Store) (M : ModelName) (id : String)
    (body : Fields) (i : Nat) (u : Fields) (hid : castObjectId id = some i)
    (hcu : castUpdate env M (setField body "updatedAt" (.date env.now)) = .ok u)
    (hf : env.fault M = none) (hfd : findDoc (st.coll M) i = none) :
    createCrudRoutes.update env st M id body = (st, ⟨200, .null⟩) := by
  rw [update_eq]
  simp only [Model.findByIdAndUpdate, hid, hcu, hf, hfd]

/-- Of the registered resources all but messages and newsletter declare `updatedAt`. -/
theorem registered_declares_updatedAt (M : ModelName)
    (h : M ∈ crudResources.map Prod.fst) :
    M.path? "updatedAt" ≠ none ↔ (M ≠ .Message ∧ M ≠ .Newsletter) := by
  cases M <;> first
    | exact absurd h (by decide)
    | exact ⟨fun _ => ⟨by decide, by decide⟩, fun _ => by decide⟩
    | exact ⟨fun hp => absurd rfl hp, fun hn => absurd rfl hn.1⟩
    | exact ⟨fun hp => absurd rfl hp, fun hn => absurd rfl hn.2⟩

theorem replaceDoc_ids (l : List Doc) (i : Nat) (d : Doc) (hd : d._id = i) :
    (replaceDoc l i d).map Doc._id = l.map Doc._id := by
  induction l with
  | nil => rfl
  | cons e rest ih =>
    unfold replaceDoc
    split
    · rename_i he
      simp only [beq_iff_eq] at he
      simp [he, hd]
    · simp [ih]

/-- UPDATE keeps identifiers unique. -/
theorem update_uniqueIds (env : Env) (st : Store) (M : ModelName) (id : String)
    (body : Fields) (hu : st.UniqueIds) :
    (createCrudRoutes.update env st M id body).1.UniqueIds := by
  rcases update_cases env st M id body with ⟨msg, h⟩ | ⟨i, u, _, _, _, _, h⟩ |
      ⟨i, u, d0, _, _, _, hfd, h⟩
  · rw [h]
    exact hu
  · rw [h]
    exact hu
  · rw [h]
    intro N
    by_cases hN : N = M
    · subst hN
      rw [put_coll_self,
        replaceDoc_ids (st.coll N) i ⟨d0._id, applySet d0.fields u⟩ (findDoc_some hfd).2]
      exact hu N
    · rw [put_coll_ne st _ hN]
      exact hu N

/-- DELETE keeps identifiers unique. -/
theorem delete_uniqueIds (env : Env) (st : Store) (M : ModelName) (id : String)
    (hu : st.UniqueIds) : (createCrudRoutes.delete env st M id).1.UniqueIds := by
  rcases delete_store_cases env st M id with h | ⟨i, _, h⟩
  · rw [h]
    exact hu
  · rw [h]
    intro N
    by_cases hN : N = M
    · subst hN
      rw [put_coll_self]
      exact ((List.eraseP_sublist (st.coll N)).map Doc._id).nodup (hu N)
    · rw [put_coll_ne st _ hN]
      exact hu N

/-- C2: for an existing document `d` of a collection, addressed by its
identifier, UPDATE with any body leaves every other collection as it was,
leaves the collection with the same number of documents and every document of
another identifier as it was and where it was, and leaves under the identifier
a document that agrees with `d` on every field the body does not name, except
`updatedAt`. -/
theorem C2_update_changes_only_named_fields (env : Env) (st : Store) (M : ModelName)
    (id : String) (body : Fields) (d : Doc) (hu : st.UniqueIds) (hd : d ∈ st.coll M)
    (hid : castObjectId id = some d._id) :
    (∀ N, N ≠ M → (createCrudRoutes.update env st M id body).1.coll N = st.coll N) ∧
    ((createCrudRoutes.update env st M id body).1.coll M).length = (st.coll M).length ∧
    ((createCrudRoutes.update env st M id body).1.coll M).filter (fun e => e._id != d._id)
      = (st.coll M).filter (fun e => e._id != d._id) ∧
    ∃ d1, findDoc ((createCrudRoutes.update env st M id body).1.coll M) d._id = some d1 ∧
      d1._id = d._id ∧
      ∀ k, getField body k = none → k ≠ "updatedAt" →
        getField d1.fields k = getField d.fields k := by
  have hfind : findDoc (st.coll M) d._id = some d := findDoc_of_mem_nodup hd (hu M)
  rcases update_cases env st M id body with ⟨msg, h⟩ | ⟨i, u, _, _, _, _, h⟩ |
      ⟨i, u, d0, hi, hcu, _, hfd, h⟩
  · rw [h]
    exact ⟨fun _ _ => rfl, rfl, rfl, d, hfind, rfl, fun _ _ _ => rfl⟩
  · rw [h]
    exact ⟨fun _ _ => rfl, rfl, rfl, d, hfind, rfl, fun _ _ _ => rfl⟩
  · rw [hid] at hi
    simp only [Option.some.injEq] at hi
    subst hi
    rw [hfind] at hfd
    simp only [Option.some.injEq] at hfd
    subst hfd
    rw [h]
    simp only [put_coll_self]
    refine ⟨fun N hN => put_coll_ne st _ hN, replaceDoc_length _ _ _,
      replaceDoc_others _ _ _ rfl, _, replaceDoc_find _ _ d _ rfl hfind, rfl, ?_⟩
    intro k hk hne
    have hb : getField (setField body "updatedAt" (.date env.now)) k = none := by
      rw [getField_setField_ne _ _ hne]
      exact hk
    exact applySet_absent _ _ (castUpdate_absent hcu hb)

/-- Witness of C2: a slide with a title and an order gets a new title; the
order stays. -/
theorem C2_update_changes_only_named_fields_witness :
    ∃ d1, findDoc ((createCrudRoutes.update env0
          ⟨fun _ => [⟨7, [("title", .str "Old"), ("order", .num 3)]⟩]⟩ .Slide
          "000000000000000000000007" [("title", .str "New")]).1.coll .Slide) 7 = some d1 ∧
      d1._id = 7 ∧
      ∀ k, getField [("title", Value.str "New")] k = none → k ≠ "updatedAt" →
        getField d1.fields k = getField [("title", Value.str "Old"), ("order", .num 3)] k :=
  (C2_update_changes_only_named_fields env0
    ⟨fun _ => [⟨7, [("title", .str "Old"), ("order", .num 3)]⟩]⟩ .Slide
    "000000000000000000000007" [("title", .str "New")]
    ⟨7, [("title", .str "Old"), ("order", .num 3)]⟩ (fun _ => by simp)
    (List.mem_singleton.mpr rfl) (by decide)).2.2.2

/-- C3 as stated fails: messages are a registered resource whose schema has no
`updatedAt`; a successful PUT on a stored message changes the named field and
stores no `updatedAt`, also when the payload supplies one. -/
theorem C3_counterexample_message :
    (createCrudRoutes.update env0
        ⟨fun _ => [⟨7, [("name", .str "Gatluak"), ("status", .str "new")]⟩]⟩ .Message
        "000000000000000000000007" [("status", .str "read"), ("updatedAt", .num 5)]).2.status
      = 200 ∧
    findDoc ((createCrudRoutes.update env0
        ⟨fun _ => [⟨7, [("name", .str "Gatluak"), ("status", .str "new")]⟩]⟩ .Message
        "000000000000000000000007" [("status", .str "read"), ("updatedAt", .num 5)]).1.coll
        .Message) 7
      = some ⟨7, [("name", .str "Gatluak"), ("status", .str "read")]⟩ ∧
    getField [("name", Value.str "Gatluak"), ("status", .str "read")] "updatedAt" = none := by
  decide

/-- C3, amended: for a model whose schema declares `updatedAt`, a PUT that
answers 200 for an existing document leaves that document stored with
`updatedAt` equal to the clock of the request, whatever the payload gives for
`updatedAt`, and answers with that document as loaded. -/
theorem C3_update_stamps_updatedAt (env : Env) (st : Store) (M : ModelName) (id : String)
    (body : Fields) (i : Nat) (d : Doc) (hp : M.path? "updatedAt" ≠ none)
    (hid : castObjectId id = some i) (hd : findDoc (st.coll M) i = some d)
    (hok : (createCrudRoutes.update env st M id body).2.status = 200) :
    ∃ d1, findDoc ((createCrudRoutes.update env st M id body).1.coll M) i = some d1 ∧
      getField d1.fields "updatedAt" = some (Value.date env.now) ∧
      (createCrudRoutes.update env st M id body).2
        = ⟨200, .object (Model.hydrate env M d1).toObject⟩ := by
  rcases update_cases env st M id body with ⟨msg, h⟩ | ⟨i0, u, hi, _, _, hfd, _⟩ |
      ⟨i0, u, d0, hi, hcu, _, hfd, h⟩
  · rw [h] at hok
    exact absurd hok (by simp)
  · rw [hid] at hi
    simp only [Option.some.injEq] at hi
    subst hi
    rw [hd] at hfd
    exact Option.noConfusion hfd
  · rw [hid] at hi
    simp only [Option.some.injEq] at hi
    subst hi
    rw [h]
    simp only [put_coll_self]
    refine ⟨_, replaceDoc_find _ _ d0 _ (findDoc_some hfd).2 hfd, ?_, rfl⟩
    obtain ⟨p, hpp⟩ := Option.ne_none_iff_exists'.mp hp
    obtain ⟨c, hc, hgu⟩ := castUpdate_declared hcu (by decide) hpp
      (getField_setField_self body "updatedAt" (.date env.now))
    rw [castValue_updatedAt env M p hpp] at hc
    simp only [Except.ok.injEq] at hc
    rw [← hc] at hgu
    exact applySet_present _ _ (by decide) hgu

/-- Witness of C3: a slide is updated with a payload that gives its own
`updatedAt`; the clock of the request is what is stored. -/
theorem C3_update_stamps_updatedAt_witness :
    ∃ d1, findDoc ((createCrudRoutes.update env0
          ⟨fun _ => [⟨7, [("title", .str "Old"), ("updatedAt", .date 1)]⟩]⟩ .Slide
          "000000000000000000000007" [("updatedAt", .num 5)]).1.coll .Slide) 7 = some d1 ∧
      getField d1.fields "updatedAt" = some (Value.date 1000) ∧
      (createCrudRoutes.update env0
          ⟨fun _ => [⟨7, [("title", .str "Old"), ("updatedAt", .date 1)]⟩]⟩ .Slide
          "000000000000000000000007" [("updatedAt", .num 5)]).2
        = ⟨200, .object (Model.hydrate env0 .Slide d1).toObject⟩ :=
  C3_update_stamps_updatedAt env0
    ⟨fun _ => [⟨7, [("title", .str "Old"), ("updatedAt", .date 1)]⟩]⟩ .Slide
    "000000000000000000000007" [("updatedAt", .num 5)] 7
    ⟨7, [("title", .str "Old"), ("updatedAt", .date 1)]⟩ (by decide) (by decide) (by decide)
    (by decide)

/-- C9 as stated fails: with no slide stored, PUT answers an error and not null
for the path segment `abc`, for a well-formed identifier with a payload whose
`order` is no number, and when the store fails. -/
theorem C9_counterexample_error_not_null :
    (createCrudRoutes.update env0 emptyStore .Slide "abc" []).2
        = ⟨400, errorBody "Cast to ObjectId failed at path _id"⟩ ∧
    (createCrudRoutes.update env0 emptyStore .Slide "000000000000000000000007"
        [("order", .str "abc")]).2
        = ⟨400, errorBody "Cast to Number failed at path order"⟩ ∧
    (createCrudRoutes.update envDown emptyStore .Slide "000000000000000000000007" []).2
        = ⟨400, errorBody "connection lost"⟩ := by
  decide

/-- C9, amended: when the path segment denotes the identifier of no document of
the collection, PUT leaves the whole store as it was; when the segment is a
well-formed identifier, the stamped payload casts and the store does not fail,
PUT answers 200 with the body null; and when one of the three is not so, PUT
answers 400 with an error message. -/
theorem C9_update_of_missing_id (env : Env) (st : Store) (M : ModelName) (id : String)
    (body : Fields)
    (hno : ∀ i, castObjectId id = some i → ∀ d ∈ st.coll M, d._id ≠ i) :
    (createCrudRoutes.update env st M id body).1 = st ∧
    (∀ i u, castObjectId id = some i →
        castUpdate env M (setField body "updatedAt" (.date env.now)) = .ok u →
        env.fault M = none →
        (createCrudRoutes.update env st M id body).2 = ⟨200, .null⟩) ∧
    (castObjectId id = none ∨
        (∃ e, castUpdate env M (setField body "updatedAt" (.date env.now)) = .error e) ∨
        (∃ e, env.fault M = some e) →
        ∃ msg, (createCrudRoutes.update env st M id body).2 = ⟨400, errorBody msg⟩) := by
  refine ⟨?_, ?_, ?_⟩
  · rcases update_cases env st M id body with ⟨msg, h⟩ | ⟨i, u, _, _, _, _, h⟩ |
        ⟨i, u, d0, hi, _, _, hfd, _⟩
    · rw [h]
    · rw [h]
    · exact absurd (findDoc_some hfd).2 (hno i hi d0 (findDoc_some hfd).1)
  · intro i u hid hcu hf
    rw [update_not_found env st M id body i u hid hcu hf (findDoc_eq_none.mpr (hno i hid))]
  · intro hbad
    rcases update_cases env st M id body with ⟨msg, h⟩ | ⟨i, u, hi, hcu, hf, _, _⟩ |
        ⟨i, u, d0, hi, _, _, hfd, _⟩
    · exact ⟨msg, by rw [h]⟩
    · rcases hbad with h1 | ⟨e, h2⟩ | ⟨e, h3⟩
      · rw [hi] at h1
        exact Option.noConfusion h1
      · rw [hcu] at h2
        exact Except.noConfusion h2
      · rw [hf] at h3
        exact Option.noConfusion h3
    · exact absurd (findDoc_some hfd).2 (hno i hi d0 (findDoc_some hfd).1)

/-- Witness of C9: a PUT for an identifier no stored slide has. -/
theorem C9_update_of_missing_id_witness :
    (createCrudRoutes.update env0 ⟨fun _ => [⟨6, [("title", .str "A")]⟩]⟩ .Slide
        "000000000000000000000007" [("title", .str "B")]).2 = ⟨200, .null⟩ :=
  (C9_update_of_missing_id env0 ⟨fun _ => [⟨6, [("title", .str "A")]⟩]⟩ .Slide
    "000000000000000000000007" [("title", .str "B")]
    (fun i hi d hd => by
      have h7 : i = 7 := by
        have : castObjectId "000000000000000000000007" = some 7 := by decide
        rw [this] at hi
        exact (Option.some.inj hi).symm
      rw [List.mem_singleton.mp hd, h7]
      decide)).2.1 7
    [("title", .str "B"), ("updatedAt", .date 1000)] (by decide) rfl rfl

end Guit

/-! ## CREATE -/

namespace Guit

theorem paths_names_nodup (M : ModelName) : (M.paths.map (fun p => p.name)).Nodup := by
  cases M <;> decide

theorem path_id_none (M : ModelName) : M.path? "_id" = none := by
  cases M <;> rfl

theorem path_name_ne_id {M : ModelName} {p : SchemaPath} (hp : p ∈ M.paths) :
    p.name ≠ "_id" := by
  have h := path_id_none M
  unfold ModelName.path? at h
  rw [List.find?_eq_none] at h
  simpa using h p hp

theorem path_none_iff {M : ModelName} {k : String} :
    M.path? k = none ↔ ∀ p ∈ M.paths, p.name ≠ k := by
  unfold ModelName.path?
  rw [List.find?_eq_none]
  simp

theorem castValue_fits (env : Env) (p : SchemaPath) (v : Value) (h : v.fits p.type = true) :
    castValue env p v = .ok v := by
  unfold castValue
  cases hp : p.type <;> cases v <;> rw [hp] at h <;>
    first
      | rfl
      | exact Bool.noConfusion h

theorem buildFields_spec {env : Env} {body : Fields} {ps : List SchemaPath} {fs : Fields}
    (h : buildFields env body ps = .ok fs) (hn : (ps.map (fun p => p.name)).Nodup) :
    (∀ p ∈ ps, ∀ v, getField body p.name = some v →
        ∃ c, castValue env p v = .ok c ∧ getField fs p.name = some c) ∧
    (∀ p ∈ ps, getField body p.name = none → getField fs p.name = p.dflt.value env) ∧
    (∀ k, (∀ p ∈ ps, p.name ≠ k) → getField fs k = none) := by
  induction ps generalizing fs with
  | nil =>
    simp only [buildFields, Except.ok.injEq] at h
    subst h
    exact ⟨fun _ hp => absurd hp (List.not_mem_nil _),
      fun _ hp => absurd hp (List.not_mem_nil _), fun _ _ => rfl⟩
  | cons p ps ih =>
    rw [List.map_cons, List.nodup_cons] at hn
    have hne : ∀ q ∈ ps, p.name ≠ q.name := by
      intro q hq he
      apply hn.1
      rw [he]
      exact List.mem_map_of_mem (fun p => p.name) hq
    unfold buildFields at h
    split at h
    · rename_i v hv
      split at h
      · exact Except.noConfusion h
      · rename_i c hc
        split at h
        · exact Except.noConfusion h
        · rename_i rest hrest
          simp only [Except.ok.injEq] at h
          subst h
          obtain ⟨ih1, ih2, ih3⟩ := ih hrest hn.2
          refine ⟨?_, ?_, ?_⟩
          · intro q hq w hw
            rcases List.mem_cons.mp hq with hqp | hqp
            · subst hqp
              rw [hv] at hw
              simp only [Option.some.injEq] at hw
              subst hw
              exact ⟨c, hc, getField_cons_self _ _ _⟩
            · rw [getField_cons_ne _ _ (hne q hqp)]
              exact ih1 q hqp w hw
          · intro q hq hw
            rcases List.mem_cons.mp hq with hqp | hqp
            · subst hqp
              rw [hv] at hw
              exact Option.noConfusion hw
            · rw [getField_cons_ne _ _ (hne q hqp)]
              exact ih2 q hqp hw
          · intro k hk
            rw [getField_cons_ne _ _ (hk p (List.mem_cons_self _ _))]
            exact ih3 k (fun q hq => hk q (List.mem_cons_of_mem _ hq))
    · rename_i hv
      split at h
      · exact Except.noConfusion h
      · rename_i rest hrest
        obtain ⟨ih1, ih2, ih3⟩ := ih hrest hn.2
        have hp_rest : getField rest p.name = none :=
          ih3 p.name (fun q hq he => hne q hq he.symm)
        split at h
        · rename_i hdv
          simp only [Except.ok.injEq] at h
          subst h
          refine ⟨?_, ?_, ?_⟩
          · intro q hq w hw
            rcases List.mem_cons.mp hq with hqp | hqp
            · subst hqp
              rw [hv] at hw
              exact Option.noConfusion hw
            · exact ih1 q hqp w hw
          · intro q hq hw
            rcases List.mem_cons.mp hq with hqp | hqp
            · subst hqp
              rw [hdv]
              exact hp_rest
            · exact ih2 q hqp hw
          · intro k hk
            exact ih3 k (fun q hq => hk q (List.mem_cons_of_mem _ hq))
        · rename_i dv hdv
          simp only [Except.ok.injEq] at h
          subst h
          refine ⟨?_, ?_, ?_⟩
          · intro q hq w hw
            rcases List.mem_cons.mp hq with hqp | hqp
            · subst hqp
              rw [hv] at hw
              exact Option.noConfusion hw
            · rw [getField_cons_ne _ _ (hne q hqp)]
              exact ih1 q hqp w hw
          · intro q hq hw
            rcases List.mem_cons.mp hq with hqp | hqp
            · subst hqp
              rw [hdv]
              exact getField_cons_self _ _ _
            · rw [getField_cons_ne _ _ (hne q hqp)]
              exact ih2 q hqp hw
          · intro k hk
            rw [getField_cons_ne _ _ (hk p (List.mem_cons_self _ _))]
            exact ih3 k (fun q hq => hk q (List.mem_cons_of_mem _ hq))

theorem new_ok {env : Env} {M : ModelName} {body : Fields} {d : Doc}
    (h : Model.new env M body = .ok d) :
    buildFields env body M.paths = .ok d.fields ∧
      (getField body "_id" = none → d._id = env.newId) := by
  unfold Model.new at h
  split at h
  · exact Except.noConfusion h
  · rename_i i hi
    split at h
    · exact Except.noConfusion h
    · rename_i fs hfs
      simp only [Except.ok.injEq] at h
      subst h
      refine ⟨hfs, ?_⟩
      intro hb
      rw [hb] at hi
      simp only [Except.ok.injEq] at hi
      exact hi.symm

theorem create_eq (env : Env) (st : Store) (M : ModelName) (body : Fields) :
    createCrudRoutes.create env st M body =
      match Model.save env st M (Model.new env M body) with
      | .ok (st1, savedItem) => (st1, ⟨201, .object savedItem.toObject⟩)
      | .error msg => (st, ⟨400, errorBody msg⟩) := rfl

theorem save_ok {env : Env} {st st1 : Store} {M : ModelName} {item : Except String Doc}
    {d : Doc} (h : Model.save env st M item = .ok (st1, d)) :
    item = .ok d ∧ failedRequired M d.fields = none ∧ env.fault M = none ∧
      duplicateKey M (st.coll M) d = false ∧ st1 = st.put M (st.coll M ++ [d]) := by
  unfold Model.save at h
  split at h
  · exact Except.noConfusion h
  · rename_i d0
    split at h
    · exact Except.noConfusion h
    · rename_i hreq
      split at h
      · exact Except.noConfusion h
      · rename_i hf
        split at h
        · exact Except.noConfusion h
        · rename_i hdup
          simp only [Except.ok.injEq, Prod.mk.injEq] at h
          obtain ⟨h1, h2⟩ := h
          subst h2
          exact ⟨rfl, hreq, hf, by simpa using hdup, h1.symm⟩

theorem create_created {env : Env} {st : Store} {M : ModelName} {body : Fields}
    (h : (createCrudRoutes.create env st M body).2.status = 201) :
    ∃ d, Model.new env M body = .ok d ∧ failedRequired M d.fields = none ∧
      env.fault M = none ∧ duplicateKey M (st.coll M) d = false ∧
      createCrudRoutes.create env st M body
        = (st.put M (st.coll M ++ [d]), ⟨201, .object d.toObject⟩) := by
  rw [create_eq] at h ⊢
  cases hs : Model.save env st M (Model.new env M body) with
  | error msg =>
    rw [hs] at h
    exact absurd h (by simp)
  | ok out =>
    obtain ⟨st1, d⟩ := out
    obtain ⟨h1, h2, h3, h4, h5⟩ := save_ok hs
    subst h5
    exact ⟨d, h1, h2, h3, h4, rfl⟩

theorem findDoc_append_new (l : List Doc) (d : Doc)
    (h : l.any (fun e => e._id == d._id) = false) : findDoc (l ++ [d]) d._id = some d := by
  induction l with
  | nil => simp [findDoc]
  | cons e rest ih =>
    simp only [List.any_cons, Bool.or_eq_false_iff] at h
    have hne : e._id ≠ d._id := by simpa using h.1
    have : findDoc (e :: rest ++ [d]) d._id = findDoc (rest ++ [d]) d._id := by
      simp [findDoc, List.find?_cons, hne]
    rw [this]
    exact ih h.2

/-- CREATE keeps identifiers unique: the store refuses a second document of an
identifier. -/
theorem create_uniqueIds (env : Env) (st : Store) (M : ModelName) (body : Fields)
    (hu : st.UniqueIds) : (createCrudRoutes.create env st M body).1.UniqueIds := by
  rw [create_eq]
  cases hs : Model.save env st M (Model.new env M body) with
  | error msg => exact hu
  | ok out =>
    obtain ⟨st1, d⟩ := out
    obtain ⟨_, _, _, hdup, hst⟩ := save_ok hs
    subst hst
    have hany : (st.coll M).any (fun e => e._id == d._id) = false := by
      unfold duplicateKey at hdup
      rw [Bool.or_eq_false_iff] at hdup
      exact hdup.1
    intro N
    by_cases hN : N = M
    · subst hN
      show (((st.put N (st.coll N ++ [d])).coll N).map Doc._id).Nodup
      rw [put_coll_self, List.map_append, List.nodup_append]
      refine ⟨hu N, by simp, ?_⟩
      intro a ha hb
      simp only [List.map_cons, List.map_nil, List.mem_singleton] at hb
      subst hb
      obtain ⟨e, he, hee⟩ := List.mem_map.mp ha
      have := List.any_eq_false.mp hany e he
      simp [hee] at this
    · show (((st.put M (st.coll M ++ [d])).coll N).map Doc._id).Nodup
      rw [put_coll_ne st _ hN]
      exact hu N

end Guit

namespace Guit

theorem schema_subset_paths {M : ModelName} {p : SchemaPath} (hp : p ∈ M.schema) :
    p ∈ M.paths := by
  unfold ModelName.paths
  exact List.mem_append_left _ hp

/-- A new document holds every schema path that has a default. -/
theorem new_complete {env : Env} {M : ModelName} {body : Fields} {d : Doc}
    (h : Model.new env M body = .ok d) : d.Complete M := by
  obtain ⟨b1, b2, _⟩ := buildFields_spec (new_ok h).1 (paths_names_nodup M)
  intro p hp hab hnone
  cases hb : getField body p.name with
  | some v =>
    obtain ⟨c, _, hc⟩ := b1 p (schema_subset_paths hp) v hb
    rw [hc] at hnone
    cases hnone
  | none =>
    rw [b2 p (schema_subset_paths hp) hb] at hnone
    exact (default_value_ne_none env p.dflt).mpr hab hnone

/-- C1 as stated fails: a slide payload with a field the schema does not
declare passes validation and is created (201), and the record GET ONE returns
for the new identifier has no such field. -/
theorem C1_counterexample_undeclared_field :
    (createCrudRoutes.create env0 emptyStore .Slide
        [("title", .str "Welcome"), ("foo", .str "bar")]).2.status = 201 ∧
    (createCrudRoutes.getOne env0
        (createCrudRoutes.create env0 emptyStore .Slide
          [("title", .str "Welcome"), ("foo", .str "bar")]).1 .Slide
        "000000000000000000000007").2
      = ⟨200, .object [("_id", .oid 7), ("title", .str "Welcome"), ("order", .num 0),
          ("status", .str "active"), ("createdAt", .date 1000), ("updatedAt", .date 1000),
          ("__v", .num 0)]⟩ ∧
    getField [("_id", Value.oid 7), ("title", .str "Welcome"), ("order", .num 0),
          ("status", .str "active"), ("createdAt", .date 1000), ("updatedAt", .date 1000),
          ("__v", .num 0)] "foo" ≠ some (Value.str "bar") := by
  decide

/-- C1, amended: when POST answers 201 it answers with the stored document, and
a GET ONE that meets no store failure, for a path segment denoting the
identifier of that document, returns the same record. In the record every
schema path the payload gives holds the payload value cast to the declared
type, which is the payload value itself when that already has the type; every
schema path the payload omits holds the schema default (the clock of the
request for `Date.now`, nothing without a default); a name that is no schema
path is not stored; the identifier is the generated one unless the payload
gives `_id`. -/
theorem C1_create_then_getOne (env env2 : Env) (st : Store) (M : ModelName) (body : Fields)
    (hok : (createCrudRoutes.create env st M body).2.status = 201)
    (hf2 : env2.fault M = none) :
    ∃ d : Doc, (createCrudRoutes.create env st M body).2 = ⟨201, .object d.toObject⟩ ∧
      (∀ id, castObjectId id = some d._id →
        createCrudRoutes.getOne env2 (createCrudRoutes.create env st M body).1 M id
          = ((createCrudRoutes.create env st M body).1, ⟨200, .object d.toObject⟩)) ∧
      (∀ p ∈ M.paths, ∀ v, getField body p.name = some v →
        ∃ c, castValue env p v = .ok c ∧ getField d.toObject p.name = some c) ∧
      (∀ p ∈ M.paths, ∀ v, getField body p.name = some v → v.fits p.type = true →
        getField d.toObject p.name = some v) ∧
      (∀ p ∈ M.paths, getField body p.name = none →
        getField d.toObject p.name = p.dflt.value env) ∧
      (∀ k, k ≠ "_id" → M.path? k = none → getField d.toObject k = none) ∧
      getField d.toObject "_id" = some (Value.oid d._id) ∧
      (getField body "_id" = none → d._id = env.newId) := by
  obtain ⟨d, hnew, _, _, hdup, hc⟩ := create_created hok
  obtain ⟨hbuild, hid⟩ := new_ok hnew
  obtain ⟨b1, b2, b3⟩ := buildFields_spec hbuild (paths_names_nodup M)
  have hany : (st.coll M).any (fun e => e._id == d._id) = false := by
    unfold duplicateKey at hdup
    rw [Bool.or_eq_false_iff] at hdup
    exact hdup.1
  refine ⟨d, by rw [hc], ?_, ?_, ?_, ?_, ?_, getField_toObject_id d, hid⟩
  · intro id hcast
    rw [hc, getOne_wellFormed env2 _ M id d._id hcast hf2, put_coll_self,
      findDoc_append_new _ _ hany]
    simp only [hydrate_complete env2 M d (new_complete hnew)]
  · intro p hp v hv
    rw [getField_toObject_ne d (path_name_ne_id hp)]
    exact b1 p hp v hv
  · intro p hp v hv hfit
    rw [getField_toObject_ne d (path_name_ne_id hp)]
    obtain ⟨c, hc1, hc2⟩ := b1 p hp v hv
    rw [castValue_fits env p v hfit] at hc1
    simp only [Except.ok.injEq] at hc1
    rw [hc2, hc1]
  · intro p hp hv
    rw [getField_toObject_ne d (path_name_ne_id hp)]
    exact b2 p hp hv
  · intro k hk hpath
    rw [getField_toObject_ne d hk]
    exact b3 k (path_none_iff.mp hpath)

/-- Witness of C1: a news item created as a draft and read back. -/
theorem C1_create_then_getOne_witness :
    ∃ d : Doc, (createCrudRoutes.create env0 emptyStore .News
          [("title", .str "Road Repairs Begin"), ("status", .str "draft")]).2
        = ⟨201, .object d.toObject⟩ ∧
      (∀ id, castObjectId id = some d._id →
        createCrudRoutes.getOne env0 (createCrudRoutes.create env0 emptyStore .News
          [("title", .str "Road Repairs Begin"), ("status", .str "draft")]).1 .News id
          = ((createCrudRoutes.create env0 emptyStore .News
              [("title", .str "Road Repairs Begin"), ("status", .str "draft")]).1,
              ⟨200, .object d.toObject⟩)) :=
  let ⟨d, h1, h2, _⟩ := C1_create_then_getOne env0 env0 emptyStore .News
    [("title", .str "Road Repairs Begin"), ("status", .str "draft")] (by decide) rfl
  ⟨d, h1, h2⟩

/-- C10 as stated fails: a store failure during CREATE or UPDATE is answered
400, not a server error. -/
theorem C10_counterexample_store_failure_400 :
    (createCrudRoutes.create envDown emptyStore .Slide [("title", .str "Welcome")])
        = (emptyStore, ⟨400, errorBody "connection lost"⟩) ∧
    (createCrudRoutes.update envDown emptyStore .Slide "000000000000000000000007"
        [("title", .str "Welcome")]).2
        = ⟨400, errorBody "connection lost"⟩ := by
  constructor
  · rfl
  · decide

/-- C10, amended: CREATE and UPDATE answer 400 with the message of whatever
fails, be it the cast of the payload, a required path, or the store; GET ALL,
GET ONE and DELETE answer 500 with the message of a store failure. In each case
the store is left as it was. -/
theorem C10_error_responses (env : Env) (st : Store) (M : ModelName) (id : String)
    (body : Fields) :
    (∀ msg, Model.new env M body = .error msg →
        createCrudRoutes.create env st M body = (st, ⟨400, errorBody msg⟩)) ∧
    (∀ d p, Model.new env M body = .ok d → failedRequired M d.fields = some p →
        createCrudRoutes.create env st M body
          = (st, ⟨400, errorBody ("Path " ++ p.name ++ " is required.")⟩)) ∧
    (∀ i msg, castObjectId id = some i →
        castUpdate env M (setField body "updatedAt" (.date env.now)) = .error msg →
        createCrudRoutes.update env st M id body = (st, ⟨400, errorBody msg⟩)) ∧
    (∀ e d, env.fault M = some e → Model.new env M body = .ok d →
        failedRequired M d.fields = none →
        createCrudRoutes.create env st M body = (st, ⟨400, errorBody e⟩)) ∧
    (∀ e i u, env.fault M = some e → castObjectId id = some i →
        castUpdate env M (setField body "updatedAt" (.date env.now)) = .ok u →
        createCrudRoutes.update env st M id body = (st, ⟨400, errorBody e⟩)) ∧
    (∀ e, env.fault M = some e →
        createCrudRoutes.getAll env st M = (st, ⟨500, errorBody e⟩)) ∧
    (∀ e i, env.fault M = some e → castObjectId id = some i →
        createCrudRoutes.getOne env st M id = (st, ⟨500, errorBody e⟩) ∧
        createCrudRoutes.delete env st M id = (st, ⟨500, errorBody e⟩)) := by
  refine ⟨?_, ?_, ?_, ?_, ?_, ?_, ?_⟩
  · intro msg h
    rw [create_eq, h]
    rfl
  · intro d p h hp
    rw [create_eq, h]
    simp only [Model.save, hp]
  · intro i msg hid h
    rw [update_eq]
    simp only [Model.findByIdAndUpdate, hid, h]
  · intro e d hf h hp
    rw [create_eq, h]
    simp only [Model.save, hp, hf]
  · intro e i u hf hid h
    rw [update_eq]
    simp only [Model.findByIdAndUpdate, hid, h, hf]
  · intro e hf
    simp only [createCrudRoutes.getAll, Model.findSorted, hf]
  · intro e i hf hid
    constructor
    · simp only [createCrudRoutes.getOne, Model.findById, hid, hf]
    · simp only [createCrudRoutes.delete, Model.findByIdAndDelete, hid, hf]

/-- Witness of C10: a user payload without the required email is answered 400
with the validation message, and a store failure during GET ALL is answered
500 with the failure message. -/
theorem C10_error_responses_witness :
    createCrudRoutes.create env0 emptyStore .User [("password", .str "secret")]
        = (emptyStore, ⟨400, errorBody "Path email is required."⟩) ∧
    createCrudRoutes.getAll envDown emptyStore .User
        = (emptyStore, ⟨500, errorBody "connection lost"⟩) :=
  ⟨(C10_error_responses env0 emptyStore .User "" [("password", .str "secret")]).2.1
      ⟨7, [("password", .str "secret"), ("role", .str "admin"), ("status", .str "active"),
        ("createdAt", .date 1000), ("updatedAt", .date 1000), ("__v", .num 0)]⟩
      ⟨"email", .string, true, true, false, .absent⟩ rfl rfl,
   (C10_error_responses envDown emptyStore .User "" []).2.2.2.2.2.1 "connection lost" rfl⟩

end Guit

/-! ## CREATE without descriptive fields -/

namespace Guit

theorem buildFields_ok (env : Env) (body : Fields) (ps : List SchemaPath)
    (h : ∀ p ∈ ps, ∀ v, getField body p.name = some v → ∃ c, castValue env p v = .ok c) :
    ∃ fs, buildFields env body ps = .ok fs := by
  induction ps with
  | nil => exact ⟨[], rfl⟩
  | cons p ps ih =>
    obtain ⟨rest, hrest⟩ := ih (fun q hq => h q (List.mem_cons_of_mem _ hq))
    unfold buildFields
    cases hv : getField body p.name with
    | some v =>
      obtain ⟨c, hc⟩ := h p (List.mem_cons_self _ _) v hv
      simp only [hc, hrest]
      exact ⟨_, rfl⟩
    | none =>
      simp only [hrest]
      cases p.dflt.value env with
      | none => exact ⟨_, rfl⟩
      | some dv => exact ⟨_, rfl⟩

theorem failedRequired_none_of_optional (M : ModelName) (o : Fields)
    (h : ∀ p ∈ M.schema, p.required = false) : failedRequired M o = none := by
  unfold failedRequired
  rw [List.find?_eq_none]
  intro p hp
  simp [requiredOk, h p hp]

theorem duplicateKey_false_of_fresh (M : ModelName) (others : List Doc) (d : Doc)
    (hu : ∀ p ∈ M.schema, p.unique = false) (hfresh : ∀ e ∈ others, e._id ≠ d._id) :
    duplicateKey M others d = false := by
  unfold duplicateKey
  rw [Bool.or_eq_false_iff]
  constructor
  · rw [List.any_eq_false]
    intro e he
    simpa using hfresh e he
  · rw [List.any_eq_false]
    intro p hp
    simp [hu p hp]

/-- Of the registered resources, users and newsletter are the ones whose
schema has a required or a unique path. -/
theorem registered_without_required (M : ModelName) (h : M ∈ crudResources.map Prod.fst) :
    (∀ p ∈ M.schema, p.required = false ∧ p.unique = false) ↔
      (M ≠ .User ∧ M ≠ .Newsletter) := by
  cases M <;> first
    | exact absurd h (by decide)
    | exact ⟨fun _ => ⟨by decide, by decide⟩, fun _ => by decide⟩
    | exact ⟨fun hp => absurd hp (by decide), fun hn => absurd rfl hn.1⟩
    | exact ⟨fun hp => absurd hp (by decide), fun hn => absurd rfl hn.2⟩

/-- C11 as stated fails: users and newsletter are registered resources with
required fields; the empty body, and a user body with a name only, are
answered 400 and nothing is stored. -/
theorem C11_counterexample_required_fields :
    createCrudRoutes.create env0 emptyStore .User []
        = (emptyStore, ⟨400, errorBody "Path email is required."⟩) ∧
    createCrudRoutes.create env0 emptyStore .Newsletter []
        = (emptyStore, ⟨400, errorBody "Path email is required."⟩) ∧
    createCrudRoutes.create env0 emptyStore .User
        [("firstName", .str "Nyadak"), ("email", .str "nyadak@guit.gov")]
        = (emptyStore, ⟨400, errorBody "Path password is required."⟩) := by
  refine ⟨rfl, rfl, rfl⟩

/-- C11, amended: for a model whose schema has no required and no unique path
(every registered resource but users and newsletter), POST with a body that
gives no `_id` and whose values for schema paths cast to their types, so also
the empty body, answers 201 when the store does not fail and the generated
identifier is new to the collection; one document is added to the collection,
every other collection is left as it was. -/
theorem C11_create_without_fields (env : Env) (st : Store) (M : ModelName) (body : Fields)
    (hM : ∀ p ∈ M.schema, p.required = false ∧ p.unique = false)
    (hbody : ∀ p ∈ M.paths, ∀ v, getField body p.name = some v →
      ∃ c, castValue env p v = .ok c)
    (hid : getField body "_id" = none) (hf : env.fault M = none)
    (hfresh : ∀ d ∈ st.coll M, d._id ≠ env.newId) :
    ∃ d : Doc, d._id = env.newId ∧
      (createCrudRoutes.create env st M body).2 = ⟨201, .object d.toObject⟩ ∧
      (createCrudRoutes.create env st M body).1.coll M = st.coll M ++ [d] ∧
      ∀ N, N ≠ M → (createCrudRoutes.create env st M body).1.coll N = st.coll N := by
  obtain ⟨fs, hfs⟩ := buildFields_ok env body M.paths hbody
  have hnew : Model.new env M body = .ok ⟨env.newId, fs⟩ := by
    simp only [Model.new, hid, hfs]
  have hreq : failedRequired M fs = none :=
    failedRequired_none_of_optional M fs (fun p hp => (hM p hp).1)
  have hdup : duplicateKey M (st.coll M) ⟨env.newId, fs⟩ = false :=
    duplicateKey_false_of_fresh M _ _ (fun p hp => (hM p hp).2) hfresh
  have hc : createCrudRoutes.create env st M body
      = (st.put M (st.coll M ++ [⟨env.newId, fs⟩]),
          ⟨201, .object (Doc.toObject ⟨env.newId, fs⟩)⟩) := by
    rw [create_eq, hnew]
    simp only [Model.save, hreq, hf, hdup]
    rfl
  refine ⟨⟨env.newId, fs⟩, rfl, by rw [hc], by rw [hc, put_coll_self], ?_⟩
  intro N hN
  rw [hc, put_coll_ne st _ hN]

/-- Witness of C11: the empty body posted to the slides. -/
theorem C11_create_without_fields_witness :
    ∃ d : Doc, d._id = 7 ∧
      (createCrudRoutes.create env0 emptyStore .Slide []).2 = ⟨201, .object d.toObject⟩ ∧
      (createCrudRoutes.create env0 emptyStore .Slide []).1.coll .Slide = [] ++ [d] ∧
      ∀ N, N ≠ ModelName.Slide →
        (createCrudRoutes.create env0 emptyStore .Slide []).1.coll N = [] :=
  C11_create_without_fields env0 emptyStore .Slide [] (by decide)
    (fun _ _ _ hv => Option.noConfusion hv) rfl rfl (fun _ hd => absurd hd (List.not_mem_nil _))

end Guit

/-! ## The public data -/

namespace Guit

theorem find_healthy (env : Env) (st : Store) (r : ListRead) (h : env.fault r.model = none) :
    Model.find env st r.model r.filter r.sort
      = .ok ((r.result st).map (Model.hydrate env r.model)) := by
  simp [Model.find, h, ListRead.result]

theorem readLists_healthy (env : Env) (st : Store) (rs : List ListRead)
    (h : ∀ r ∈ rs, env.fault r.model = none) :
    readLists env st rs
      = .ok (rs.map (fun r => (r.key, Item.docs ((r.result st).map
          (fun d => (Model.hydrate env r.model d).toObject))))) := by
  induction rs with
  | nil => rfl
  | cons r rs ih =>
    unfold readLists
    rw [find_healthy env st r (h r (List.mem_cons_self _ _)),
      ih (fun q hq => h q (List.mem_cons_of_mem _ hq))]
    simp only [List.map_map, List.map_cons]
    rfl

theorem readLists_fault (env : Env) (st : Store) (rs : List ListRead)
    (h : ∃ r ∈ rs, env.fault r.model ≠ none) : ∃ e, readLists env st rs = .error e := by
  induction rs with
  | nil =>
    obtain ⟨r, hr, _⟩ := h
    exact absurd hr (List.not_mem_nil _)
  | cons r rs ih =>
    unfold readLists
    cases hf : env.fault r.model with
    | some e => exact ⟨e, by simp [Model.find, hf]⟩
    | none =>
      have hrest : ∃ q ∈ rs, env.fault q.model ≠ none := by
        obtain ⟨q, hq, hne⟩ := h
        rcases List.mem_cons.mp hq with hqr | hqr
        · subst hqr
          exact absurd hf hne
        · exact ⟨q, hqr, hne⟩
      obtain ⟨e, he⟩ := ih hrest
      exact ⟨e, by simp [Model.find, hf, he]⟩

theorem readLists_ok_healthy {env : Env} {st : Store} {rs : List ListRead}
    {out : List (String × Item)} (h : readLists env st rs = .ok out) :
    ∀ r ∈ rs, env.fault r.model = none := by
  intro r hr
  cases hf : env.fault r.model with
  | none => rfl
  | some e =>
    obtain ⟨e1, he1⟩ := readLists_fault env st rs ⟨r, hr, by simp [hf]⟩
    rw [he1] at h
    exact Except.noConfusion h

theorem readSingles_healthy (env : Env) (st : Store) (h1 : env.fault .Setting = none)
    (h2 : env.fault .Commissioner = none) (h3 : env.fault .Student = none)
    (h4 : env.fault .News = none) :
    readSingles env st
      = .ok [ ("settings", Item.doc ((st.coll .Setting).head?.map
                (fun d => (Model.hydrate env .Setting d).toObject))),
              ("commissioner",
                Item.doc ((sortDesc "updatedAt" (st.coll .Commissioner)).head?.map
                  (fun d => (Model.hydrate env .Commissioner d).toObject))),
              ("stats", Item.record
                [("totalStudents", .num (((st.coll .Student).filter
                    (Filter.statusIs "active").test).length : Nat)),
                 ("totalNews", .num (((st.coll .News).filter
                    (Filter.statusIs "published").test).length : Nat))]) ] := by
  have hall : ∀ l : List Doc, l.filter Filter.all.test = l :=
    fun l => List.filter_eq_self.mpr (fun _ _ => rfl)
  simp only [readSingles, Model.findOne, Model.countDocuments, h1, h2, h3, h4,
    SortSpec.apply, hall, Option.map_map]
  rfl

/-- The body of a successful public-data response. -/
theorem getPublicData_healthy (env : Env) (st : Store)
    (h : ∀ M ∈ publicModels, env.fault M = none) :
    getPublicData env st
      = (st, ⟨200,
          publicLists.map (fun r => (r.key, Item.docs ((r.result st).map
            (fun d => (Model.hydrate env r.model d).toObject)))) ++
          [ ("settings", Item.doc ((st.coll .Setting).head?.map
              (fun d => (Model.hydrate env .Setting d).toObject))),
            ("commissioner",
              Item.doc ((sortDesc "updatedAt" (st.coll .Commissioner)).head?.map
                (fun d => (Model.hydrate env .Commissioner d).toObject))),
            ("stats", Item.record
              [("totalStudents", .num (((st.coll .Student).filter
                  (Filter.statusIs "active").test).length : Nat)),
               ("totalNews", .num (((st.coll .News).filter
                  (Filter.statusIs "published").test).length : Nat))]) ]⟩) := by
  have hl : ∀ r ∈ publicLists, env.fault r.model = none := by
    intro r hr
    apply h
    unfold publicModels
    exact List.mem_append_left _ (List.mem_map_of_mem (fun r => r.model) hr)
  unfold getPublicData
  rw [readLists_healthy env st publicLists hl,
    readSingles_healthy env st (h _ (by decide)) (h _ (by decide)) (h _ (by decide))
      (h _ (by decide))]

/-- A failure of one read makes the whole response an error. -/
theorem getPublicData_fault (env : Env) (st : Store)
    (h : ∃ M ∈ publicModels, env.fault M ≠ none) :
    ∃ msg, getPublicData env st = (st, ⟨500, errorItems msg⟩) := by
  unfold getPublicData
  cases hl : readLists env st publicLists with
  | error e => exact ⟨e, rfl⟩
  | ok lists =>
    have hok := readLists_ok_healthy hl
    obtain ⟨M, hM, hne⟩ := h
    have hM2 : M = .Setting ∨ M = .Commissioner := by
      unfold publicModels at hM
      rcases List.mem_append.mp hM with hm | hm
      · obtain ⟨r, hr, hrm⟩ := List.mem_map.mp hm
        rw [← hrm] at hne
        exact absurd (hok r hr) hne
      · simpa using hm
    cases hs : env.fault .Setting with
    | some e => exact ⟨e, by simp [readSingles, Model.findOne, hs]⟩
    | none =>
      cases hc : env.fault .Commissioner with
      | some e => exact ⟨e, by simp [readSingles, Model.findOne, hs, hc]⟩
      | none =>
        rcases hM2 with h1 | h1
        · rw [h1] at hne
          exact absurd hs hne
        · rw [h1] at hne
          exact absurd hc hne

theorem getPublicData_ok_healthy {env : Env} {st : Store}
    (h : (getPublicData env st).2.status = 200) : ∀ M ∈ publicModels, env.fault M = none := by
  intro M hM
  cases hf : env.fault M with
  | none => rfl
  | some e =>
    obtain ⟨msg, hmsg⟩ := getPublicData_fault env st ⟨M, hM, by simp [hf]⟩
    rw [hmsg] at h
    exact absurd h (by simp)

/-- C12 as stated fails: when the read of the services alone fails, the
response is 500 with an `error` key and none of the data keys. -/
theorem C12_counterexample_not_fail_soft :
    getPublicData envServicesDown emptyStore
        = (emptyStore, ⟨500, [("error", .scalar (.str "read failed"))]⟩) ∧
    (getPublicData envServicesDown emptyStore).2.item "services" = none ∧
    (getPublicData envServicesDown emptyStore).2.item "news" = none := by
  refine ⟨rfl, rfl, rfl⟩

/-- C12, amended: the public data is all or nothing. When the read of any of
its collections fails, the response is 500 with the failure message under
`error` and no other key; when none fails, the response is 200 and its keys are
the seventeen data keys. -/
theorem C12_public_data_all_or_nothing (env : Env) (st : Store) :
    ((∃ M ∈ publicModels, env.fault M ≠ none) →
        ∃ msg, getPublicData env st = (st, ⟨500, [("error", .scalar (.str msg))]⟩)) ∧
    ((∀ M ∈ publicModels, env.fault M = none) →
        (getPublicData env st).2.status = 200 ∧
        (getPublicData env st).2.body.map Prod.fst
          = ["news", "services", "education", "healthcare", "politicians", "military",
             "payams", "bomas", "sports", "artists", "leaders", "students", "slides",
             "history", "settings", "commissioner", "stats"]) := by
  constructor
  · exact getPublicData_fault env st
  · intro h
    rw [getPublicData_healthy env st h]
    exact ⟨rfl, rfl⟩

/-- Witness of C12: the store fails on every collection. -/
theorem C12_public_data_all_or_nothing_witness :
    ∃ msg, getPublicData envDown emptyStore
      = (emptyStore, ⟨500, [("error", .scalar (.str msg))]⟩) :=
  (C12_public_data_all_or_nothing envDown emptyStore).1 ⟨.News, by decide, by decide⟩

end Guit

namespace Guit

theorem sortAsc_sorted (k : String) (l : List Doc) :
    (sortAsc k l).Sorted (sortsBeforeAsc k) :=
  haveI : IsTotal Doc (sortsBeforeAsc k) :=
    ⟨fun a b => le_total (bsonKey (getField a.toObject k)) (bsonKey (getField b.toObject k))⟩
  haveI : IsTrans Doc (sortsBeforeAsc k) := ⟨fun _ _ _ h1 h2 => le_trans h1 h2⟩
  List.sorted_insertionSort (sortsBeforeAsc k) l

theorem sortAsc_perm (k : String) (l : List Doc) : (sortAsc k l).Perm l :=
  List.perm_insertionSort (sortsBeforeAsc k) l

theorem apply_perm (s : SortSpec) (l : List Doc) : (s.apply l).Perm l := by
  cases s with
  | natural => exact List.Perm.refl l
  | desc k => exact sortDesc_perm k l
  | asc k => exact sortAsc_perm k l

theorem result_perm (st : Store) (r : ListRead) :
    (r.result st).Perm ((st.coll r.model).filter r.filter.test) :=
  apply_perm r.sort _

/-- The item of each list key in a successful public-data response. -/
theorem healthy_item (env : Env) (st : Store)
    (h : ∀ M ∈ publicModels, env.fault M = none) (r : ListRead) (hr : r ∈ publicLists) :
    (getPublicData env st).2.item r.key
      = some (Item.docs ((r.result st).map (fun d => (Model.hydrate env r.model d).toObject))) := by
  rw [getPublicData_healthy env st h]
  simp only [publicLists, List.mem_cons, List.mem_singleton, List.not_mem_nil, or_false] at hr
  rcases hr with h1 | h1 | h1 | h1 | h1 | h1 | h1 | h1 | h1 | h1 | h1 | h1 | h1 | h1 <;>
    (subst h1; rfl)

theorem chain_consecutive {α : Type} {R : α → α → Prop} {l l1 l2 : List α} {a b : α}
    (h : List.Chain' R l) (hl : l = l1 ++ a :: b :: l2) : R a b := by
  rw [hl] at h
  exact (List.chain'_cons.mp h.right_of_append).1

theorem sortDesc_chain (k : String) (l : List Doc) :
    List.Chain' (fun a b : Fields => bsonKey (getField b k) ≤ bsonKey (getField a k))
      ((sortDesc k l).map Doc.toObject) := by
  rw [List.chain'_map]
  exact (sortDesc_sorted k l).chain'

theorem sortAsc_chain (k : String) (l : List Doc) :
    List.Chain' (fun a b : Fields => bsonKey (getField a k) ≤ bsonKey (getField b k))
      ((sortAsc k l).map Doc.toObject) := by
  rw [List.chain'_map]
  exact (sortAsc_sorted k l).chain'

theorem bsonKey_num_le {na nb : Int}
    (h : bsonKey (some (Value.num na)) ≤ bsonKey (some (Value.num nb))) : na ≤ nb := by
  simp only [bsonKey] at h
  rw [Prod.Lex.le_iff] at h
  rcases h with h | ⟨_, h⟩
  · simp at h
  · rw [Prod.Lex.le_iff] at h
    rcases h with h | ⟨h, _⟩
    · exact le_of_lt h
    · exact le_of_eq h

theorem bsonKey_str_le {sa sb : String}
    (h : bsonKey (some (Value.str sb)) ≤ bsonKey (some (Value.str sa))) :
    sb.data.map Char.toNat ≤ sa.data.map Char.toNat := by
  simp only [bsonKey] at h
  rw [Prod.Lex.le_iff] at h
  rcases h with h | ⟨_, h⟩
  · simp at h
  · rw [Prod.Lex.le_iff] at h
    rcases h with h | ⟨_, h⟩
    · simp at h
    · exact h

/-- C13: in a public-data response of status 200, `news` holds the stored news
documents whose status is `published`, each once; each of the twelve keys from
`services` to `slides` holds the stored documents of its collection whose
status is `active`, each once; `history` holds every stored history document
once. (Each document is served as loaded.) -/
theorem C13_public_data_contents (env : Env) (st : Store)
    (h : (getPublicData env st).2.status = 200) :
    (∃ l : List Doc,
        l.Perm ((st.coll .News).filter
          (fun d => getField d.toObject "status" == some (Value.str "published"))) ∧
        (getPublicData env st).2.item "news"
          = some (Item.docs (l.map (fun d => (Model.hydrate env .News d).toObject)))) ∧
    (∀ kM ∈ [("services", ModelName.Service), ("education", .Education),
          ("healthcare", .Healthcare), ("politicians", .Politician), ("military", .Military),
          ("payams", .Payam), ("bomas", .Boma), ("sports", .Sport), ("artists", .Artist),
          ("leaders", .Leader), ("students", .Student), ("slides", .Slide)],
        ∃ l : List Doc,
          l.Perm ((st.coll kM.2).filter
            (fun d => getField d.toObject "status" == some (Value.str "active"))) ∧
          (getPublicData env st).2.item kM.1
            = some (Item.docs (l.map (fun d => (Model.hydrate env kM.2 d).toObject)))) ∧
    (∃ l : List Doc, l.Perm (st.coll .History) ∧
        (getPublicData env st).2.item "history"
          = some (Item.docs (l.map (fun d => (Model.hydrate env .History d).toObject)))) := by
  have hh := getPublicData_ok_healthy h
  have key : ∀ r ∈ publicLists, ∃ l : List Doc,
      l.Perm ((st.coll r.model).filter r.filter.test) ∧
      (getPublicData env st).2.item r.key
        = some (Item.docs (l.map (fun d => (Model.hydrate env r.model d).toObject))) :=
    fun r hr => ⟨r.result st, result_perm st r, healthy_item env st hh r hr⟩
  refine ⟨key ⟨"news", .News, .statusIs "published", .desc "date"⟩ (by decide), ?_, ?_⟩
  · intro kM hkM
    simp only [List.mem_cons, List.mem_singleton, List.not_mem_nil, or_false] at hkM
    rcases hkM with h1 | h1 | h1 | h1 | h1 | h1 | h1 | h1 | h1 | h1 | h1 | h1
    · subst h1
      exact key ⟨"services", .Service, .statusIs "active", .desc "createdAt"⟩ (by decide)
    · subst h1
      exact key ⟨"education", .Education, .statusIs "active", .natural⟩ (by decide)
    · subst h1
      exact key ⟨"healthcare", .Healthcare, .statusIs "active", .natural⟩ (by decide)
    · subst h1
      exact key ⟨"politicians", .Politician, .statusIs "active", .natural⟩ (by decide)
    · subst h1
      exact key ⟨"military", .Military, .statusIs "active", .natural⟩ (by decide)
    · subst h1
      exact key ⟨"payams", .Payam, .statusIs "active", .natural⟩ (by decide)
    · subst h1
      exact key ⟨"bomas", .Boma, .statusIs "active", .natural⟩ (by decide)
    · subst h1
      exact key ⟨"sports", .Sport, .statusIs "active", .natural⟩ (by decide)
    · subst h1
      exact key ⟨"artists", .Artist, .statusIs "active", .natural⟩ (by decide)
    · subst h1
      exact key ⟨"leaders", .Leader, .statusIs "active", .natural⟩ (by decide)
    · subst h1
      exact key ⟨"students", .Student, .statusIs "active", .natural⟩ (by decide)
    · subst h1
      exact key ⟨"slides", .Slide, .statusIs "active", .asc "order"⟩ (by decide)
  · obtain ⟨l, hl, hi⟩ := key ⟨"history", .History, .all, .desc "year"⟩ (by decide)
    refine ⟨l, ?_, hi⟩
    have hall : (st.coll .History).filter Filter.all.test = st.coll .History :=
      List.filter_eq_self.mpr (fun _ _ => rfl)
    rw [← hall]
    exact hl

/-- Witness of C13: a store with a published and a draft news item. -/
theorem C13_public_data_contents_witness :
    ∃ l : List Doc,
      l.Perm ((([⟨1, [("status", .str "published")]⟩, ⟨2, [("status", .str "draft")]⟩] :
        List Doc)).filter
          (fun d => getField d.toObject "status" == some (Value.str "published"))) ∧
      (getPublicData env0 ⟨fun M => if M = .News then
          [⟨1, [("status", .str "published")]⟩, ⟨2, [("status", .str "draft")]⟩] else []⟩).2.item
        "news" = some (Item.docs (l.map (fun d => (Model.hydrate env0 .News d).toObject))) :=
  (C13_public_data_contents env0 ⟨fun M => if M = .News then
      [⟨1, [("status", .str "published")]⟩, ⟨2, [("status", .str "draft")]⟩] else []⟩
    (by decide)).1

end Guit

namespace Guit

theorem cons_le_cases {a b : ℕ} {as bs : List ℕ} (h : (a :: as) ≤ (b :: bs)) :
    a < b ∨ (a = b ∧ as ≤ bs) := by
  rcases lt_trichotomy a b with hab | hab | hab
  · exact Or.inl hab
  · right
    subst hab
    refine ⟨rfl, ?_⟩
    by_contra hcon
    have h2 : (a :: bs) < (a :: as) := List.Lex.cons (not_le.mp hcon)
    exact absurd h (not_le.mpr h2)
  · exfalso
    have h2 : (b :: bs) < (a :: as) := List.Lex.rel hab
    exact absurd h (not_le.mpr h2)

theorem digitsValue_lt (a : List Char) : ∀ (b : List Char) (accA accB na nb : Nat),
    a.length = b.length → accB < accA → digitsValue a accA = some na →
    digitsValue b accB = some nb → nb < na := by
  induction a with
  | nil =>
    intro b accA accB na nb hlen hacc ha hb
    cases b with
    | nil =>
      simp only [digitsValue, Option.some.injEq] at ha hb
      omega
    | cons e es => simp at hlen
  | cons c cs ih =>
    intro b accA accB na nb hlen hacc ha hb
    cases b with
    | nil => simp at hlen
    | cons e es =>
      simp only [List.length_cons, Nat.add_right_cancel_iff] at hlen
      unfold digitsValue at ha hb
      split at ha
      · split at hb
        · rename_i hc he
          exact ih es _ _ na nb hlen (by omega) ha hb
        · exact Option.noConfusion hb
      · exact Option.noConfusion ha

/-- Of two strings of decimal digits of one length, the one that is not greater
as a string is not greater as a number. -/
theorem digitsValue_le (a : List Char) : ∀ (b : List Char) (acc na nb : Nat),
    a.length = b.length → b.map Char.toNat ≤ a.map Char.toNat →
    digitsValue a acc = some na → digitsValue b acc = some nb → nb ≤ na := by
  induction a with
  | nil =>
    intro b acc na nb hlen _ ha hb
    cases b with
    | nil =>
      simp only [digitsValue, Option.some.injEq] at ha hb
      omega
    | cons e es => simp at hlen
  | cons c cs ih =>
    intro b acc na nb hlen hle ha hb
    cases b with
    | nil => simp at hlen
    | cons e es =>
      simp only [List.length_cons, Nat.add_right_cancel_iff] at hlen
      simp only [List.map_cons] at hle
      unfold digitsValue at ha hb
      split at ha
      · split at hb
        · rename_i hc he
          rcases cons_le_cases hle with hlt | ⟨heq, hrest⟩
          · exact le_of_lt (digitsValue_lt cs es _ _ na nb hlen (by omega) ha hb)
          · rw [heq] at hb
            exact ih es _ na nb hlen hrest ha hb
        · exact Option.noConfusion hb
      · exact Option.noConfusion ha

/-- The order of the lists of a public-data response of status 200: `news` holds
the documents found in the store's sort by `date` descending, `slides` by
`order` ascending, `history` by `year` descending. The sort compares the stored
values: dates by time, numbers by value, strings (the years) as strings, which
is the order of the numbers they denote when the two years are written in
decimal digits, as many in the one as in the other. -/
theorem public_data_order (env : Env) (st : Store)
    (h : (getPublicData env st).2.status = 200) :
    (∃ l : List Doc,
      (getPublicData env st).2.item "news"
        = some (Item.docs (l.map (fun d => (Model.hydrate env .News d).toObject))) ∧
      List.Chain' (fun a b : Doc =>
        bsonKey (getField b.toObject "date") ≤ bsonKey (getField a.toObject "date")) l ∧
      ∀ l1 a b l2 ta tb, l = l1 ++ a :: b :: l2 →
        getField a.toObject "date" = some (Value.date ta) →
        getField b.toObject "date" = some (Value.date tb) → tb ≤ ta) ∧
    (∃ l : List Doc,
      (getPublicData env st).2.item "slides"
        = some (Item.docs (l.map (fun d => (Model.hydrate env .Slide d).toObject))) ∧
      List.Chain' (fun a b : Doc =>
        bsonKey (getField a.toObject "order") ≤ bsonKey (getField b.toObject "order")) l ∧
      ∀ l1 a b l2 na nb, l = l1 ++ a :: b :: l2 →
        getField a.toObject "order" = some (Value.num na) →
        getField b.toObject "order" = some (Value.num nb) → na ≤ nb) ∧
    (∃ l : List Doc,
      (getPublicData env st).2.item "history"
        = some (Item.docs (l.map (fun d => (Model.hydrate env .History d).toObject))) ∧
      List.Chain' (fun a b : Doc =>
        bsonKey (getField b.toObject "year") ≤ bsonKey (getField a.toObject "year")) l ∧
      (∀ l1 a b l2 sa sb, l = l1 ++ a :: b :: l2 →
        getField a.toObject "year" = some (Value.str sa) →
        getField b.toObject "year" = some (Value.str sb) →
        sb.data.map Char.toNat ≤ sa.data.map Char.toNat) ∧
      (∀ l1 a b l2 sa sb na nb, l = l1 ++ a :: b :: l2 →
        getField a.toObject "year" = some (Value.str sa) →
        getField b.toObject "year" = some (Value.str sb) →
        sa.data.length = sb.data.length →
        digitsValue sa.data 0 = some na → digitsValue sb.data 0 = some nb → nb ≤ na)) := by
  have hh := getPublicData_ok_healthy h
  refine ⟨⟨_, healthy_item env st hh ⟨"news", .News, .statusIs "published", .desc "date"⟩
      (by decide), (sortDesc_sorted "date" _).chain', ?_⟩,
    ⟨_, healthy_item env st hh ⟨"slides", .Slide, .statusIs "active", .asc "order"⟩
      (by decide), (sortAsc_sorted "order" _).chain', ?_⟩,
    ⟨_, healthy_item env st hh ⟨"history", .History, .all, .desc "year"⟩
      (by decide), (sortDesc_sorted "year" _).chain', ?_, ?_⟩⟩
  · intro l1 a b l2 ta tb hl ha hb
    have h2 := chain_consecutive (sortDesc_sorted "date" _).chain' hl
    simp only [sortsBefore, ha, hb] at h2
    exact bsonKey_date_le h2
  · intro l1 a b l2 na nb hl ha hb
    have h2 := chain_consecutive (sortAsc_sorted "order" _).chain' hl
    simp only [sortsBeforeAsc, ha, hb] at h2
    exact bsonKey_num_le h2
  · intro l1 a b l2 sa sb hl ha hb
    have h2 := chain_consecutive (sortDesc_sorted "year" _).chain' hl
    simp only [sortsBefore, ha, hb] at h2
    exact bsonKey_str_le h2
  · intro l1 a b l2 sa sb na nb hl ha hb hlen hna hnb
    have h2 := chain_consecutive (sortDesc_sorted "year" _).chain' hl
    simp only [sortsBefore, ha, hb] at h2
    exact digitsValue_le sa.data sb.data 0 na nb hlen (bsonKey_str_le h2) hna hnb

/-- C14, at the failing input: `history` is not ordered by year. The year is
stored as a string and the query sorts strings, so of two history entries of
the years 2024 and 999 the response lists the entry of the year 999 first,
where the claim has the later year first (and where the admin page, which sorts
the same entries with `b.year - a.year`, has it first). -/
theorem C14_history_999_before_2024 :
    (getPublicData env0 yearsStore).2.status = 200 ∧
    (getPublicData env0 yearsStore).2.item "history"
      = some (Item.docs
          [[("_id", .oid 2), ("year", .str "999"), ("mediaType", .str "image"),
            ("createdAt", .date 20), ("updatedAt", .date 20)],
           [("_id", .oid 1), ("year", .str "2024"), ("mediaType", .str "image"),
            ("createdAt", .date 10), ("updatedAt", .date 10)]]) ∧
    parseInteger "999" = some 999 ∧ parseInteger "2024" = some 2024 ∧ (999 : Int) < 2024 := by
  decide

theorem find_congr (env env2 : Env) (st : Store) (M : ModelName) (f : Filter) (s : SortSpec)
    (h : env2.fault M = env.fault M)
    (hd : env2.now = env.now ∨ ∀ d ∈ st.coll M, ∀ p ∈ M.schema, p.dflt = .dateNow →
      getField d.fields p.name ≠ none) :
    Model.find env2 st M f s = Model.find env st M f s := by
  simp only [Model.find, h]
  cases env.fault M with
  | some e => rfl
  | none =>
    simp only [Except.ok.injEq]
    apply List.map_congr_left
    intro d hdm
    have hmem : d ∈ st.coll M :=
      (List.mem_filter.mp ((apply_perm s _).subset hdm)).1
    exact hydrate_congr env2 env M d (hd.imp id (fun h2 => h2 d hmem))

theorem findOne_congr (env env2 : Env) (st : Store) (M : ModelName) (f : Filter) (s : SortSpec)
    (h : env2.fault M = env.fault M)
    (hd : env2.now = env.now ∨ ∀ d ∈ st.coll M, ∀ p ∈ M.schema, p.dflt = .dateNow →
      getField d.fields p.name ≠ none) :
    Model.findOne env2 st M f s = Model.findOne env st M f s := by
  simp only [Model.findOne, h]
  cases env.fault M with
  | some e => rfl
  | none =>
    simp only [Except.ok.injEq]
    cases hh : (s.apply ((st.coll M).filter f.test)).head? with
    | none => rfl
    | some d =>
      have hmem : d ∈ st.coll M :=
        (List.mem_filter.mp ((apply_perm s _).subset (List.mem_of_mem_head? hh))).1
      simp only [Option.map_some']
      rw [hydrate_congr env2 env M d (hd.imp id (fun h2 => h2 d hmem))]

theorem readLists_congr (env env2 : Env) (st : Store) (rs : List ListRead)
    (h : ∀ M, env2.fault M = env.fault M)
    (hd : env2.now = env.now ∨ ∀ r ∈ rs, ∀ d ∈ st.coll r.model, ∀ p ∈ r.model.schema,
      p.dflt = .dateNow → getField d.fields p.name ≠ none) :
    readLists env2 st rs = readLists env st rs := by
  induction rs with
  | nil => rfl
  | cons r rs ih =>
    unfold readLists
    rw [find_congr env env2 st r.model r.filter r.sort (h _)
        (hd.imp id (fun h2 => h2 r (List.mem_cons_self _ _))),
      ih (hd.imp id (fun h2 r2 hr2 => h2 r2 (List.mem_cons_of_mem _ hr2)))]

theorem readSingles_congr (env env2 : Env) (st : Store)
    (h : ∀ M, env2.fault M = env.fault M)
    (hd : env2.now = env.now ∨ ∀ M ∈ [ModelName.Setting, .Commissioner], ∀ d ∈ st.coll M,
      ∀ p ∈ M.schema, p.dflt = .dateNow → getField d.fields p.name ≠ none) :
    readSingles env2 st = readSingles env st := by
  unfold readSingles
  rw [findOne_congr env env2 st .Setting .all .natural (h _)
      (hd.imp id (fun h2 => h2 _ (by decide))),
    findOne_congr env env2 st .Commissioner .all (.desc "updatedAt") (h _)
      (hd.imp id (fun h2 => h2 _ (by decide)))]
  simp only [Model.countDocuments, h]

/-- C16 as stated fails: a stored document that lacks a date its schema fills
in is served with the time of the request in its place. The published news item
stored with its date alone is served with `createdAt` and `updatedAt` 1000 by
the request at the time 1000 and with 2000 by the request at the time 2000,
against the same store and with no failure. -/
theorem C16_counterexample_undated_document :
    (getPublicData env0 newsStore0).1.coll .News = newsStore0.coll .News ∧
    (getPublicData envLater newsStore0).1.coll .News = newsStore0.coll .News ∧
    (getPublicData env0 newsStore0).2.item "news"
      = some (Item.docs [[("_id", .oid 1), ("status", .str "published"), ("date", .date 500),
          ("mediaType", .str "image"), ("likes", .num 0), ("createdAt", .date 1000),
          ("updatedAt", .date 1000)]]) ∧
    (getPublicData envLater newsStore0).2.item "news"
      = some (Item.docs [[("_id", .oid 1), ("status", .str "published"), ("date", .date 500),
          ("mediaType", .str "image"), ("likes", .num 0), ("createdAt", .date 2000),
          ("updatedAt", .date 2000)]]) ∧
    (getPublicData envLater newsStore0).2 ≠ (getPublicData env0 newsStore0).2 := by
  decide

/-- C16, amended: the public data is a pure read. The store after the request
is the store before it, so no Settings and no Commissioner document is created;
and two requests against one store state that meet the same failures (none, for
one) get the same response when they are made at the same time, and at any two
times when every stored document of the collections read holds each path that
its schema fills in with the time of loading. -/
theorem C16_public_data_pure_read (env : Env) (st : Store) :
    (getPublicData env st).1 = st ∧
    (∀ env2 : Env, (∀ M, env2.fault M = env.fault M) →
        (env2.now = env.now ∨
          ∀ M ∈ publicModels, ∀ d ∈ st.coll M, ∀ p ∈ M.schema, p.dflt = .dateNow →
            getField d.fields p.name ≠ none) →
        (getPublicData env2 st).2 = (getPublicData env st).2) := by
  constructor
  · unfold getPublicData
    cases readLists env st publicLists with
    | error e => rfl
    | ok lists =>
      cases readSingles env st with
      | error e => rfl
      | ok singles => rfl
  · intro env2 h hd
    unfold getPublicData
    rw [readLists_congr env env2 st publicLists h
        (hd.imp id (fun h2 r hr => h2 r.model
          (List.mem_append_left _ (List.mem_map_of_mem _ hr)))),
      readSingles_congr env env2 st h
        (hd.imp id (fun h2 M hM => h2 M (List.mem_append_right _ hM)))]

/-- Witness of C16: a later request against the store of a news item that holds
its three dates. -/
theorem C16_public_data_pure_read_witness :
    (getPublicData envLater datedNews).2 = (getPublicData env0 datedNews).2 :=
  (C16_public_data_pure_read env0 datedNews).2 envLater (fun _ => rfl)
    (Or.inr (by decide))

end Guit

/-! ## A draft news item that is published -/

namespace Guit

theorem toObject_injective {d e : Doc} (h : d.toObject = e.toObject) : d = e := by
  cases d
  cases e
  simp only [Doc.toObject, List.cons.injEq, Prod.mk.injEq, Value.oid.injEq, true_and] at h
  simp [h.1, h.2]

theorem news_status_path :
    (⟨"status", .string, false, false, false, .lit (.str "published")⟩ : SchemaPath)
      ∈ ModelName.News.paths := by
  decide

theorem news_status_path? :
    ModelName.News.path? "status"
      = some ⟨"status", .string, false, false, false, .lit (.str "published")⟩ := by
  rfl

/-- An update keeps a document complete. -/
theorem applySet_complete {M : ModelName} {d : Doc} (u : Fields) (h : d.Complete M) :
    Doc.Complete M ⟨d._id, applySet d.fields u⟩ := by
  intro p hp hab
  cases hu : getField u p.name with
  | none =>
    show getField (applySet d.fields u) p.name ≠ none
    rw [applySet_absent _ _ hu]
    exact h p hp hab
  | some c =>
    show getField (applySet d.fields u) p.name ≠ none
    rw [applySet_present _ _ (schema_names_public M p hp).2.1 hu]
    exact Option.some_ne_none c

/-- The published news in result order, as the public data lists them. -/
theorem healthy_news (env : Env) (st : Store) (h : (getPublicData env st).2.status = 200) :
    (getPublicData env st).2.item "news"
      = some (Item.docs ((sortDesc "date"
          ((st.coll .News).filter (Filter.statusIs "published").test)).map
            (fun d => (Model.hydrate env .News d).toObject))) :=
  healthy_item env st (getPublicData_ok_healthy h)
    ⟨"news", .News, .statusIs "published", .desc "date"⟩ (by decide)

/-- C15: a news item created with status `draft` is stored with status `draft`
and is in no `news` list of the public data; after a PUT that sets its status
to `published` the stored item has that status and is in the `news` list, and
no item listed before it has an older date. -/
theorem C15_draft_news_then_published (env1 env2 env3 env4 : Env) (st st1 st2 : Store)
    (body1 body2 : Fields) (id : String) (d : Doc) (hu : st.UniqueIds)
    (hdraft : getField body1 "status" = some (Value.str "draft"))
    (hcreate : createCrudRoutes.create env1 st .News body1
      = (st1, ⟨201, .object d.toObject⟩))
    (hread1 : (getPublicData env2 st1).2.status = 200)
    (hid : castObjectId id = some d._id)
    (hpub : getField body2 "status" = some (Value.str "published"))
    (hput : (createCrudRoutes.update env3 st1 .News id body2).2.status = 200)
    (hst2 : st2 = (createCrudRoutes.update env3 st1 .News id body2).1)
    (hread2 : (getPublicData env4 st2).2.status = 200) :
    getField d.toObject "status" = some (Value.str "draft") ∧
    (∃ l : List Fields, (getPublicData env2 st1).2.item "news" = some (Item.docs l) ∧
        ∀ e ∈ l, getField e "_id" ≠ some (Value.oid d._id)) ∧
    (∃ (d2 : Doc) (l1 l2 : List Fields), d2._id = d._id ∧
        getField d2.toObject "status" = some (Value.str "published") ∧
        findDoc (st2.coll .News) d._id = some d2 ∧
        (getPublicData env4 st2).2.item "news"
          = some (Item.docs (l1 ++ d2.toObject :: l2)) ∧
        ∀ e ∈ l1, ∀ td te, getField d2.toObject "date" = some (Value.date td) →
          getField e "date" = some (Value.date te) → td ≤ te) := by
  -- the created document
  have h201 : (createCrudRoutes.create env1 st .News body1).2.status = 201 := by
    rw [hcreate]
  obtain ⟨d0, hnew, _, _, hdup, hc⟩ := create_created h201
  rw [hc] at hcreate
  simp only [Prod.mk.injEq, Response.mk.injEq, Json.object.injEq, true_and] at hcreate
  obtain ⟨hst1, hobj⟩ := hcreate
  have hd0 : d0 = d := toObject_injective hobj
  subst hd0
  have hu1 : st1.UniqueIds := by
    have := create_uniqueIds env1 st .News body1 hu
    rw [hc, hst1] at this
    exact this
  have hcoll1 : st1.coll .News = st.coll .News ++ [d0] := by
    rw [← hst1, put_coll_self]
  have hany : (st.coll .News).any (fun e => e._id == d0._id) = false := by
    unfold duplicateKey at hdup
    rw [Bool.or_eq_false_iff] at hdup
    exact hdup.1
  have hfind1 : findDoc (st1.coll .News) d0._id = some d0 := by
    rw [hcoll1]
    exact findDoc_append_new _ _ hany
  -- its status
  obtain ⟨hbuild, _⟩ := new_ok hnew
  obtain ⟨b1, _, _⟩ := buildFields_spec hbuild (paths_names_nodup .News)
  obtain ⟨c, hc1, hc2⟩ := b1 _ news_status_path (Value.str "draft") hdraft
  have hcd : c = Value.str "draft" := by
    have : castValue env1 ⟨"status", .string, false, false, false, .lit (.str "published")⟩
        (Value.str "draft") = .ok (Value.str "draft") := rfl
    rw [this] at hc1
    exact (Except.ok.inj hc1).symm
  subst hcd
  have hstatus : getField d0.toObject "status" = some (Value.str "draft") := by
    rw [getField_toObject_ne d0 (by decide)]
    exact hc2
  refine ⟨hstatus, ⟨_, healthy_news env2 st1 hread1, ?_⟩, ?_⟩
  · -- not listed while a draft
    intro e he hid_e
    obtain ⟨x, hx, hxe⟩ := List.mem_map.mp he
    have hx2 : x ∈ (st1.coll .News).filter (Filter.statusIs "published").test :=
      (sortDesc_perm "date" _).mem_iff.mp hx
    obtain ⟨hxmem, hxpub⟩ := List.mem_filter.mp hx2
    rw [← hxe, getField_toObject_id, hydrate_id] at hid_e
    simp only [Option.some.injEq, Value.oid.injEq] at hid_e
    have hxd : x = d0 := by
      have h1 := findDoc_of_mem_nodup hxmem (hu1 .News)
      rw [hid_e, hfind1] at h1
      exact (Option.some.inj h1).symm
    subst hxd
    simp only [Filter.test, hstatus] at hxpub
    exact absurd hxpub (by decide)
  · -- after the PUT
    rcases update_cases env3 st1 .News id body2 with ⟨msg, h⟩ | ⟨i, u, hi, _, _, hfd, _⟩ |
        ⟨i, u, dd, hi, hcu, _, hfd, h⟩
    · rw [h] at hput
      exact absurd hput (by simp)
    · rw [hid] at hi
      simp only [Option.some.injEq] at hi
      subst hi
      rw [hfind1] at hfd
      exact Option.noConfusion hfd
    · rw [hid] at hi
      simp only [Option.some.injEq] at hi
      subst hi
      rw [hfind1] at hfd
      simp only [Option.some.injEq] at hfd
      subst hfd
      rw [h] at hst2
      simp only at hst2
      have hcoll2 : st2.coll .News
          = replaceDoc (st1.coll .News) d0._id ⟨d0._id, applySet d0.fields u⟩ := by
        rw [hst2, put_coll_self]
      have hfind2 : findDoc (st2.coll .News) d0._id
          = some ⟨d0._id, applySet d0.fields u⟩ := by
        rw [hcoll2]
        exact replaceDoc_find _ _ d0 _ rfl hfind1
      have hb2 : getField (setField body2 "updatedAt" (.date env3.now)) "status"
          = some (Value.str "published") := by
        rw [getField_setField_ne _ _ (by decide)]
        exact hpub
      obtain ⟨c2, hc21, hc22⟩ := castUpdate_declared hcu (by decide) news_status_path? hb2
      have hcp : c2 = Value.str "published" := by
        have : castValue env3 ⟨"status", .string, false, false, false, .lit (.str "published")⟩
            (Value.str "published") = .ok (Value.str "published") := rfl
        rw [this] at hc21
        exact (Except.ok.inj hc21).symm
      subst hcp
      have hstatus2 : getField (Doc.toObject ⟨d0._id, applySet d0.fields u⟩) "status"
          = some (Value.str "published") := by
        rw [getField_toObject_ne _ (by decide)]
        exact applySet_present _ _ (by decide) hc22
      have hmem2 : (⟨d0._id, applySet d0.fields u⟩ : Doc)
          ∈ sortDesc "date" ((st2.coll .News).filter (Filter.statusIs "published").test) := by
        apply (sortDesc_perm "date" _).mem_iff.mpr
        apply List.mem_filter.mpr
        refine ⟨(findDoc_some hfind2).1, ?_⟩
        simp only [Filter.test, hstatus2]
        decide
      obtain ⟨L1, L2, hL⟩ := List.append_of_mem hmem2
      have hcomplete : Doc.Complete .News ⟨d0._id, applySet d0.fields u⟩ :=
        applySet_complete u (new_complete hnew)
      refine ⟨⟨d0._id, applySet d0.fields u⟩,
        L1.map (fun d => (Model.hydrate env4 .News d).toObject),
        L2.map (fun d => (Model.hydrate env4 .News d).toObject), rfl,
        hstatus2, hfind2, ?_, ?_⟩
      · rw [healthy_news env4 st2 hread2, hL]
        simp only [List.map_append, List.map_cons, hydrate_complete env4 .News _ hcomplete]
      · intro e he td te htd hte
        obtain ⟨x, hx, hxe⟩ := List.mem_map.mp he
        have hsorted := sortDesc_sorted "date"
          ((st2.coll .News).filter (Filter.statusIs "published").test)
        rw [hL] at hsorted
        have hrel : sortsBefore "date" x ⟨d0._id, applySet d0.fields u⟩ :=
          (List.pairwise_append.mp hsorted).2.2 x hx _ (List.mem_cons_self _ _)
        unfold sortsBefore at hrel
        rw [htd] at hrel
        cases hxd : getField x.fields "date" with
        | none =>
          rw [getField_toObject_ne x (by decide), hxd] at hrel
          exfalso
          simp only [bsonKey] at hrel
          rw [Prod.Lex.le_iff] at hrel
          rcases hrel with h5 | ⟨h5, _⟩
          · simp at h5
          · simp at h5
        | some v =>
          have h3 : getField e "date" = some v := by
            rw [← hxe, getField_toObject_ne _ (by decide)]
            exact hydrate_stored env4 .News x hxd
          rw [h3] at hte
          rw [getField_toObject_ne x (by decide), hxd, hte] at hrel
          exact bsonKey_date_le hrel

end Guit

namespace Guit

/-- Witness of C15: the example scenario against a store with one older
published item; the new item is listed first. -/
theorem C15_draft_news_then_published_witness :
    ∃ (d2 : Doc) (l1 l2 : List Fields), d2._id = draftDoc._id ∧
      getField d2.toObject "status" = some (Value.str "published") ∧
      findDoc ((createCrudRoutes.update env0
          (createCrudRoutes.create env0 newsStore0 .News draftBody).1 .News
          "000000000000000000000007" [("status", .str "published")]).1.coll .News)
          draftDoc._id = some d2 ∧
      (getPublicData env0 (createCrudRoutes.update env0
          (createCrudRoutes.create env0 newsStore0 .News draftBody).1 .News
          "000000000000000000000007" [("status", .str "published")]).1).2.item "news"
        = some (Item.docs (l1 ++ d2.toObject :: l2)) ∧
      ∀ e ∈ l1, ∀ td te, getField d2.toObject "date" = some (Value.date td) →
        getField e "date" = some (Value.date te) → td ≤ te :=
  (C15_draft_news_then_published env0 env0 env0 env0 newsStore0
    (createCrudRoutes.create env0 newsStore0 .News draftBody).1
    (createCrudRoutes.update env0
      (createCrudRoutes.create env0 newsStore0 .News draftBody).1 .News
      "000000000000000000000007" [("status", .str "published")]).1
    draftBody [("status", .str "published")] "000000000000000000000007" draftDoc
    (fun M => by cases M <;> decide) (by decide) rfl (by decide) (by decide) (by decide)
    (by decide) rfl (by decide)).2.2

end Guit

/-! ## The settings -/

namespace Guit

theorem findOne_first (env : Env) (st : Store) (M : ModelName) (h : env.fault M = none) :
    Model.findOne env st M .all .natural
      = .ok ((st.coll M).head?.map (Model.hydrate env M)) := by
  have hall : (st.coll M).filter Filter.all.test = st.coll M :=
    List.filter_eq_self.mpr (fun _ _ => rfl)
  simp only [Model.findOne, h, SortSpec.apply, hall]

theorem replaceDoc_head (d d1 : Doc) (rest : List Doc) :
    replaceDoc (d :: rest) d._id d1 = d1 :: rest := by
  simp [replaceDoc]

theorem assignSave_ok {env : Env} {st st1 : Store} {M : ModelName} {doc d1 : Doc}
    {body : Fields} (h : Document.assignSave env st M doc body = .ok (st1, d1)) :
    ∃ u, castUpdate env M body = .ok u ∧ env.fault M = none ∧
      d1 = ⟨doc._id, applySet doc.fields u⟩ ∧
      st1 = st.put M (replaceDoc (st.coll M) doc._id ⟨doc._id, applySet doc.fields u⟩) := by
  unfold Document.assignSave at h
  split at h
  · exact Except.noConfusion h
  · split at h
    · exact Except.noConfusion h
    · rename_i u hu
      split at h
      · exact Except.noConfusion h
      · split at h
        · exact Except.noConfusion h
        · split at h
          · exact Except.noConfusion h
          · rename_i hf
            split at h
            · exact Except.noConfusion h
            · simp only [Except.ok.injEq, Prod.mk.injEq] at h
              exact ⟨u, hu, hf, h.2.symm, h.1.symm⟩

/-- The outcomes of `GET /api/settings`. -/
theorem getSettings_cases (env : Env) (st : Store) :
    (∃ msg, getSettings env st = (st, ⟨500, errorBody msg⟩)) ∨
    (∃ d rest, st.coll .Setting = d :: rest ∧
        getSettings env st = (st, ⟨200, .object (Model.hydrate env .Setting d).toObject⟩)) ∨
    (st.coll .Setting = [] ∧ ∃ d, Model.new env .Setting [] = .ok d ∧
        getSettings env st = (st.put .Setting [d], ⟨200, .object d.toObject⟩)) := by
  unfold getSettings
  cases hf : env.fault .Setting with
  | some e =>
    left
    exact ⟨e, by simp [Model.findOne, hf]⟩
  | none =>
    rw [findOne_first env st .Setting hf]
    cases hc : st.coll .Setting with
    | cons d rest =>
      right; left
      exact ⟨d, rest, rfl, rfl⟩
    | nil =>
      simp only [List.head?_nil, Option.map_none']
      cases hs : Model.save env st .Setting (Model.new env .Setting []) with
      | error msg =>
        left
        exact ⟨msg, rfl⟩
      | ok out =>
        obtain ⟨st1, d⟩ := out
        obtain ⟨hnew, _, _, _, hst⟩ := save_ok hs
        right; right
        rw [hc] at hst
        subst hst
        first
          | exact ⟨rfl, d, hnew, rfl⟩
          | exact ⟨trivial, d, hnew, rfl⟩

/-- The outcomes of `PUT /api/settings`. -/
theorem putSettings_cases (env : Env) (st : Store) (body : Fields) :
    (∃ msg, putSettings env st body = (st, ⟨500, errorBody msg⟩)) ∨
    (st.coll .Setting = [] ∧ ∃ d,
        Model.new env .Setting (setField body "updatedAt" (.date env.now)) = .ok d ∧
        putSettings env st body = (st.put .Setting [d], ⟨200, .object d.toObject⟩)) ∨
    (∃ d rest u, st.coll .Setting = d :: rest ∧
        castUpdate env .Setting (setField body "updatedAt" (.date env.now)) = .ok u ∧
        putSettings env st body
          = (st.put .Setting
              (⟨d._id, applySet (Model.hydrate env .Setting d).fields u⟩ :: rest),
              ⟨200, .object
                (Doc.toObject ⟨d._id, applySet (Model.hydrate env .Setting d).fields u⟩)⟩)) := by
  unfold putSettings
  cases hf : env.fault .Setting with
  | some e =>
    left
    exact ⟨e, by simp [Model.findOne, hf]⟩
  | none =>
    rw [findOne_first env st .Setting hf]
    cases hc : st.coll .Setting with
    | cons d rest =>
      simp only [List.head?_cons, Option.map_some']
      cases hs : Document.assignSave env st .Setting (Model.hydrate env .Setting d)
          (setField body "updatedAt" (.date env.now)) with
      | error msg =>
        left
        exact ⟨msg, rfl⟩
      | ok out =>
        obtain ⟨st1, d1⟩ := out
        obtain ⟨u, hu, _, hd1, hst⟩ := assignSave_ok hs
        right; right
        rw [hc, hydrate_id, replaceDoc_head] at hst
        subst hst
        subst hd1
        exact ⟨d, rest, u, rfl, hu, rfl⟩
    | nil =>
      simp only [List.head?_nil, Option.map_none']
      cases hs : Model.save env st .Setting
          (Model.new env .Setting (setField body "updatedAt" (.date env.now))) with
      | error msg =>
        left
        exact ⟨msg, rfl⟩
      | ok out =>
        obtain ⟨st1, d⟩ := out
        obtain ⟨hnew, _, _, _, hst⟩ := save_ok hs
        right; left
        rw [hc] at hst
        subst hst
        first
          | exact ⟨rfl, d, hnew, rfl⟩
          | exact ⟨trivial, d, hnew, rfl⟩

/-- What one settings request does to the number of settings documents. -/
theorem settingsStep_count (env : Env) (st : Store) (r : SettingsRequest)
    (h : (st.coll .Setting).length ≤ 1) :
    ((settingsStep env st r).1.coll .Setting).length ≤ 1 ∧
    ((settingsStep env st r).2.status = 200 →
      ((settingsStep env st r).1.coll .Setting).length = 1) ∧
    ((st.coll .Setting).length = 1 →
      ((settingsStep env st r).1.coll .Setting).length = 1) := by
  cases r with
  | get =>
    simp only [settingsStep]
    rcases getSettings_cases env st with ⟨msg, hg⟩ | ⟨d, rest, hc, hg⟩ | ⟨hc, d, _, hg⟩
    · rw [hg]
      exact ⟨h, fun h2 => absurd h2 (by simp), fun h1 => h1⟩
    · rw [hg]
      have hlen : (st.coll .Setting).length = 1 := by
        rw [hc] at h ⊢
        simp only [List.length_cons] at h ⊢
        omega
      exact ⟨h, fun _ => hlen, fun h1 => h1⟩
    · rw [hg]
      refine ⟨?_, ?_, ?_⟩ <;> simp [put_coll_self]
  | put body =>
    simp only [settingsStep]
    rcases putSettings_cases env st body with ⟨msg, hg⟩ | ⟨hc, d, _, hg⟩ |
        ⟨d, rest, u, hc, _, hg⟩
    · rw [hg]
      exact ⟨h, fun h2 => absurd h2 (by simp), fun h1 => h1⟩
    · rw [hg]
      refine ⟨?_, ?_, ?_⟩ <;> simp [put_coll_self]
    · rw [hg]
      have hlen : (st.coll .Setting).length = 1 := by
        rw [hc] at h ⊢
        simp only [List.length_cons] at h ⊢
        omega
      rw [hc] at hlen
      simp only [put_coll_self, List.length_cons] at hlen ⊢
      exact ⟨by omega, fun _ => hlen, fun _ => hlen⟩

theorem runSettings_cons (env : Env) (r : SettingsRequest)
    (rest : List (Env × SettingsRequest)) (st : Store) :
    runSettings ((env, r) :: rest) st
      = ((runSettings rest (settingsStep env st r).1).1,
          (settingsStep env st r).2 :: (runSettings rest (settingsStep env st r).1).2) := rfl

theorem runSettings_one (reqs : List (Env × SettingsRequest)) (st : Store)
    (h : (st.coll .Setting).length = 1) :
    ((runSettings reqs st).1.coll .Setting).length = 1 := by
  induction reqs generalizing st with
  | nil => exact h
  | cons q rest ih =>
    obtain ⟨env, r⟩ := q
    rw [runSettings_cons]
    exact ih _ ((settingsStep_count env st r (le_of_eq h)).2.2 h)

theorem runSettings_count (reqs : List (Env × SettingsRequest)) (st : Store)
    (h : (st.coll .Setting).length ≤ 1) :
    ((runSettings reqs st).1.coll .Setting).length ≤ 1 ∧
    ((∃ r ∈ (runSettings reqs st).2, r.status = 200) →
      ((runSettings reqs st).1.coll .Setting).length = 1) := by
  induction reqs generalizing st with
  | nil =>
    refine ⟨h, ?_⟩
    rintro ⟨r, hr, _⟩
    exact absurd hr (List.not_mem_nil _)
  | cons q rest ih =>
    obtain ⟨env, r⟩ := q
    rw [runSettings_cons]
    obtain ⟨s1, s2, _⟩ := settingsStep_count env st r h
    obtain ⟨i1, i2⟩ := ih (settingsStep env st r).1 s1
    refine ⟨i1, ?_⟩
    rintro ⟨x, hx, hx200⟩
    rcases List.mem_cons.mp hx with hxe | hxe
    · subst hxe
      exact runSettings_one rest _ (s2 hx200)
    · exact i2 ⟨x, hxe, hx200⟩

end Guit

namespace Guit

/-- C17 as stated fails: from the empty store a PUT whose body gives the `_id`
`abc` is answered 500 and leaves no settings document, and so does a GET that
meets a store failure. -/
theorem C17_counterexample_failed_requests :
    (runSettings [(env0, .put [("_id", .str "abc")])] emptyStore).2
        = [⟨500, errorBody "Cast to ObjectId failed at path _id"⟩] ∧
    (runSettings [(env0, .put [("_id", .str "abc")])] emptyStore).1.coll .Setting = [] ∧
    (runSettings [(envDown, .get)] emptyStore).2 = [⟨500, errorBody "connection lost"⟩] ∧
    (runSettings [(envDown, .get)] emptyStore).1.coll .Setting = [] := by
  decide

/-- C17, amended: from a store with at most one settings document, every
sequence of GET and PUT settings requests leaves at most one, and exactly one
when a request of the sequence was answered 200; a request answered 200 on a
store without settings leaves the one document it answers with; and of two
consecutive PUTs answered 200 the second leaves one document with the
identifier of the one the first left. -/
theorem C17_settings_singleton (st : Store) (h0 : (st.coll .Setting).length ≤ 1) :
    (∀ reqs, ((runSettings reqs st).1.coll .Setting).length ≤ 1 ∧
      ((∃ r ∈ (runSettings reqs st).2, r.status = 200) →
        ((runSettings reqs st).1.coll .Setting).length = 1)) ∧
    (∀ env r, st.coll .Setting = [] → (settingsStep env st r).2.status = 200 →
      ∃ d : Doc, (settingsStep env st r).1.coll .Setting = [d] ∧
        (settingsStep env st r).2.body = .object d.toObject) ∧
    (∀ env1 env2 body1 body2, (putSettings env1 st body1).2.status = 200 →
      (putSettings env2 (putSettings env1 st body1).1 body2).2.status = 200 →
      ∃ d1 d2 : Doc, (putSettings env1 st body1).1.coll .Setting = [d1] ∧
        (putSettings env2 (putSettings env1 st body1).1 body2).1.coll .Setting = [d2] ∧
        d2._id = d1._id) := by
  refine ⟨fun reqs => runSettings_count reqs st h0, ?_, ?_⟩
  · intro env r hnil hok
    cases r with
    | get =>
      simp only [settingsStep] at hok ⊢
      rcases getSettings_cases env st with ⟨msg, hg⟩ | ⟨d, rest, hc, _⟩ | ⟨_, d, _, hg⟩
      · rw [hg] at hok
        exact absurd hok (by simp)
      · rw [hnil] at hc
        exact List.noConfusion hc
      · rw [hg]
        exact ⟨d, put_coll_self _ _ _, rfl⟩
    | put body =>
      simp only [settingsStep] at hok ⊢
      rcases putSettings_cases env st body with ⟨msg, hg⟩ | ⟨_, d, _, hg⟩ |
          ⟨d, rest, u, hc, _, _⟩
      · rw [hg] at hok
        exact absurd hok (by simp)
      · rw [hg]
        exact ⟨d, put_coll_self _ _ _, rfl⟩
      · rw [hnil] at hc
        exact List.noConfusion hc
  · intro env1 env2 body1 body2 hok1 hok2
    have first : ∃ d1 : Doc, (putSettings env1 st body1).1.coll .Setting = [d1] := by
      rcases putSettings_cases env1 st body1 with ⟨msg, hg⟩ | ⟨_, d, _, hg⟩ |
          ⟨d, rest, u, hc, _, hg⟩
      · rw [hg] at hok1
        exact absurd hok1 (by simp)
      · rw [hg]
        exact ⟨d, put_coll_self _ _ _⟩
      · have hrest : rest = [] := by
          rw [hc] at h0
          simp only [List.length_cons] at h0
          exact List.length_eq_zero.mp (by omega)
        rw [hg, hrest]
        exact ⟨_, put_coll_self _ _ _⟩
    obtain ⟨d1, hd1⟩ := first
    refine ⟨d1, ?_⟩
    rcases putSettings_cases env2 (putSettings env1 st body1).1 body2 with
      ⟨msg, hg⟩ | ⟨hnil, _, _, _⟩ | ⟨d, rest, u, hc, _, hg⟩
    · rw [hg] at hok2
      exact absurd hok2 (by simp)
    · rw [hd1] at hnil
      exact List.noConfusion hnil
    · rw [hd1] at hc
      simp only [List.cons.injEq] at hc
      obtain ⟨hdd, hrest⟩ := hc
      subst hdd
      subst hrest
      rw [hg]
      exact ⟨_, hd1, put_coll_self _ _ _, rfl⟩

/-- Witness of C17: a GET, a PUT and a failing GET from the empty store leave
one settings document. -/
theorem C17_settings_singleton_witness :
    ((runSettings [(env0, .get), (env0, .put [("siteTitle", .str "Guit County")]),
        (envDown, .get)] emptyStore).1.coll .Setting).length = 1 :=
  ((C17_settings_singleton emptyStore (by decide)).1
    [(env0, .get), (env0, .put [("siteTitle", .str "Guit County")]), (envDown, .get)]).2
    ⟨_, List.mem_cons_self _ _, by decide⟩

/-- C18 as stated fails: a PUT on an existing settings document with a body
that has the field `foo` and a number for `siteTitle` is answered 200; the
stored document has no `foo` and holds the string `5` as title. -/
theorem C18_counterexample_undeclared_field :
    (putSettings env0 ⟨fun M => if M = .Setting then [⟨3, [("siteTitle", .str "Guit")]⟩]
        else []⟩ [("foo", .str "bar"), ("siteTitle", .num 5)]).2
      = ⟨200, .object [("_id", .oid 3), ("siteTitle", .str "5"),
          ("updatedAt", .date 1000)]⟩ ∧
    (putSettings env0 ⟨fun M => if M = .Setting then [⟨3, [("siteTitle", .str "Guit")]⟩]
        else []⟩ [("foo", .str "bar"), ("siteTitle", .num 5)]).1.coll .Setting
      = [⟨3, [("siteTitle", .str "5"), ("updatedAt", .date 1000)]⟩] ∧
    getField [("siteTitle", Value.str "5"), ("updatedAt", .date 1000)] "foo" = none := by
  decide

end Guit

namespace Guit

theorem setting_updatedAt_path :
    (⟨"updatedAt", .date, false, false, false, .dateNow⟩ : SchemaPath)
      ∈ ModelName.Setting.paths := by
  decide

theorem setting_updatedAt_path? :
    ModelName.Setting.path? "updatedAt"
      = some ⟨"updatedAt", .date, false, false, false, .dateNow⟩ := by
  rfl

/-- C18, amended: a PUT on the settings that is answered 200 leaves every other
collection as it was. When a settings document exists, the first one is
replaced in place by a document of the same identifier in which `updatedAt` is
the clock of the request, every schema path the body gives holds the body
value cast to the declared type, and every field the body does not give, or
that is no schema path, is as before. When none exists, one document is
inserted, built from the body along the schema paths, with `updatedAt` the
clock of the request and nothing for a name that is no schema path. -/
theorem C18_put_settings_find_or_create (env : Env) (st : Store) (body : Fields)
    (hok : (putSettings env st body).2.status = 200) :
    (∀ N, N ≠ ModelName.Setting → (putSettings env st body).1.coll N = st.coll N) ∧
    (∀ d rest, st.coll .Setting = d :: rest →
      ∃ d1 : Doc, (putSettings env st body).1.coll .Setting = d1 :: rest ∧
        (putSettings env st body).2 = ⟨200, .object d1.toObject⟩ ∧ d1._id = d._id ∧
        getField d1.fields "updatedAt" = some (Value.date env.now) ∧
        (∀ k p v, k ≠ "updatedAt" → k ≠ "_id" → ModelName.Setting.path? k = some p →
          getField body k = some v →
          ∃ c, castValue env p v = .ok c ∧ getField d1.fields k = some c) ∧
        (∀ k, k ≠ "updatedAt" →
          (getField body k = none ∨ (k ≠ "_id" ∧ ModelName.Setting.path? k = none)) →
          getField d1.fields k = getField d.fields k)) ∧
    (st.coll .Setting = [] →
      ∃ d1 : Doc, (putSettings env st body).1.coll .Setting = [d1] ∧
        (putSettings env st body).2 = ⟨200, .object d1.toObject⟩ ∧
        getField d1.fields "updatedAt" = some (Value.date env.now) ∧
        (∀ p ∈ ModelName.Setting.paths, p.name ≠ "updatedAt" →
          ∀ v, getField body p.name = some v →
          ∃ c, castValue env p v = .ok c ∧ getField d1.fields p.name = some c) ∧
        (∀ p ∈ ModelName.Setting.paths, p.name ≠ "updatedAt" →
          getField body p.name = none → getField d1.fields p.name = p.dflt.value env) ∧
        (∀ k, ModelName.Setting.path? k = none → getField d1.fields k = none)) := by
  have hstamp : getField (setField body "updatedAt" (.date env.now)) "updatedAt"
      = some (Value.date env.now) := getField_setField_self _ _ _
  have hother : ∀ k, k ≠ "updatedAt" →
      getField (setField body "updatedAt" (.date env.now)) k = getField body k :=
    fun k hk => getField_setField_ne _ _ hk
  rcases putSettings_cases env st body with ⟨msg, hg⟩ | ⟨hnil, d, hnew, hg⟩ |
      ⟨d, rest, u, hc, hcu, hg⟩
  · rw [hg] at hok
    exact absurd hok (by simp)
  · -- no settings document: one is inserted
    rw [hg]
    refine ⟨fun N hN => put_coll_ne st _ hN, ?_, ?_⟩
    · intro d0 rest hc
      rw [hnil] at hc
      exact List.noConfusion hc
    · intro _
      obtain ⟨hbuild, _⟩ := new_ok hnew
      obtain ⟨b1, b2, b3⟩ := buildFields_spec hbuild (paths_names_nodup .Setting)
      refine ⟨d, put_coll_self _ _ _, rfl, ?_, ?_, ?_, ?_⟩
      · obtain ⟨c, hc1, hc2⟩ := b1 _ setting_updatedAt_path _ hstamp
        rw [castValue_updatedAt env .Setting _ setting_updatedAt_path?] at hc1
        rw [hc2, ← Except.ok.inj hc1]
      · intro p hp hne v hv
        exact b1 p hp v (by rw [hother _ hne]; exact hv)
      · intro p hp hne hv
        exact b2 p hp (by rw [hother _ hne]; exact hv)
      · intro k hk
        exact b3 k (path_none_iff.mp hk)
  · -- a settings document exists: it is updated in place
    rw [hg]
    refine ⟨fun N hN => put_coll_ne st _ hN, ?_, ?_⟩
    · intro d0 rest0 hc0
      rw [hc] at hc0
      simp only [List.cons.injEq] at hc0
      obtain ⟨hd, hr⟩ := hc0
      subst hd
      subst hr
      have hload : ∀ k, k ≠ "updatedAt" →
          getField (Model.hydrate env .Setting d).fields k = getField d.fields k := by
        intro k hk
        apply hydrate_no_default
        intro p hp hname
        subst hname
        revert hk
        revert p
        decide
      refine ⟨⟨d._id, applySet (Model.hydrate env .Setting d).fields u⟩, put_coll_self _ _ _,
        rfl, rfl, ?_, ?_, ?_⟩
      · obtain ⟨c, hc1, hc2⟩ := castUpdate_declared hcu (by decide)
          setting_updatedAt_path? hstamp
        rw [castValue_updatedAt env .Setting _ setting_updatedAt_path?] at hc1
        rw [← Except.ok.inj hc1] at hc2
        exact applySet_present _ _ (by decide) hc2
      · intro k p v hne hid hp hv
        obtain ⟨c, hc1, hc2⟩ := castUpdate_declared hcu hid hp
          (by rw [hother _ hne]; exact hv)
        exact ⟨c, hc1, applySet_present _ _ hid hc2⟩
      · intro k hne hk
        show getField (applySet (Model.hydrate env .Setting d).fields u) k = getField d.fields k
        rw [← hload k hne]
        rcases hk with hk | ⟨hid, hk⟩
        · exact applySet_absent _ _
            (castUpdate_absent hcu (by rw [hother _ hne]; exact hk))
        · exact applySet_absent _ _ (castUpdate_undeclared hcu hid hk)
    · intro hnil
      rw [hnil] at hc
      exact List.noConfusion hc

/-- Witness of C18: the title of an existing settings document is replaced; its
identifier and its e-mail address stay. -/
theorem C18_put_settings_find_or_create_witness :
    ∃ d1 : Doc,
      (putSettings env0 ⟨fun M => if M = .Setting then
          [⟨3, [("siteTitle", .str "Guit"), ("contactEmail", .str "info@guit.gov")]⟩]
          else []⟩ [("siteTitle", .str "Guit County")]).1.coll .Setting = d1 :: [] ∧
      (putSettings env0 ⟨fun M => if M = .Setting then
          [⟨3, [("siteTitle", .str "Guit"), ("contactEmail", .str "info@guit.gov")]⟩]
          else []⟩ [("siteTitle", .str "Guit County")]).2 = ⟨200, .object d1.toObject⟩ ∧
      d1._id = 3 ∧ getField d1.fields "updatedAt" = some (Value.date 1000) :=
  let ⟨d1, h1, h2, h3, h4, _⟩ := (C18_put_settings_find_or_create env0
    ⟨fun M => if M = .Setting then
      [⟨3, [("siteTitle", .str "Guit"), ("contactEmail", .str "info@guit.gov")]⟩]
      else []⟩ [("siteTitle", .str "Guit County")] (by decide)).2.1
    ⟨3, [("siteTitle", .str "Guit"), ("contactEmail", .str "info@guit.gov")]⟩ [] rfl
  ⟨d1, h1, h2, h3, h4⟩

end Guit

/-! ## Uploads -/

namespace Guit

/-- A file of a refused type under the field `image` is answered 500 with the
message of the filter, and the disk is left as it was. -/
theorem postUpload_refused_type (now : Int) (rand : Nat) (disk : Disk) (file : FilePart)
    (rest : List FilePart) (hfield : file.fieldname = "image")
    (htype : fileFilter file = false) :
    postUpload now rand disk (file :: rest)
      = (disk, ⟨500, errorBody
          "Server error: Only images, videos, and audio files are allowed"⟩) := by
  simp [postUpload, uploadSingle, hfield, htype]

/-- The disk changes only when the request has one file part, of an accepted
type, and then the response is 200. -/
theorem postUpload_writes_only_accepted (now : Int) (rand : Nat) (disk : Disk)
    (files : List FilePart) (h : (postUpload now rand disk files).1 ≠ disk) :
    ∃ file, files = [file] ∧ fileFilter file = true ∧
      (postUpload now rand disk files).2.status = 200 := by
  cases files with
  | nil => exact absurd rfl h
  | cons file rest =>
    by_cases h1 : file.fieldname = "image"
    · by_cases h2 : fileFilter file = true
      · by_cases h3 : fileSizeLimit ≤ file.size
        · simp [postUpload, uploadSingle, h1, h2, h3] at h
        · cases rest with
          | nil =>
            refine ⟨file, rfl, h2, ?_⟩
            simp [postUpload, uploadSingle, h1, h2, h3]
          | cons f2 r2 => simp [postUpload, uploadSingle, h1, h2, h3] at h
      · simp only [Bool.not_eq_true] at h2
        rw [postUpload_refused_type now rand disk file rest h1 h2] at h
        exact absurd rfl h
    · simp [postUpload, uploadSingle, h1] at h

/-- C20, at the failing input: a request with one file under the field `image`
whose declared type is `text/plain` is not written to the disk, and it is
answered 500, where the claim has a client error. -/
theorem C20_upload_text_plain_answers_500 :
    postUpload 1000 5 [] [⟨"image", "notes.txt", "text/plain", 10⟩]
      = ([], ⟨500, errorBody
          "Server error: Only images, videos, and audio files are allowed"⟩) ∧
    fileFilter ⟨"image", "notes.txt", "text/plain", 10⟩ = false := by
  decide

end Guit

/-! ## The singleton collections under the whole API -/

namespace Guit

theorem getAll_store (env : Env) (st : Store) (M : ModelName) :
    (createCrudRoutes.getAll env st M).1 = st := by
  unfold createCrudRoutes.getAll
  cases Model.findSorted env st M "updatedAt" <;> rfl

theorem getOne_store (env : Env) (st : Store) (M : ModelName) (id : String) :
    (createCrudRoutes.getOne env st M id).1 = st := by
  unfold createCrudRoutes.getOne
  cases h : Model.findById env st M id with
  | error e => rfl
  | ok found => cases found <;> rfl

theorem getPublicData_store (env : Env) (st : Store) : (getPublicData env st).1 = st := by
  unfold getPublicData
  cases readLists env st publicLists with
  | error e => rfl
  | ok lists =>
    cases readSingles env st with
    | error e => rfl
    | ok singles => rfl

theorem getStats_store (env : Env) (st : Store) : (getStats env st).1 = st := by
  unfold getStats
  cases readCounts env st statsCounts <;> rfl

theorem login_store (env : Env) (st : Store) (body : Fields) : (login env st body).1 = st := by
  unfold login
  split
  · split <;> rfl
  · rfl

theorem create_coll_ne (env : Env) (st : Store) (M N : ModelName) (body : Fields)
    (h : N ≠ M) : (createCrudRoutes.create env st M body).1.coll N = st.coll N := by
  rw [create_eq]
  cases hs : Model.save env st M (Model.new env M body) with
  | error msg => rfl
  | ok out =>
    obtain ⟨st1, d⟩ := out
    obtain ⟨_, _, _, _, hst⟩ := save_ok hs
    subst hst
    exact put_coll_ne st _ h

theorem update_length (env : Env) (st : Store) (M N : ModelName) (id : String)
    (body : Fields) :
    ((createCrudRoutes.update env st M id body).1.coll N).length = (st.coll N).length := by
  rcases update_cases env st M id body with ⟨msg, h⟩ | ⟨i, u, _, _, _, _, h⟩ |
      ⟨i, u, d0, _, _, _, _, h⟩
  · rw [h]
  · rw [h]
  · rw [h]
    by_cases hN : N = M
    · subst hN
      rw [put_coll_self, replaceDoc_length]
    · rw [put_coll_ne st _ hN]

theorem delete_length (env : Env) (st : Store) (M N : ModelName) (id : String) :
    ((createCrudRoutes.delete env st M id).1.coll N).length ≤ (st.coll N).length := by
  rcases delete_store_cases env st M id with h | ⟨i, _, h⟩
  · rw [h]
  · rw [h]
    by_cases hN : N = M
    · subst hN
      rw [put_coll_self]
      exact (List.eraseP_sublist (st.coll N)).length_le
    · rw [put_coll_ne st _ hN]

theorem getSettings_coll_ne (env : Env) (st : Store) (N : ModelName) (h : N ≠ .Setting) :
    (getSettings env st).1.coll N = st.coll N := by
  rcases getSettings_cases env st with ⟨msg, hg⟩ | ⟨d, rest, _, hg⟩ | ⟨_, d, _, hg⟩
  · rw [hg]
  · rw [hg]
  · rw [hg]
    exact put_coll_ne st _ h

theorem putSettings_coll_ne (env : Env) (st : Store) (body : Fields) (N : ModelName)
    (h : N ≠ .Setting) : (putSettings env st body).1.coll N = st.coll N := by
  rcases putSettings_cases env st body with ⟨msg, hg⟩ | ⟨_, d, _, hg⟩ | ⟨d, rest, u, _, _, hg⟩
  · rw [hg]
  · rw [hg]
    exact put_coll_ne st _ h
  · rw [hg]
    exact put_coll_ne st _ h

theorem likeNews_length (env : Env) (st : Store) (id : String) (N : ModelName) :
    ((likeNews env st id).1.coll N).length = (st.coll N).length := by
  unfold likeNews
  cases hf : Model.findById env st .News id with
  | error e => rfl
  | ok found =>
    cases found with
    | none => rfl
    | some news =>
      simp only
      cases hs : Document.assignSave env st .News news
          [("likes", .num (addOne (likesOrZero (getField news.fields "likes"))))] with
      | error msg => rfl
      | ok out =>
        obtain ⟨st1, d1⟩ := out
        obtain ⟨u, _, _, _, hst⟩ := assignSave_ok hs
        subst hst
        by_cases hN : N = .News
        · subst hN
          simp only [put_coll_self, replaceDoc_length]
        · simp only [put_coll_ne st _ hN]

theorem register_coll_ne (env : Env) (st : Store) (body : Fields) (N : ModelName)
    (h : N ≠ .User) : (register env st body).1.coll N = st.coll N := by
  unfold register
  split
  · rfl
  · split
    · rfl
    · rfl
    · split
      · split
        · rename_i hs
          obtain ⟨_, _, _, _, hst⟩ := save_ok hs
          subst hst
          exact put_coll_ne st _ h
        · rfl
      · rfl

theorem resourceModel_registered {name : String} {M : ModelName}
    (h : resourceModel name = some M) : (M, name) ∈ crudResources := by
  unfold resourceModel at h
  cases hf : crudResources.find? (fun r => r.2 == name) with
  | none =>
    rw [hf] at h
    exact Option.noConfusion h
  | some r =>
    rw [hf] at h
    simp only [Option.map_some', Option.some.injEq] at h
    have hmem := List.mem_of_find?_eq_some hf
    have hname : r.2 = name := by simpa using List.find?_some hf
    rw [← h, ← hname]
    exact hmem

theorem resourceModel_ne_setting {name : String} {M : ModelName}
    (h : resourceModel name = some M) : M ≠ .Setting := by
  intro hM
  have hmem := resourceModel_registered h
  rw [hM] at hmem
  have : ∀ r ∈ crudResources, r.1 ≠ ModelName.Setting := by decide
  exact this _ hmem rfl

/-- A request that does not insert into a collection leaves it with at most
as many documents as it had. -/
theorem handle_length_le (env : Env) (st : Store) (req : Request) (N : ModelName)
    (h : req.insertsInto N = false) :
    ((handle env st req).coll N).length ≤ (st.coll N).length := by
  cases req with
  | getAll resource =>
    simp only [handle]
    cases resourceModel resource with
    | none => exact le_refl _
    | some M => simp only [getAll_store]; exact le_refl _
  | getOne resource id =>
    simp only [handle]
    cases resourceModel resource with
    | none => exact le_refl _
    | some M => simp only [getOne_store]; exact le_refl _
  | create resource body =>
    simp only [handle]
    cases hr : resourceModel resource with
    | none => exact le_refl _
    | some M =>
      have hne : N ≠ M := by
        intro hNM
        simp [Request.insertsInto, hr, hNM] at h
      simp only [create_coll_ne env st M N body hne]
      exact le_refl _
  | update resource id body =>
    simp only [handle]
    cases resourceModel resource with
    | none => exact le_refl _
    | some M => exact le_of_eq (update_length env st M N id body)
  | delete resource id =>
    simp only [handle]
    cases resourceModel resource with
    | none => exact le_refl _
    | some M => exact delete_length env st M N id
  | getSettings =>
    have hne : N ≠ .Setting := by
      intro hN
      simp [Request.insertsInto, hN] at h
    simp only [handle, getSettings_coll_ne env st N hne]
    exact le_refl _
  | putSettings body =>
    have hne : N ≠ .Setting := by
      intro hN
      simp [Request.insertsInto, hN] at h
    simp only [handle, putSettings_coll_ne env st body N hne]
    exact le_refl _
  | getPublicData =>
    simp only [handle, getPublicData_store]
    exact le_refl _
  | postUpload files => exact le_refl _
  | likeNews id => exact le_of_eq (likeNews_length env st id N)
  | getStats =>
    simp only [handle, getStats_store]
    exact le_refl _
  | register body =>
    have hne : N ≠ .User := by
      intro hN
      simp [Request.insertsInto, hN] at h
    simp only [handle, register_coll_ne env st body N hne]
    exact le_refl _
  | login body =>
    simp only [handle, login_store]
    exact le_refl _

/-- No request leaves two settings documents where there was at most one. -/
theorem handle_settings (env : Env) (st : Store) (req : Request)
    (h : (st.coll .Setting).length ≤ 1) : ((handle env st req).coll .Setting).length ≤ 1 := by
  cases hins : req.insertsInto .Setting with
  | false => exact le_trans (handle_length_le env st req .Setting hins) h
  | true =>
    cases req with
    | create resource body =>
      simp only [Request.insertsInto, beq_iff_eq] at hins
      exact absurd rfl (resourceModel_ne_setting hins)
    | getSettings => exact (settingsStep_count env st .get h).1
    | putSettings body => exact (settingsStep_count env st (.put body) h).1
    | register body => simp [Request.insertsInto] at hins
    | getAll resource => simp [Request.insertsInto] at hins
    | getOne resource id => simp [Request.insertsInto] at hins
    | update resource id body => simp [Request.insertsInto] at hins
    | delete resource id => simp [Request.insertsInto] at hins
    | getPublicData => simp [Request.insertsInto] at hins
    | postUpload files => simp [Request.insertsInto] at hins
    | likeNews id => simp [Request.insertsInto] at hins
    | getStats => simp [Request.insertsInto] at hins
    | login body => simp [Request.insertsInto] at hins

end Guit

namespace Guit

theorem insertsInto_commissioner (req : Request)
    (h : ∀ body, req ≠ .create "commissioner" body) :
    req.insertsInto .Commissioner = false := by
  cases req with
  | create resource body =>
    cases hr : resourceModel resource with
    | none => simp [Request.insertsInto, hr]
    | some M =>
      by_cases hM : M = .Commissioner
      · subst hM
        have hmem := resourceModel_registered hr
        have hall : ∀ r ∈ crudResources, r.1 = ModelName.Commissioner → r.2 = "commissioner" := by
          decide
        have hname : resource = "commissioner" := hall _ hmem rfl
        subst hname
        exact absurd rfl (h body)
      · simp [Request.insertsInto, hr, hM]
  | getAll resource => rfl
  | getOne resource id => rfl
  | update resource id body => rfl
  | delete resource id => rfl
  | getSettings => rfl
  | putSettings body => rfl
  | getPublicData => rfl
  | postUpload files => rfl
  | likeNews id => rfl
  | getStats => rfl
  | register body => rfl
  | login body => rfl

/-- C19 as stated fails for the commissioner: the generic create route is
registered for it, and two POSTs to it from the empty store leave two
commissioner documents. -/
theorem C19_counterexample_two_commissioners :
    (emptyStore.coll .Commissioner).length ≤ 1 ∧
    ((handleAll [(env0, .create "commissioner" [("name", .str "Hon. Gatkuoth")]),
        (env8, .create "commissioner" [("name", .str "Hon. Nyaluak")])]
      emptyStore).coll .Commissioner).length = 2 := by
  decide

/-- C19, amended: under every sequence of API requests a settings collection
of at most one document stays one of at most one document; and a sequence
without a POST to the commissioner resource never adds a commissioner
document, so that at most one stays at most one. -/
theorem C19_singletons_under_the_api (reqs : List (Env × Request)) (st : Store) :
    ((st.coll .Setting).length ≤ 1 → ((handleAll reqs st).coll .Setting).length ≤ 1) ∧
    ((∀ q ∈ reqs, ∀ body, q.2 ≠ Request.create "commissioner" body) →
      ((handleAll reqs st).coll .Commissioner).length ≤ (st.coll .Commissioner).length) := by
  induction reqs generalizing st with
  | nil => exact ⟨fun h => h, fun _ => le_refl _⟩
  | cons q rest ih =>
    obtain ⟨env, req⟩ := q
    obtain ⟨ih1, ih2⟩ := ih (handle env st req)
    constructor
    · intro h
      exact ih1 (handle_settings env st req h)
    · intro h
      have hq := insertsInto_commissioner req (h (env, req) (List.mem_cons_self _ _))
      exact le_trans (ih2 (fun q hq2 => h q (List.mem_cons_of_mem _ hq2)))
        (handle_length_le env st req .Commissioner hq)

/-- Witness of C19: a POST to the settings path as a resource, two settings
requests and a registration from the empty store leave one settings document. -/
theorem C19_singletons_under_the_api_witness :
    ((handleAll [(env0, .create "settings" []), (env0, .getSettings),
        (env8, .putSettings [("siteTitle", .str "Guit County")]),
        (env8, .register [("email", .str "clerk@guit.gov"), ("password", .str "secret")])]
      emptyStore).coll .Setting).length ≤ 1 :=
  (C19_singletons_under_the_api _ emptyStore).1 (by decide)

end Guit

/-! ## Likes -/

namespace Guit

theorem news_optional : ∀ p ∈ ModelName.News.schema, p.required = false ∧ p.unique = false := by
  decide

theorem castUpdate_likes (env : Env) (n : Int) :
    castUpdate env .News [("likes", .num n)] = .ok [("likes", .num n)] := by
  rfl

theorem applySet_likes (o : Fields) (n : Int) :
    applySet o [("likes", .num n)] = setField o "likes" (.num n) := by
  rfl

theorem news_likes_path : pNumberD "likes" 0 ∈ ModelName.News.schema := by
  decide

/-- The counter a like reads from the loaded item is the stored one, 0 when the
stored item has none. -/
theorem likes_loaded (env : Env) (d : Doc) :
    likesOrZero (getField (Model.hydrate env .News d).fields "likes")
      = likesOrZero (getField d.fields "likes") := by
  cases h : getField d.fields "likes" with
  | some v => rw [hydrate_stored env .News d h]
  | none =>
    have h2 := hydrate_default env .News d news_likes_path h
    simp only [pNumberD] at h2
    rw [h2]
    rfl

/-- The sum `n + 1` of doubles is exact while the counter is below 2^53. -/
theorem addOne_exact {n : Int} (h1 : -(2 ^ 53 : Int) ≤ n) (h2 : n < 2 ^ 53) :
    addOne n = n + 1 := by
  unfold addOne
  rw [if_pos ⟨h1, h2⟩]

/-- The sum `n + 1` of doubles is never below `n`. -/
theorem le_addOne (n : Int) : n ≤ addOne n := by
  unfold addOne
  split
  · omega
  · split
    · split
      · exact le_refl n
      · omega
    · exact le_refl n

theorem likeNews_found {env : Env} {st : Store} {id : String} {i : Nat} {d : Doc}
    (hid : castObjectId id = some i) (hf : env.fault .News = none)
    (hd : findDoc (st.coll .News) i = some d) :
    likeNews env st id
      = (st.put .News (replaceDoc (st.coll .News) i
            ⟨i, setField (Model.hydrate env .News d).fields "likes"
              (.num (addOne (likesOrZero (getField d.fields "likes"))))⟩),
          ⟨200, .object [("success", .bool true),
            ("likes", .num (addOne (likesOrZero (getField d.fields "likes"))))]⟩) := by
  have hdi : d._id = i := (findDoc_some hd).2
  have hreq : ∀ o, failedRequired .News o = none := fun o =>
    failedRequired_none_of_optional .News o (fun p hp => (news_optional p hp).1)
  have hdup : ∀ o, duplicateKey .News ((st.coll .News).filter (fun e => !(e._id == d._id)))
      ⟨d._id, o⟩ = false := by
    intro o
    apply duplicateKey_false_of_fresh _ _ _ (fun p hp => (news_optional p hp).2)
    intro e he
    simpa using (List.mem_filter.mp he).2
  have hsave : (getField [("likes", Value.num
      (addOne (likesOrZero (getField d.fields "likes"))))] "save").isSome = false := rfl
  unfold likeNews Model.findById
  simp only [hid, hf, hd, Option.map_some', likes_loaded, Document.assignSave, hsave,
    castUpdate_likes, applySet_likes, hreq, hdup, hydrate_id]
  simp [getField, hdi]

theorem likeNews_not_found {env : Env} {st : Store} {id : String} {i : Nat}
    (hid : castObjectId id = some i) (hf : env.fault .News = none)
    (hd : findDoc (st.coll .News) i = none) :
    likeNews env st id = (st, ⟨404, .object [("message", .str "News not found")]⟩) := by
  unfold likeNews Model.findById
  simp only [hid, hf, hd, Option.map_none']

end Guit

namespace Guit

theorem replaceDoc_find_ne (l : List Doc) {i j : Nat} (d1 : Doc) (hd : d1._id = i)
    (h : j ≠ i) : findDoc (replaceDoc l i d1) j = findDoc l j := by
  induction l with
  | nil => rfl
  | cons e rest ih =>
    by_cases he : e._id = i
    · have hej : ¬ e._id = j := fun h1 => h (h1.symm.trans he)
      have hdj : ¬ d1._id = j := fun h1 => h (h1.symm.trans hd)
      have hij : ¬ i = j := fun h1 => h h1.symm
      simp [replaceDoc, he, findDoc, List.find?_cons, hej, hdj, hij]
    · simp only [replaceDoc, beq_iff_eq, he, if_false]
      unfold findDoc at ih ⊢
      simp only [List.find?_cons, ih]

theorem likes_accumulate (id : String) (i : Nat) (hid : castObjectId id = some i)
    (envs : List Env) (hall : ∀ e ∈ envs, e.fault .News = none) (st : Store) (d : Doc)
    (hd : findDoc (st.coll .News) i = some d)
    (hlo : -(2 ^ 53 : Int) ≤ likesOrZero (getField d.fields "likes"))
    (hhi : likesOrZero (getField d.fields "likes") + (envs.length : Nat) ≤ 2 ^ 53) :
    ∃ dk : Doc,
      findDoc ((handleAll (envs.map (fun e => (e, Request.likeNews id))) st).coll .News) i
        = some dk ∧
      likesOrZero (getField dk.fields "likes")
        = likesOrZero (getField d.fields "likes") + (envs.length : Nat) ∧
      (∀ k v, k ≠ "likes" → getField d.fields k = some v → getField dk.fields k = some v) ∧
      (∀ k, (∀ p ∈ ModelName.News.schema, p.name ≠ k) →
        getField dk.fields k = getField d.fields k) := by
  induction envs generalizing st d with
  | nil => exact ⟨d, hd, by simp, fun _ _ _ h => h, fun _ _ => rfl⟩
  | cons e rest ih =>
    have he := hall e (List.mem_cons_self e rest)
    simp only [List.length_cons, Nat.cast_add, Nat.cast_one] at hhi
    have hone : addOne (likesOrZero (getField d.fields "likes"))
        = likesOrZero (getField d.fields "likes") + 1 :=
      addOne_exact hlo (by omega)
    have hstep : handle e st (Request.likeNews id)
        = st.put .News (replaceDoc (st.coll .News) i
            ⟨i, setField (Model.hydrate e .News d).fields "likes"
              (.num (likesOrZero (getField d.fields "likes") + 1))⟩) := by
      simp only [handle, likeNews_found hid he hd, hone]
    have hfind : findDoc ((handle e st (Request.likeNews id)).coll .News) i
        = some ⟨i, setField (Model.hydrate e .News d).fields "likes"
              (.num (likesOrZero (getField d.fields "likes") + 1))⟩ := by
      rw [hstep, put_coll_self]
      exact replaceDoc_find _ _ d _ rfl hd
    have hnext : likesOrZero (getField (setField (Model.hydrate e .News d).fields "likes"
        (.num (likesOrZero (getField d.fields "likes") + 1))) "likes")
        = likesOrZero (getField d.fields "likes") + 1 := by
      simp only [getField_setField_self, likesOrZero]
    obtain ⟨dk, h1, h2, h3, h4⟩ :=
      ih (fun x hx => hall x (List.mem_cons_of_mem e hx)) _ _ hfind
        (by rw [hnext]; omega) (by rw [hnext]; omega)
    refine ⟨dk, ?_, ?_, ?_, ?_⟩
    · simpa only [List.map_cons, handleAll] using h1
    · rw [h2, hnext]
      simp only [List.length_cons]
      push_cast
      ring
    · intro k v hk hv
      apply h3 k v hk
      show getField (setField (Model.hydrate e .News d).fields "likes" _) k = some v
      rw [getField_setField_ne _ _ hk]
      exact hydrate_stored e .News d hv
    · intro k hk
      rw [h4 k hk]
      show getField (setField (Model.hydrate e .News d).fields "likes" _) k = _
      rw [getField_setField_ne _ _ (fun h => hk _ news_likes_path (by rw [h]; rfl))]
      exact hydrate_other e .News d hk

/-- C21 as stated fails in three ways. The path segment `abc` is the identifier
of no news item, and the like is answered 500 with the cast failure, not 404 (so
is a like of a stored item when the store fails). The like of an item stored
with a title, a counter and a status also stores the media type and the three
dates the schema fills in when the item is loaded. And the counter is a double:
at 2^53 the like stores and answers 2^53 again. -/
theorem C21_counterexample_malformed_id :
    (likeNews env0 likedStore "abc").2
        = ⟨500, errorBody "Cast to ObjectId failed at path _id"⟩ ∧
      (likeNews env0 likedStore "abc").2
        ≠ ⟨404, .object [("message", .str "News not found")]⟩ ∧
      (likeNews envDown likedStore "000000000000000000000001").2
        = ⟨500, errorBody "connection lost"⟩ ∧
      likedStore.coll .News
        = [⟨1, [("title", .str "Fair"), ("likes", .num 5), ("status", .str "published")]⟩] ∧
      (likeNews env0 likedStore "000000000000000000000001").1.coll .News
        = [⟨1, [("title", .str "Fair"), ("likes", .num 6), ("status", .str "published"),
            ("mediaType", .str "image"), ("date", .date 1000), ("createdAt", .date 1000),
            ("updatedAt", .date 1000)]⟩] ∧
      (likeNews env0 ⟨fun M => if M = .News then [⟨1, [("likes", .num (2 ^ 53))]⟩] else []⟩
          "000000000000000000000001").2
        = ⟨200, .object [("success", .bool true), ("likes", .num (2 ^ 53))]⟩ := by
  decide

/-- C21, amended: for a well-formed identifier and a store that does not fail.
When a news item has the identifier and its like counter is `n` (a missing
counter counts as 0), the like stores the sum `n + 1` of doubles at that item,
which is the number `n + 1` while `n` is below 2^53 (and not below -2^53), and
answers `success: true` with that sum as `likes`. The item keeps every other
field it holds, takes the schema default at every schema path it lacks, and
holds nothing else new; so an item that holds every path with a default has
every field other than `likes` as before. Every other news item and every other
collection are as they were. So `k` likes one after the other raise the
counter by exactly `k` while it stays within 2^53. When no news item has the
identifier the answer is 404 with `News not found` and the store is left as it
was. -/
theorem C21_like_increments (env : Env) (st : Store) (id : String) (i : Nat)
    (hid : castObjectId id = some i) (hf : env.fault .News = none) :
    (∀ d, findDoc (st.coll .News) i = some d →
      (likeNews env st id).2
        = ⟨200, .object [("success", .bool true),
            ("likes", .num (addOne (likesOrZero (getField d.fields "likes"))))]⟩ ∧
      (-(2 ^ 53 : Int) ≤ likesOrZero (getField d.fields "likes") →
        likesOrZero (getField d.fields "likes") < 2 ^ 53 →
        addOne (likesOrZero (getField d.fields "likes"))
          = likesOrZero (getField d.fields "likes") + 1) ∧
      (∃ d1 : Doc, findDoc ((likeNews env st id).1.coll .News) i = some d1 ∧
        d1._id = d._id ∧
        getField d1.fields "likes"
          = some (.num (addOne (likesOrZero (getField d.fields "likes")))) ∧
        (∀ k v, k ≠ "likes" → getField d.fields k = some v → getField d1.fields k = some v) ∧
        (∀ p ∈ ModelName.News.schema, p.name ≠ "likes" → getField d.fields p.name = none →
          getField d1.fields p.name = p.dflt.value env) ∧
        (∀ k, (∀ p ∈ ModelName.News.schema, p.name ≠ k) →
          getField d1.fields k = getField d.fields k) ∧
        (d.Complete .News → ∀ k, k ≠ "likes" → getField d1.fields k = getField d.fields k)) ∧
      ((likeNews env st id).1.coll .News).filter (fun e => e._id != i)
        = (st.coll .News).filter (fun e => e._id != i) ∧
      (∀ N, N ≠ .News → (likeNews env st id).1.coll N = st.coll N)) ∧
    (∀ d (envs : List Env), findDoc (st.coll .News) i = some d →
      (∀ e ∈ envs, e.fault .News = none) →
      -(2 ^ 53 : Int) ≤ likesOrZero (getField d.fields "likes") →
      likesOrZero (getField d.fields "likes") + (envs.length : Nat) ≤ 2 ^ 53 →
      ∃ dk : Doc,
        findDoc ((handleAll (envs.map (fun e => (e, Request.likeNews id))) st).coll .News) i
          = some dk ∧
        likesOrZero (getField dk.fields "likes")
          = likesOrZero (getField d.fields "likes") + (envs.length : Nat) ∧
        (∀ k v, k ≠ "likes" → getField d.fields k = some v →
          getField dk.fields k = some v) ∧
        (∀ k, (∀ p ∈ ModelName.News.schema, p.name ≠ k) →
          getField dk.fields k = getField d.fields k)) ∧
    (findDoc (st.coll .News) i = none →
      likeNews env st id = (st, ⟨404, .object [("message", .str "News not found")]⟩)) := by
  refine ⟨?_, ?_, ?_⟩
  · intro d hd
    rw [likeNews_found hid hf hd]
    refine ⟨rfl, fun h1 h2 => addOne_exact h1 h2,
      ⟨⟨i, setField (Model.hydrate env .News d).fields "likes"
        (.num (addOne (likesOrZero (getField d.fields "likes"))))⟩, ?_, ?_, ?_, ?_, ?_, ?_, ?_⟩,
      ?_, ?_⟩
    · simp only [put_coll_self]
      exact replaceDoc_find _ _ d _ rfl hd
    · exact (findDoc_some hd).2.symm
    · exact getField_setField_self _ _ _
    · intro k v hk hv
      show getField (setField (Model.hydrate env .News d).fields "likes" _) k = some v
      rw [getField_setField_ne _ _ hk]
      exact hydrate_stored env .News d hv
    · intro p hp hk hnone
      show getField (setField (Model.hydrate env .News d).fields "likes" _) p.name = _
      rw [getField_setField_ne _ _ hk]
      exact hydrate_default env .News d hp hnone
    · intro k hk
      show getField (setField (Model.hydrate env .News d).fields "likes" _) k = _
      rw [getField_setField_ne _ _ (fun h => hk _ news_likes_path (by rw [h]; rfl))]
      exact hydrate_other env .News d hk
    · intro hc k hk
      show getField (setField (Model.hydrate env .News d).fields "likes" _) k = _
      rw [getField_setField_ne _ _ hk, hydrate_complete env .News d hc]
    · simp only [put_coll_self]
      exact replaceDoc_others _ _ _ rfl
    · intro N hN
      exact put_coll_ne _ _ hN
  · intro d envs hd hall hlo hhi
    exact likes_accumulate id i hid envs hall st d hd hlo hhi
  · intro hd
    exact likeNews_not_found hid hf hd

/-- The premises of C21 hold of the identifier of the stored news item with
five likes: one like makes six, three likes make eight. -/
theorem C21_like_increments_witness :
    castObjectId "000000000000000000000001" = some 1 ∧ env0.fault .News = none ∧
    findDoc (likedStore.coll .News) 1
      = some ⟨1, [("title", .str "Fair"), ("likes", .num 5), ("status", .str "published")]⟩ ∧
    (likeNews env0 likedStore "000000000000000000000001").2
      = ⟨200, .object [("success", .bool true), ("likes", .num 6)]⟩ ∧
    ((handleAll [(env0, .likeNews "000000000000000000000001"),
        (env8, .likeNews "000000000000000000000001"),
        (env0, .likeNews "000000000000000000000001")] likedStore).coll .News).map
        (fun d => getField d.fields "likes")
      = [some (.num 8)] ∧
    (∃ dk : Doc,
      findDoc ((handleAll ([env0, env8, env0].map
          (fun e => (e, Request.likeNews "000000000000000000000001"))) likedStore).coll
          .News) 1 = some dk ∧
      likesOrZero (getField dk.fields "likes")
        = likesOrZero (getField (⟨1, [("title", .str "Fair"), ("likes", .num 5),
            ("status", .str "published")]⟩ : Doc).fields "likes")
          + (([env0, env8, env0] : List Env).length : Nat) ∧
      (∀ k v, k ≠ "likes" →
        getField (⟨1, [("title", .str "Fair"), ("likes", .num 5),
            ("status", .str "published")]⟩ : Doc).fields k = some v →
        getField dk.fields k = some v) ∧
      (∀ k, (∀ p ∈ ModelName.News.schema, p.name ≠ k) →
        getField dk.fields k
          = getField (⟨1, [("title", .str "Fair"), ("likes", .num 5),
            ("status", .str "published")]⟩ : Doc).fields k)) :=
  ⟨by decide, rfl, by decide, by decide, by decide,
    (C21_like_increments env0 likedStore "000000000000000000000001" 1 (by decide) rfl).2.1
      ⟨1, [("title", .str "Fair"), ("likes", .num 5), ("status", .str "published")]⟩
      [env0, env8, env0] (by decide) (by decide) (by decide) (by decide)⟩

end Guit

/-! ## The like counter under the whole API -/

namespace Guit

theorem findDoc_append_some {l : List Doc} {i : Nat} {d : Doc} (x : List Doc)
    (h : findDoc l i = some d) : findDoc (l ++ x) i = some d := by
  unfold findDoc at h ⊢
  simp [List.find?_append, h]

theorem findDoc_eraseP_ne (l : List Doc) {i j : Nat} (h : j ≠ i) :
    findDoc (l.eraseP (fun d => d._id == i)) j = findDoc l j := by
  induction l with
  | nil => rfl
  | cons e rest ih =>
    by_cases he : e._id = i
    · have hej : ¬ e._id = j := fun h1 => h (h1.symm.trans he)
      have hij : ¬ i = j := fun h1 => h h1.symm
      simp [List.eraseP_cons, he, findDoc, List.find?_cons, hej, hij]
    · unfold findDoc at ih ⊢
      simp [List.eraseP_cons, he, List.find?_cons, ih]

theorem create_store_cases (env : Env) (st : Store) (M : ModelName) (body : Fields) :
    (createCrudRoutes.create env st M body).1 = st ∨
      ∃ d, (createCrudRoutes.create env st M body).1 = st.put M (st.coll M ++ [d]) := by
  rw [create_eq]
  cases hs : Model.save env st M (Model.new env M body) with
  | error msg => exact Or.inl rfl
  | ok out =>
    obtain ⟨st1, d⟩ := out
    obtain ⟨_, _, _, _, hst⟩ := save_ok hs
    subst hst
    exact Or.inr ⟨d, rfl⟩

theorem likeNews_store_cases (env : Env) (st : Store) (id : String) :
    (likeNews env st id).1 = st ∨
      ∃ j dj, findDoc (st.coll .News) j = some dj ∧
        (likeNews env st id).1 = st.put .News (replaceDoc (st.coll .News) j
            ⟨j, setField (Model.hydrate env .News dj).fields "likes"
              (.num (addOne (likesOrZero (getField dj.fields "likes"))))⟩) := by
  cases hid : castObjectId id with
  | none =>
    left
    simp [likeNews, Model.findById, hid]
  | some j =>
    cases hf : env.fault .News with
    | some e =>
      left
      simp [likeNews, Model.findById, hid, hf]
    | none =>
      cases hd : findDoc (st.coll .News) j with
      | none =>
        left
        rw [likeNews_not_found hid hf hd]
      | some dj =>
        right
        exact ⟨j, dj, hd, by rw [likeNews_found hid hf hd]⟩

theorem news_resource {name : String} (h : resourceModel name = some .News) :
    name = "news" := by
  have hmem := resourceModel_registered h
  have : ∀ r ∈ crudResources, r.1 = ModelName.News → r.2 = "news" := by decide
  exact this _ hmem rfl

/-- What a request does to a stored news item that is still stored after it:
the like counter is as it was, or the sum of it and 1, or the request is a PUT
of the news item whose payload names `likes`. -/
theorem handle_news_likes (env : Env) (st : Store) (req : Request) (i : Nat) (d d' : Doc)
    (hu : st.UniqueIds) (hd : findDoc (st.coll .News) i = some d)
    (hd' : findDoc ((handle env st req).coll .News) i = some d') :
    getField d'.fields "likes" = getField d.fields "likes" ∨
    getField d'.fields "likes"
      = some (.num (addOne (likesOrZero (getField d.fields "likes")))) ∨
    ∃ id body, req = .update "news" id body ∧ getField body "likes" ≠ none := by
  have same : ∀ {s : Store}, s.coll .News = st.coll .News →
      findDoc (s.coll .News) i = some d' →
      getField d'.fields "likes" = getField d.fields "likes" := by
    intro s hs h1
    rw [hs, hd] at h1
    cases h1
    rfl
  cases req with
  | getAll resource =>
    simp only [handle] at hd'
    cases hr : resourceModel resource with
    | none => rw [hr] at hd'; exact Or.inl (same rfl hd')
    | some M => rw [hr] at hd'; simp only [getAll_store] at hd'; exact Or.inl (same rfl hd')
  | getOne resource id =>
    simp only [handle] at hd'
    cases hr : resourceModel resource with
    | none => rw [hr] at hd'; exact Or.inl (same rfl hd')
    | some M => rw [hr] at hd'; simp only [getOne_store] at hd'; exact Or.inl (same rfl hd')
  | create resource body =>
    simp only [handle] at hd'
    cases hr : resourceModel resource with
    | none => rw [hr] at hd'; exact Or.inl (same rfl hd')
    | some M =>
      rw [hr] at hd'
      simp only at hd'
      rcases create_store_cases env st M body with h | ⟨x, h⟩
      · rw [h] at hd'; exact Or.inl (same rfl hd')
      · rw [h] at hd'
        by_cases hM : ModelName.News = M
        · subst hM
          rw [put_coll_self, findDoc_append_some [x] hd] at hd'
          cases hd'
          exact Or.inl rfl
        · exact Or.inl (same (put_coll_ne st _ hM) hd')
  | update resource id body =>
    simp only [handle] at hd'
    cases hr : resourceModel resource with
    | none => rw [hr] at hd'; exact Or.inl (same rfl hd')
    | some M =>
      rw [hr] at hd'
      simp only at hd'
      rcases update_cases env st M id body with ⟨msg, h⟩ | ⟨j, u, _, _, _, _, h⟩ |
        ⟨j, u, d0, _, hcast, _, hfind, h⟩
      · rw [h] at hd'; exact Or.inl (same rfl hd')
      · rw [h] at hd'; exact Or.inl (same rfl hd')
      · rw [h] at hd'
        by_cases hM : ModelName.News = M
        · subst hM
          rw [put_coll_self] at hd'
          by_cases hij : i = j
          · subst hij
            rw [replaceDoc_find _ _ d0 ⟨d0._id, applySet d0.fields u⟩ (findDoc_some hfind).2
              hfind] at hd'
            rw [hd] at hfind
            cases hfind
            cases hd'
            by_cases hb : getField body "likes" = none
            · left
              have hne : ("likes" : String) ≠ "updatedAt" := by decide
              have h1 : getField (setField body "updatedAt" (.date env.now)) "likes" = none := by
                rw [getField_setField_ne _ _ hne]
                exact hb
              exact applySet_absent _ _ (castUpdate_absent hcast h1)
            · right
              right
              exact ⟨id, body, by rw [news_resource hr], hb⟩
          · rw [replaceDoc_find_ne _ ⟨d0._id, applySet d0.fields u⟩ (findDoc_some hfind).2
              hij] at hd'
            exact Or.inl (same rfl hd')
        · exact Or.inl (same (put_coll_ne st _ hM) hd')
  | delete resource id =>
    simp only [handle] at hd'
    cases hr : resourceModel resource with
    | none => rw [hr] at hd'; exact Or.inl (same rfl hd')
    | some M =>
      rw [hr] at hd'
      simp only at hd'
      rcases delete_store_cases env st M id with h | ⟨j, _, h⟩
      · rw [h] at hd'; exact Or.inl (same rfl hd')
      · rw [h] at hd'
        by_cases hM : ModelName.News = M
        · subst hM
          rw [put_coll_self] at hd'
          by_cases hij : i = j
          · subst hij
            rw [findDoc_eraseP_of_nodup _ _ (hu .News)] at hd'
            cases hd'
          · rw [findDoc_eraseP_ne _ hij] at hd'
            exact Or.inl (same rfl hd')
        · exact Or.inl (same (put_coll_ne st _ hM) hd')
  | getSettings =>
    simp only [handle] at hd'
    exact Or.inl (same (getSettings_coll_ne env st .News (by decide)) hd')
  | putSettings body =>
    simp only [handle] at hd'
    exact Or.inl (same (putSettings_coll_ne env st body .News (by decide)) hd')
  | getPublicData =>
    simp only [handle, getPublicData_store] at hd'
    exact Or.inl (same rfl hd')
  | postUpload files => exact Or.inl (same rfl hd')
  | likeNews id =>
    simp only [handle] at hd'
    rcases likeNews_store_cases env st id with h | ⟨j, dj, hfind, h⟩
    · rw [h] at hd'; exact Or.inl (same rfl hd')
    · rw [h, put_coll_self] at hd'
      by_cases hij : i = j
      · subst hij
        rw [replaceDoc_find _ _ dj ⟨i, setField (Model.hydrate env .News dj).fields "likes"
          (.num (addOne (likesOrZero (getField dj.fields "likes"))))⟩ rfl hfind] at hd'
        rw [hd] at hfind
        cases hfind
        cases hd'
        right
        left
        exact getField_setField_self _ _ _
      · rw [replaceDoc_find_ne _ ⟨j, setField (Model.hydrate env .News dj).fields "likes"
          (.num (addOne (likesOrZero (getField dj.fields "likes"))))⟩ rfl hij] at hd'
        exact Or.inl (same rfl hd')
  | getStats =>
    simp only [handle, getStats_store] at hd'
    exact Or.inl (same rfl hd')
  | register body =>
    simp only [handle] at hd'
    exact Or.inl (same (register_coll_ne env st body .News (by decide)) hd')
  | login body =>
    simp only [handle, login_store] at hd'
    exact Or.inl (same rfl hd')

end Guit

namespace Guit

/-- C22 as stated fails: a PUT of a news item with five likes and the payload
`likes: 0` leaves the item in the store with a counter of 0. -/
theorem C22_counterexample_put_lowers_likes :
    findDoc (likedStore.coll .News) 1
      = some ⟨1, [("title", .str "Fair"), ("likes", .num 5), ("status", .str "published")]⟩ ∧
    findDoc ((handle env0 likedStore
        (.update "news" "000000000000000000000001" [("likes", .num 0)])).coll .News) 1
      = some ⟨1, [("title", .str "Fair"), ("likes", .num 0), ("status", .str "published"),
          ("updatedAt", .date 1000)]⟩ ∧
    likesOrZero (some (.num 0)) < likesOrZero (some (.num 5)) := by
  decide

/-- C22, amended: in a store with unique identifiers, every request to the
API other than a PUT of a news item whose payload names `likes` leaves the like
counter of every news item that is still stored after it as it was or one
higher; the counter (a missing one counting as 0) does not decrease. (The
counter is a double: one higher is the sum of the counter and 1, which is the
next number while the counter is below 2^53.) -/
theorem C22_likes_never_decrease (env : Env) (st : Store) (req : Request) (i : Nat)
    (d d' : Doc) (hu : st.UniqueIds)
    (hreq : ∀ id body, req = .update "news" id body → getField body "likes" = none)
    (hd : findDoc (st.coll .News) i = some d)
    (hd' : findDoc ((handle env st req).coll .News) i = some d') :
    likesOrZero (getField d.fields "likes") ≤ likesOrZero (getField d'.fields "likes") ∧
    (getField d'.fields "likes" = getField d.fields "likes" ∨
      getField d'.fields "likes"
        = some (.num (addOne (likesOrZero (getField d.fields "likes"))))) ∧
    (-(2 ^ 53 : Int) ≤ likesOrZero (getField d.fields "likes") →
      likesOrZero (getField d.fields "likes") < 2 ^ 53 →
      (getField d'.fields "likes" = getField d.fields "likes" ∨
        getField d'.fields "likes"
          = some (.num (likesOrZero (getField d.fields "likes") + 1)))) := by
  rcases handle_news_likes env st req i d d' hu hd hd' with h | h | ⟨id, body, h1, h2⟩
  · exact ⟨by rw [h], Or.inl h, fun _ _ => Or.inl h⟩
  · refine ⟨?_, Or.inr h, fun h1 h2 => Or.inr ?_⟩
    · rw [h]
      exact le_addOne _
    · rw [h, addOne_exact h1 h2]
  · exact absurd (hreq id body h1) h2

/-- The premises of C22 hold of a like of the stored news item with five
likes, which has six after it. -/
theorem C22_likes_never_decrease_witness :
    findDoc ((handle env0 likedStore (.likeNews "000000000000000000000001")).coll .News) 1
      = some ⟨1, [("title", .str "Fair"), ("likes", .num 6), ("status", .str "published"),
          ("mediaType", .str "image"), ("date", .date 1000), ("createdAt", .date 1000),
          ("updatedAt", .date 1000)]⟩ ∧
    likesOrZero (getField (Doc.mk 1 [("title", .str "Fair"), ("likes", .num 5),
        ("status", .str "published")]).fields "likes")
      ≤ likesOrZero (getField (Doc.mk 1 [("title", .str "Fair"), ("likes", .num 6),
        ("status", .str "published"), ("mediaType", .str "image"), ("date", .date 1000),
        ("createdAt", .date 1000), ("updatedAt", .date 1000)]).fields "likes") :=
  ⟨by decide,
    (C22_likes_never_decrease env0 likedStore (.likeNews "000000000000000000000001") 1
      ⟨1, [("title", .str "Fair"), ("likes", .num 5), ("status", .str "published")]⟩
      ⟨1, [("title", .str "Fair"), ("likes", .num 6), ("status", .str "published"),
        ("mediaType", .str "image"), ("date", .date 1000), ("createdAt", .date 1000),
        ("updatedAt", .date 1000)]⟩
      (fun M => by cases M <;> decide) (fun id body h => by cases h) (by decide)
      (by decide)).1⟩

end Guit

/-! ## The statistics -/

namespace Guit

theorem readCounts_healthy (env : Env) (st : Store) (rs : List CountRead)
    (h : ∀ r ∈ rs, env.fault r.model = none) :
    readCounts env st rs
      = .ok (rs.map (fun r =>
          (r.key, Value.num (((st.coll r.model).filter r.filter.test).length : Nat)))) := by
  induction rs with
  | nil => rfl
  | cons r rs ih =>
    have hr := h r (List.mem_cons_self r rs)
    have ih' := ih (fun x hx => h x (List.mem_cons_of_mem r hx))
    simp only [readCounts, Model.countDocuments, hr, ih', List.map_cons]

theorem readCounts_ok_healthy {env : Env} {st : Store} {rs : List CountRead} {out : Fields}
    (h : readCounts env st rs = .ok out) : ∀ r ∈ rs, env.fault r.model = none := by
  induction rs generalizing out with
  | nil => intro r hr; cases hr
  | cons r rs ih =>
    intro x hx
    simp only [readCounts, Model.countDocuments] at h
    cases hf : env.fault r.model with
    | some e => rw [hf] at h; simp at h
    | none =>
      rw [hf] at h
      simp only at h
      cases hrest : readCounts env st rs with
      | error e => rw [hrest] at h; simp at h
      | ok rest =>
        rcases List.mem_cons.mp hx with h1 | h1
        · rw [h1]; exact hf
        · exact ih hrest x h1

theorem getStats_ok {env : Env} {st : Store} (h : (getStats env st).2.status = 200) :
    getStats env st
      = (st, ⟨200, .object (statsCounts.map (fun r =>
          (r.key, Value.num (((st.coll r.model).filter r.filter.test).length : Nat))))⟩) := by
  unfold getStats at h ⊢
  cases hc : readCounts env st statsCounts with
  | error e => rw [hc] at h; simp at h
  | ok out =>
    rw [readCounts_healthy env st statsCounts (readCounts_ok_healthy hc)] at hc
    cases hc
    rfl

theorem filter_all (l : List Doc) : l.filter Filter.all.test = l := by
  simp [Filter.test]

end Guit

namespace Guit

/-- C23: a successful `GET /api/stats` reports for each listed collection the
number of its stored documents, as `unreadMessages` the number of messages
whose status is not `read` and as `publishedNews` the number of news items
whose status is `published`; so `unreadMessages ≤ messages` and
`publishedNews ≤ news` in every such response, and the store is left as it was. -/
theorem C23_stats_counts (env : Env) (st : Store) (h : (getStats env st).2.status = 200) :
    ∃ stats : Fields, getStats env st = (st, ⟨200, .object stats⟩) ∧
      (∀ r ∈ [("services", ModelName.Service), ("education", .Education),
          ("healthcare", .Healthcare), ("politicians", .Politician), ("news", .News),
          ("artists", .Artist), ("leaders", .Leader), ("students", .Student),
          ("users", .User), ("slides", .Slide), ("payams", .Payam), ("bomas", .Boma),
          ("sports", .Sport), ("military", .Military), ("history", .History),
          ("messages", .Message), ("commissioner", .Commissioner)],
        getField stats r.1 = some (.num ((st.coll r.2).length : Nat))) ∧
      getField stats "unreadMessages"
        = some (.num (((st.coll .Message).filter
            (fun d => getField d.fields "status" != some (.str "read"))).length : Nat)) ∧
      getField stats "publishedNews"
        = some (.num (((st.coll .News).filter
            (fun d => getField d.fields "status" == some (.str "published"))).length : Nat)) ∧
      (∀ u m : Int, getField stats "unreadMessages" = some (.num u) →
        getField stats "messages" = some (.num m) → u ≤ m) ∧
      (∀ p n : Int, getField stats "publishedNews" = some (.num p) →
        getField stats "news" = some (.num n) → p ≤ n) := by
  have hs : ("status" : String) ≠ "_id" := by decide
  have hun : (Filter.statusIsNot "read").test
      = fun d => getField d.fields "status" != some (.str "read") := by
    funext d
    simp only [Filter.test, getField_toObject_ne d hs]
    rfl
  have hpub : (Filter.statusIs "published").test
      = fun d => getField d.fields "status" == some (.str "published") := by
    funext d
    simp only [Filter.test, getField_toObject_ne d hs]
  have hm : getField (statsCounts.map (fun r =>
      (r.key, Value.num (((st.coll r.model).filter r.filter.test).length : Nat)))) "messages"
      = some (.num ((st.coll .Message).length : Nat)) := by
    simp [statsCounts, getField, filter_all]
  have hn : getField (statsCounts.map (fun r =>
      (r.key, Value.num (((st.coll r.model).filter r.filter.test).length : Nat)))) "news"
      = some (.num ((st.coll .News).length : Nat)) := by
    simp [statsCounts, getField, filter_all]
  have hu : getField (statsCounts.map (fun r =>
      (r.key, Value.num (((st.coll r.model).filter r.filter.test).length : Nat))))
        "unreadMessages"
      = some (.num (((st.coll .Message).filter
            (fun d => getField d.fields "status" != some (.str "read"))).length : Nat)) := by
    rw [← hun]
    simp [statsCounts, getField]
  have hp : getField (statsCounts.map (fun r =>
      (r.key, Value.num (((st.coll r.model).filter r.filter.test).length : Nat))))
        "publishedNews"
      = some (.num (((st.coll .News).filter
            (fun d => getField d.fields "status" == some (.str "published"))).length : Nat)) := by
    rw [← hpub]
    simp [statsCounts, getField]
  refine ⟨_, getStats_ok h, ?_, hu, hp, ?_, ?_⟩
  · intro r hr
    simp only [List.mem_cons, List.mem_singleton, List.not_mem_nil, or_false] at hr
    rcases hr with h1 | h1 | h1 | h1 | h1 | h1 | h1 | h1 | h1 | h1 | h1 | h1 | h1 | h1 | h1 |
      h1 | h1 <;> subst h1 <;> simp [statsCounts, getField, filter_all]
  · intro u m h1 h2
    rw [hu] at h1
    rw [hm] at h2
    cases h1
    cases h2
    exact_mod_cast List.length_filter_le _ _
  · intro p n h1 h2
    rw [hp] at h1
    rw [hn] at h2
    cases h1
    cases h2
    exact_mod_cast List.length_filter_le _ _

end Guit

namespace Guit

/-- The premise of C23 holds of a store with three messages and two news
items: two messages are unread, one news item is published. -/
theorem C23_stats_counts_witness :
    (getStats env0 mailStore).2.status = 200 ∧
    (∃ stats : Fields, getStats env0 mailStore = (mailStore, ⟨200, .object stats⟩) ∧
      (∀ r ∈ [("services", ModelName.Service), ("education", .Education),
          ("healthcare", .Healthcare), ("politicians", .Politician), ("news", .News),
          ("artists", .Artist), ("leaders", .Leader), ("students", .Student),
          ("users", .User), ("slides", .Slide), ("payams", .Payam), ("bomas", .Boma),
          ("sports", .Sport), ("military", .Military), ("history", .History),
          ("messages", .Message), ("commissioner", .Commissioner)],
        getField stats r.1 = some (.num ((mailStore.coll r.2).length : Nat))) ∧
      getField stats "unreadMessages"
        = some (.num (((mailStore.coll .Message).filter
            (fun d => getField d.fields "status" != some (.str "read"))).length : Nat)) ∧
      getField stats "publishedNews"
        = some (.num (((mailStore.coll .News).filter
            (fun d => getField d.fields "status" == some (.str "published"))).length : Nat)) ∧
      (∀ u m : Int, getField stats "unreadMessages" = some (.num u) →
        getField stats "messages" = some (.num m) → u ≤ m) ∧
      (∀ p n : Int, getField stats "publishedNews" = some (.num p) →
        getField stats "news" = some (.num n) → p ≤ n)) ∧
    (getStats env0 mailStore).2.body
      = .object [("services", .num 0), ("education", .num 0), ("healthcare", .num 0),
          ("politicians", .num 0), ("news", .num 2), ("artists", .num 0),
          ("leaders", .num 0), ("students", .num 0), ("users", .num 0), ("slides", .num 0),
          ("payams", .num 0), ("bomas", .num 0), ("sports", .num 0), ("military", .num 0),
          ("history", .num 0), ("messages", .num 3), ("commissioner", .num 0),
          ("unreadMessages", .num 2), ("publishedNews", .num 1)] :=
  ⟨by decide, C23_stats_counts env0 mailStore (by decide), by decide⟩

end Guit

/-! ## Registration and login -/

namespace Guit

theorem getField_pickFields (body : Fields) (keys : List String) (k : String) :
    getField (pickFields body keys) k = if k ∈ keys then getField body k else none := by
  induction keys with
  | nil => rfl
  | cons k0 ks ih =>
    unfold pickFields at ih ⊢
    simp only [List.filterMap_cons]
    cases hb : getField body k0 with
    | none =>
      simp only [Option.map_none']
      rw [ih]
      by_cases hk : k = k0
      · subst hk
        by_cases hmem : k ∈ ks
        · simp [hmem]
        · simp [hmem, hb]
      · simp [hk]
    | some v =>
      simp only [Option.map_some']
      by_cases hk : k = k0
      · subst hk
        simp [getField_cons_self, hb]
      · rw [getField_cons_ne _ _ (Ne.symm hk), ih]
        simp [hk]

/-- The object the registration passes to `new User`. -/
theorem register_created {env : Env} {st : Store} {body : Fields}
    (h : (register env st body).2.status = 201) :
    ∃ email d, getField body "email" = some (.str email) ∧ env.fault .User = none ∧
      (st.coll .User).filter (Filter.fieldIs "email" (.str email)).test = [] ∧
      Model.new env .User (("username", .str (emailLocalPart email)) ::
        pickFields body ["email", "password", "firstName", "lastName", "phone",
          "gender", "location"]) = .ok d ∧
      failedRequired .User d.fields = none ∧
      duplicateKey .User (st.coll .User) d = false ∧
      register env st body
        = (st.put .User (st.coll .User ++ [d]),
            ⟨201, successBody true "Registration successful"⟩) := by
  unfold register at h ⊢
  cases hq : castString "email" ((getField body "email").getD .null) with
  | error msg => rw [hq] at h; simp at h
  | ok q =>
    rw [hq] at h
    simp only at h ⊢
    cases hfo : Model.findOne env st .User (.fieldIs "email" q) .natural with
    | error msg => rw [hfo] at h; simp at h
    | ok found =>
      rw [hfo] at h
      cases found with
      | some x => simp at h
      | none =>
        simp only at h ⊢
        cases hb : getField body "email" with
        | none => rw [hb] at h; simp at h
        | some v =>
          rw [hb] at h
          cases v with
          | str email =>
            simp only at h ⊢
            cases hs : Model.save env st .User (Model.new env .User
                (("username", .str (emailLocalPart email)) ::
                  pickFields body ["email", "password", "firstName", "lastName", "phone",
                    "gender", "location"])) with
            | error msg => rw [hs] at h; simp at h
            | ok out =>
              obtain ⟨st1, d⟩ := out
              obtain ⟨hnew, hreq, hf, hdup, hst⟩ := save_ok hs
              subst hst
              refine ⟨email, d, rfl, hf, ?_, hnew, hreq, hdup, rfl⟩
              rw [hb] at hq
              simp only [Option.getD_some, castString] at hq
              cases hq
              simp only [Model.findOne, hf, SortSpec.apply] at hfo
              cases hl : (st.coll .User).filter (Filter.fieldIs "email" (.str email)).test with
              | nil => rfl
              | cons a l => rw [hl] at hfo; simp at hfo
          | null => simp at h
          | bool b => simp at h
          | num n => simp at h
          | date t => simp at h
          | oid n => simp at h

end Guit

namespace Guit

theorem failedRequired_none {M : ModelName} {o : Fields} (h : failedRequired M o = none)
    {p : SchemaPath} (hp : p ∈ M.schema) : requiredOk p o = true := by
  unfold failedRequired at h
  rw [List.find?_eq_none] at h
  simpa using h p hp

/-- The fields of a user the registration stores. -/
theorem registered_fields {env : Env} {body : Fields} {email : String} {d : Doc}
    (hemail : getField body "email" = some (.str email))
    (hnew : Model.new env .User (("username", .str (emailLocalPart email)) ::
        pickFields body ["email", "password", "firstName", "lastName", "phone",
          "gender", "location"]) = .ok d)
    (hreq : failedRequired .User d.fields = none) :
    getField d.fields "username" = some (.str (emailLocalPart email)) ∧
    getField d.fields "email" = some (.str email) ∧
    getField d.fields "role" = some (.str "admin") ∧
    getField d.fields "status" = some (.str "active") ∧
    ∀ p, getField body "password" = some p →
      ∃ c, castString "password" p = .ok c ∧ c ≠ .null ∧
        getField d.fields "password" = some c := by
  obtain ⟨hcast, hdflt, _⟩ :=
    buildFields_spec (new_ok hnew).1 (paths_names_nodup .User)
  have hne : ∀ k : String, k ≠ "username" →
      getField ((("username", Value.str (emailLocalPart email)) ::
        pickFields body ["email", "password", "firstName", "lastName", "phone",
          "gender", "location"]) : Fields) k
      = if k ∈ ["email", "password", "firstName", "lastName", "phone", "gender", "location"]
        then getField body k else none := by
    intro k hk
    rw [getField_cons_ne _ _ (Ne.symm hk), getField_pickFields]
  refine ⟨?_, ?_, ?_, ?_, ?_⟩
  · obtain ⟨c, hc, hg⟩ := hcast ⟨"username", .string, false, true, true, .absent⟩
      (by decide) _ (getField_cons_self _ _ _)
    cases hc
    exact hg
  · have hb := hne "email" (by decide)
    rw [if_pos (by decide), hemail] at hb
    obtain ⟨c, hc, hg⟩ := hcast ⟨"email", .string, true, true, false, .absent⟩
      (by decide) _ hb
    cases hc
    exact hg
  · have hb := hne "role" (by decide)
    rw [if_neg (by decide)] at hb
    exact hdflt (pStringD "role" "admin") (by decide) hb
  · have hb := hne "status" (by decide)
    rw [if_neg (by decide)] at hb
    exact hdflt (pStringD "status" "active") (by decide) hb
  · intro p hp
    have hb := hne "password" (by decide)
    rw [if_pos (by decide), hp] at hb
    obtain ⟨c, hc, hg⟩ := hcast ⟨"password", .string, true, false, false, .absent⟩
      (by decide) _ hb
    refine ⟨c, hc, ?_, hg⟩
    have hok := @failedRequired_none .User d.fields hreq
      ⟨"password", .string, true, false, false, .absent⟩ (by decide)
    intro hnull
    rw [hnull] at hg
    simp [requiredOk, hg] at hok

/-- The filter of the login query. -/
theorem login_eq (env : Env) (st : Store) (lbody : Fields) (u c : Value)
    (hf : env.fault .User = none)
    (hu : castString "username" ((getField lbody "username").getD .null) = .ok u)
    (hc : castString "password" ((getField lbody "password").getD .null) = .ok c) :
    (login env st lbody).2 =
      match ((st.coll .User).filter
          (Filter.both (.either (.fieldIs "username" u) (.fieldIs "email" u))
            (.fieldIs "password" c)).test).head? with
      | some user =>
        ⟨200, [("success", .scalar (.bool true)),
          ("user", .record (userSummary (Model.hydrate env .User user)))]⟩
      | none =>
        ⟨401, [("success", .scalar (.bool false)),
          ("message", .scalar (.str "Invalid credentials"))]⟩ := by
  unfold login
  simp only [hu, hc, Model.findOne, hf, SortSpec.apply]
  cases ((st.coll .User).filter
          (Filter.both (.either (.fieldIs "username" u) (.fieldIs "email" u))
            (.fieldIs "password" c)).test).head? <;> rfl

end Guit

namespace Guit

theorem queryMatches_iff {v : Value} (hv : v ≠ .null) (stored : Option Value) :
    queryMatches v stored = true ↔ stored = some v := by
  simp [queryMatches, hv]

theorem login_test_iff (s : String) {c : Value} (hc : c ≠ .null) (x : Doc) :
    (Filter.both (.either (.fieldIs "username" (.str s)) (.fieldIs "email" (.str s)))
        (.fieldIs "password" c)).test x = true ↔
      (getField x.fields "username" = some (.str s) ∨
        getField x.fields "email" = some (.str s)) ∧
      getField x.fields "password" = some c := by
  have h1 : ("username" : String) ≠ "_id" := by decide
  have h2 : ("email" : String) ≠ "_id" := by decide
  have h3 : ("password" : String) ≠ "_id" := by decide
  simp only [Filter.test, getField_toObject_ne x h1, getField_toObject_ne x h2,
    getField_toObject_ne x h3, Bool.and_eq_true, Bool.or_eq_true,
    queryMatches_iff (show Value.str s ≠ .null by simp), queryMatches_iff hc]

theorem head?_filter_append_singleton (f : Doc → Bool) (l : List Doc) (d : Doc)
    (hd : f d = true) :
    ((l ++ [d]).filter f).head? = some (((l.filter f).head?).getD d) := by
  rw [List.filter_append]
  cases hl : l.filter f with
  | nil => simp [hd]
  | cons a rest => simp

end Guit

namespace Guit

theorem userSummary_fields (d : Doc) (r : Value) (hr : getField d.fields "role" = some r) :
    getField (userSummary d) "role" = some r ∧
    getField (userSummary d) "id" = some (.oid d._id) ∧
    ∀ s : String, s ≠ "" → getField d.fields "username" = some (.str s) →
      getField (userSummary d) "username" = some (.str s) := by
  unfold userSummary
  rw [hr]
  refine ⟨?_, ?_, ?_⟩
  · cases (if truthy (getField d.fields "username") then getField d.fields "username"
      else getField d.fields "firstName") <;> simp [optionalField, getField]
  · cases (if truthy (getField d.fields "username") then getField d.fields "username"
      else getField d.fields "firstName") <;> simp [optionalField, getField]
  · intro s hs hu
    rw [hu]
    simp [truthy, hs, optionalField, getField]

end Guit

namespace Guit

/-- C24 as stated fails: a user with the username `y@b.com`, the e-mail
address `zed@b.com` and the password `p` is stored; the registration of the
e-mail address `y@b.com` with the password `p` succeeds and stores a user with
the username `y`; the login with the name `y@b.com` and the password `p` then
answers with the earlier user (identifier 7), whose username is that name,
not with the registered one (identifier 8). -/
theorem C24_counterexample_earlier_user_answers :
    zedStore.coll .User
      = [⟨7, [("username", .str "y@b.com"), ("email", .str "zed@b.com"),
          ("password", .str "p"), ("role", .str "admin"), ("status", .str "active"),
          ("createdAt", .date 1000), ("updatedAt", .date 1000), ("__v", .num 0)]⟩] ∧
    (register env8 zedStore ybBody).2
      = ⟨201, successBody true "Registration successful"⟩ ∧
    ((register env8 zedStore ybBody).1.coll .User).map
        (fun d => (d._id, getField d.fields "username", getField d.fields "email"))
      = [(7, some (.str "y@b.com"), some (.str "zed@b.com")),
         (8, some (.str "y"), some (.str "y@b.com"))] ∧
    (login env0 (register env8 zedStore ybBody).1
        [("username", .str "y@b.com"), ("password", .str "p")]).2
      = ⟨200, [("success", .scalar (.bool true)),
          ("user", .record [("username", .str "y@b.com"), ("role", .str "admin"),
            ("id", .oid 7)])]⟩ := by
  decide

/-- C24, amended. After a registration that succeeded for the e-mail address
`e` with the password `p`, a login that meets no store failure, with the
password `p` and with `e` or the part of `e` before the first `@` as the
username, succeeds; it answers with the first stored user whose username or
e-mail address is the given name and whose password is `p`, as it is loaded,
which is the registered user when no user stored before has that name and
password: then
the answer holds that user's role `admin` and identifier, and its username
when the part before the `@` is not empty. A registration with an e-mail
address some stored user has is answered 400 with `Email already registered`
and leaves the store as it was, when the store does not fail. -/
theorem C24_register_then_login :
    (∀ (env env2 : Env) (st : Store) (body lbody : Fields) (email s : String) (p : Value),
      (register env st body).2.status = 201 →
      getField body "email" = some (.str email) →
      getField body "password" = some p →
      getField lbody "username" = some (.str s) →
      (s = email ∨ s = emailLocalPart email) →
      getField lbody "password" = some p →
      env2.fault .User = none →
      ∃ (d : Doc) (c : Value),
        (register env st body).1.coll .User = st.coll .User ++ [d] ∧
        getField d.fields "username" = some (.str (emailLocalPart email)) ∧
        getField d.fields "email" = some (.str email) ∧
        getField d.fields "password" = some c ∧
        castString "password" p = .ok c ∧
        (∃ user ∈ (register env st body).1.coll .User,
          (login env2 (register env st body).1 lbody).2
            = ⟨200, [("success", .scalar (.bool true)),
                ("user", .record (userSummary (Model.hydrate env2 .User user)))]⟩ ∧
          (getField user.fields "username" = some (.str s) ∨
            getField user.fields "email" = some (.str s)) ∧
          getField user.fields "password" = some c) ∧
        ((∀ x ∈ st.coll .User,
            ¬ ((getField x.fields "username" = some (.str s) ∨
                getField x.fields "email" = some (.str s)) ∧
              getField x.fields "password" = some c)) →
          (login env2 (register env st body).1 lbody).2
            = ⟨200, [("success", .scalar (.bool true)),
                ("user", .record (userSummary d))]⟩) ∧
        getField (userSummary d) "role" = some (.str "admin") ∧
        getField (userSummary d) "id" = some (.oid d._id) ∧
        (emailLocalPart email ≠ "" →
          getField (userSummary d) "username" = some (.str (emailLocalPart email)))) ∧
    (∀ (env : Env) (st : Store) (body : Fields) (email : String),
      env.fault .User = none →
      getField body "email" = some (.str email) →
      (∃ x ∈ st.coll .User, getField x.fields "email" = some (.str email)) →
      register env st body = (st, ⟨400, successBody false "Email already registered"⟩)) := by
  constructor
  · intro env env2 st body lbody email s p hreg hemail hp hlu hs hlp hf
    obtain ⟨email1, d, hemail1, _, _, hnew, hreq, _, hst⟩ := register_created hreg
    rw [hemail] at hemail1
    cases hemail1
    obtain ⟨hdu, hde, hdr, _, hdp⟩ := registered_fields hemail hnew hreq
    obtain ⟨c, hc, hcn, hdc⟩ := hdp p hp
    have hcoll : (register env st body).1.coll .User = st.coll .User ++ [d] := by
      rw [hst, put_coll_self]
    have hsum := userSummary_fields d _ hdr
    have hmatch : (Filter.both (.either (.fieldIs "username" (.str s))
        (.fieldIs "email" (.str s))) (.fieldIs "password" c)).test d = true := by
      rw [login_test_iff s hcn]
      refine ⟨?_, hdc⟩
      rcases hs with h1 | h1
      · right; rw [h1]; exact hde
      · left; rw [h1]; exact hdu
    have hlogin := login_eq env2 (register env st body).1 lbody (.str s) c hf
      (by rw [hlu]; rfl) (by rw [hlp]; exact hc)
    rw [hcoll, head?_filter_append_singleton _ _ _ hmatch] at hlogin
    simp only at hlogin
    have hdc2 : Model.hydrate env2 .User d = d :=
      hydrate_complete env2 .User d (new_complete hnew)
    refine ⟨d, c, hcoll, hdu, hde, hdc, hc, ?_, ?_, hsum.1, hsum.2.1, ?_⟩
    · cases hl : (st.coll .User).filter (Filter.both (.either (.fieldIs "username" (.str s))
          (.fieldIs "email" (.str s))) (.fieldIs "password" c)).test with
      | nil =>
        rw [hl] at hlogin
        refine ⟨d, by rw [hcoll]; simp, hlogin, ?_⟩
        exact (login_test_iff s hcn d).mp hmatch
      | cons a rest =>
        rw [hl] at hlogin
        have ha : a ∈ (st.coll .User).filter (Filter.both (.either (.fieldIs "username" (.str s))
          (.fieldIs "email" (.str s))) (.fieldIs "password" c)).test := by
          rw [hl]; exact List.mem_cons_self a rest
        obtain ⟨ha1, ha2⟩ := List.mem_filter.mp ha
        refine ⟨a, by rw [hcoll]; exact List.mem_append_left _ ha1, hlogin, ?_⟩
        exact (login_test_iff s hcn a).mp ha2
    · intro hnone
      have hl : (st.coll .User).filter (Filter.both (.either (.fieldIs "username" (.str s))
          (.fieldIs "email" (.str s))) (.fieldIs "password" c)).test = [] := by
        rw [List.filter_eq_nil_iff]
        intro x hx hx2
        exact hnone x hx ((login_test_iff s hcn x).mp hx2)
      rw [hl] at hlogin
      simp only [List.head?_nil, Option.getD_none, hdc2] at hlogin
      exact hlogin
    · intro hne
      exact hsum.2.2 _ hne hdu
  · intro env st body email hf hemail hex
    obtain ⟨x, hx, hxe⟩ := hex
    have hmem : x ∈ (st.coll .User).filter (Filter.fieldIs "email" (.str email)).test := by
      rw [List.mem_filter]
      refine ⟨hx, ?_⟩
      simp only [Filter.test, getField_toObject_ne x (show ("email" : String) ≠ "_id" by decide)]
      rw [queryMatches_iff (by simp)]
      exact hxe
    unfold register
    simp only [hemail, Option.getD_some, castString, Model.findOne, hf, SortSpec.apply]
    cases hl : (st.coll .User).filter (Filter.fieldIs "email" (.str email)).test with
    | nil => rw [hl] at hmem; cases hmem
    | cons a rest => rfl

end Guit

namespace Guit

/-- The premises of C24 hold of the registration of `y@b.com` in the empty
store: the login with the name `y` answers with the registered user, and a
second registration of the address is refused. -/
theorem C24_register_then_login_witness :
    (register env8 emptyStore ybBody).2.status = 201 ∧
    (login env0 (register env8 emptyStore ybBody).1 yLogin).2
      = ⟨200, [("success", .scalar (.bool true)),
          ("user", .record [("username", .str "y"), ("role", .str "admin"),
            ("id", .oid 8)])]⟩ ∧
    (∃ (d : Doc) (c : Value),
        (register env8 emptyStore ybBody).1.coll .User = emptyStore.coll .User ++ [d] ∧
        getField d.fields "username" = some (.str (emailLocalPart "y@b.com")) ∧
        getField d.fields "email" = some (.str "y@b.com") ∧
        getField d.fields "password" = some c ∧
        castString "password" (.str "p") = .ok c ∧
        (∃ user ∈ (register env8 emptyStore ybBody).1.coll .User,
          (login env0 (register env8 emptyStore ybBody).1 yLogin).2
            = ⟨200, [("success", .scalar (.bool true)),
                ("user", .record (userSummary (Model.hydrate env0 .User user)))]⟩ ∧
          (getField user.fields "username" = some (.str "y") ∨
            getField user.fields "email" = some (.str "y")) ∧
          getField user.fields "password" = some c) ∧
        ((∀ x ∈ emptyStore.coll .User,
            ¬ ((getField x.fields "username" = some (.str "y") ∨
                getField x.fields "email" = some (.str "y")) ∧
              getField x.fields "password" = some c)) →
          (login env0 (register env8 emptyStore ybBody).1 yLogin).2
            = ⟨200, [("success", .scalar (.bool true)),
                ("user", .record (userSummary d))]⟩) ∧
        getField (userSummary d) "role" = some (.str "admin") ∧
        getField (userSummary d) "id" = some (.oid d._id) ∧
        (emailLocalPart "y@b.com" ≠ "" →
          getField (userSummary d) "username"
            = some (.str (emailLocalPart "y@b.com")))) ∧
    register env0 (register env8 emptyStore ybBody).1 ybBody
      = ((register env8 emptyStore ybBody).1,
          ⟨400, successBody false "Email already registered"⟩) :=
  ⟨by decide, by decide,
    C24_register_then_login.1 env8 env0 emptyStore ybBody yLogin "y@b.com" "y" (.str "p")
      (by decide) rfl rfl rfl (Or.inr (by decide)) rfl rfl,
    C24_register_then_login.2 env0 (register env8 emptyStore ybBody).1 ybBody "y@b.com"
      rfl rfl
      ⟨⟨8, [("username", .str "y"), ("email", .str "y@b.com"), ("password", .str "p"),
          ("role", .str "admin"), ("status", .str "active"), ("createdAt", .date 1000),
          ("updatedAt", .date 1000), ("__v", .num 0)]⟩, by decide, by decide⟩⟩

end Guit

/-! ## The default administrator -/

namespace Guit

theorem seedAdmin_new (env : Env) :
    Model.new env .User seedAdminBody
      = .ok (seedAdminDoc env) := by
  rfl

theorem admin_filter (x : Doc) :
    (Filter.fieldIs "role" (.str "admin")).test x = true ↔
      getField x.fields "role" = some (.str "admin") := by
  simp only [Filter.test, getField_toObject_ne x (show ("role" : String) ≠ "_id" by decide)]
  simp [queryMatches]

theorem seedAdmin_admin_exists (env : Env) (st : Store)
    (h : ∃ x ∈ st.coll .User, getField x.fields "role" = some (.str "admin")) :
    seedAdmin env st = st := by
  obtain ⟨x, hx, hr⟩ := h
  unfold seedAdmin Model.countDocuments
  cases env.fault .User with
  | some e => rfl
  | none =>
    have hmem : x ∈ (st.coll .User).filter (Filter.fieldIs "role" (.str "admin")).test :=
      List.mem_filter.mpr ⟨hx, (admin_filter x).mpr hr⟩
    have hne : ((st.coll .User).filter (Filter.fieldIs "role" (.str "admin")).test).length ≠ 0 := by
      intro h0
      rw [List.length_eq_zero] at h0
      rw [h0] at hmem
      cases hmem
    simp only [if_neg hne]

theorem seedAdmin_fault (env : Env) (st : Store) (h : env.fault .User ≠ none) :
    seedAdmin env st = st := by
  unfold seedAdmin Model.countDocuments
  cases hf : env.fault .User with
  | some e => rfl
  | none => exact absurd hf h

theorem indexKey_eq_iff (p : SchemaPath) (e : Doc) {v : Value} (hv : v ≠ .null) :
    indexKey p e = some v ↔ getField e.fields p.name = some v := by
  unfold indexKey
  cases getField e.fields p.name with
  | some w => simp
  | none =>
    cases p.sparse
    · simp [Ne.symm hv]
    · simp

theorem user_duplicateKey (others : List Doc) (d : Doc) :
    duplicateKey .User others d =
      (others.any (fun e => e._id == d._id) ||
        ((match indexKey ⟨"username", .string, false, true, true, .absent⟩ d with
          | none => false
          | some v => others.any (fun e =>
              indexKey ⟨"username", .string, false, true, true, .absent⟩ e == some v)) ||
         (match indexKey ⟨"email", .string, true, true, false, .absent⟩ d with
          | none => false
          | some v => others.any (fun e =>
              indexKey ⟨"email", .string, true, true, false, .absent⟩ e == some v)))) := by
  simp only [duplicateKey, ModelName.schema, userSchema, pString, pStringD, pDateNow,
    List.any_cons, List.any_nil, Bool.true_and, Bool.false_and, Bool.false_or,
    Bool.or_false]
  try rfl

theorem seed_duplicate (env : Env) (others : List Doc) :
    duplicateKey .User others (seedAdminDoc env) = false ↔
      ∀ x ∈ others, x._id ≠ env.newId ∧ getField x.fields "username" ≠ some (.str "admin") ∧
        getField x.fields "email" ≠ some (.str "admin@guitcounty.gov") := by
  rw [user_duplicateKey]
  have h1 : indexKey ⟨"username", .string, false, true, true, .absent⟩
      (seedAdminDoc env) = some (.str "admin") := rfl
  have h2 : indexKey ⟨"email", .string, true, true, false, .absent⟩
      (seedAdminDoc env)
      = some (.str "admin@guitcounty.gov") := rfl
  rw [h1, h2]
  simp only [Bool.or_eq_false_iff, List.any_eq_false, beq_iff_eq,
    indexKey_eq_iff _ _ (show Value.str "admin" ≠ .null by simp),
    indexKey_eq_iff _ _ (show Value.str "admin@guitcounty.gov" ≠ .null by simp)]
  constructor
  · rintro ⟨h3, h4, h5⟩ x hx
    exact ⟨h3 x hx, h4 x hx, h5 x hx⟩
  · intro h
    exact ⟨fun x hx => (h x hx).1, fun x hx => (h x hx).2.1, fun x hx => (h x hx).2.2⟩

theorem seedAdmin_no_admin (env : Env) (st : Store)
    (h : ∀ x ∈ st.coll .User, getField x.fields "role" ≠ some (.str "admin"))
    (hf : env.fault .User = none) :
    seedAdmin env st
      = if duplicateKey .User (st.coll .User) (seedAdminDoc env) then st
        else st.put .User (st.coll .User ++ [seedAdminDoc env]) := by
  have hnil : (st.coll .User).filter (Filter.fieldIs "role" (.str "admin")).test = [] := by
    rw [List.filter_eq_nil_iff]
    intro x hx hx2
    exact h x hx ((admin_filter x).mp hx2)
  have hreq : failedRequired .User (seedAdminDoc env).fields = none := rfl
  unfold seedAdmin Model.countDocuments
  simp only [hf, hnil, List.length_nil, if_true, seedAdmin_new, Model.save, hreq]
  cases duplicateKey .User (st.coll .User) (seedAdminDoc env) <;> rfl

end Guit

namespace Guit

theorem seedAdmin_twice (env env2 : Env) (st : Store) (hf : env.fault .User = none)
    (hfresh : ∀ x ∈ st.coll .User, x._id ≠ env.newId) :
    seedAdmin env2 (seedAdmin env st) = seedAdmin env st := by
  by_cases hadmin : ∃ x ∈ st.coll .User, getField x.fields "role" = some (.str "admin")
  · rw [seedAdmin_admin_exists env st hadmin, seedAdmin_admin_exists env2 st hadmin]
  · have hno : ∀ x ∈ st.coll .User, getField x.fields "role" ≠ some (.str "admin") :=
      fun x hx hr => hadmin ⟨x, hx, hr⟩
    rw [seedAdmin_no_admin env st hno hf]
    cases hdup : duplicateKey .User (st.coll .User) (seedAdminDoc env) with
    | false =>
      simp only [Bool.false_eq_true, if_false]
      apply seedAdmin_admin_exists
      refine ⟨seedAdminDoc env, ?_, rfl⟩
      rw [put_coll_self]
      simp
    | true =>
      simp only [if_true]
      cases hf2 : env2.fault .User with
      | some e => exact seedAdmin_fault env2 st (by simp [hf2])
      | none =>
        rw [seedAdmin_no_admin env2 st hno hf2]
        have hdup2 : duplicateKey .User (st.coll .User) (seedAdminDoc env2) = true := by
          cases h2 : duplicateKey .User (st.coll .User) (seedAdminDoc env2) with
          | true => rfl
          | false =>
            have hall := (seed_duplicate env2 _).mp h2
            have : duplicateKey .User (st.coll .User) (seedAdminDoc env) = false :=
              (seed_duplicate env _).mpr
                (fun x hx => ⟨hfresh x hx, (hall x hx).2.1, (hall x hx).2.2⟩)
            rw [this] at hdup
            cases hdup
        simp only [hdup2, if_true]

/-- What `seedAdmin` does. When a stored user has the role `admin`, it leaves
the store as it was. When none has, it stores the default administrator
(username `admin`, role `admin`) if the store does not fail and no stored user
has the identifier, the username `admin` or the e-mail address
`admin@guitcounty.gov` of the new account, and leaves the store as it was if
not. A second run after a run that met no store failure and drew a fresh
identifier leaves the store as the first run left it. -/
theorem seedAdmin_cases (env : Env) (st : Store) :
    ((∃ x ∈ st.coll .User, getField x.fields "role" = some (.str "admin")) →
      seedAdmin env st = st) ∧
    ((∀ x ∈ st.coll .User, getField x.fields "role" ≠ some (.str "admin")) →
      ((env.fault .User = none ∧
          ∀ x ∈ st.coll .User, x._id ≠ env.newId ∧
            getField x.fields "username" ≠ some (.str "admin") ∧
            getField x.fields "email" ≠ some (.str "admin@guitcounty.gov")) →
        ∃ d : Doc, seedAdmin env st = st.put .User (st.coll .User ++ [d]) ∧
          d._id = env.newId ∧ getField d.fields "username" = some (.str "admin") ∧
          getField d.fields "role" = some (.str "admin")) ∧
      (¬ (env.fault .User = none ∧
          ∀ x ∈ st.coll .User, x._id ≠ env.newId ∧
            getField x.fields "username" ≠ some (.str "admin") ∧
            getField x.fields "email" ≠ some (.str "admin@guitcounty.gov")) →
        seedAdmin env st = st)) ∧
    (∀ env2 : Env, env.fault .User = none → (∀ x ∈ st.coll .User, x._id ≠ env.newId) →
      seedAdmin env2 (seedAdmin env st) = seedAdmin env st) := by
  refine ⟨seedAdmin_admin_exists env st, ?_, ?_⟩
  · intro hno
    constructor
    · rintro ⟨hf, hall⟩
      refine ⟨seedAdminDoc env, ?_, rfl, rfl, rfl⟩
      rw [seedAdmin_no_admin env st hno hf, (seed_duplicate env _).mpr hall]
      simp
    · intro hnot
      cases hf : env.fault .User with
      | some e => exact seedAdmin_fault env st (by simp [hf])
      | none =>
        rw [seedAdmin_no_admin env st hno hf]
        cases hdup : duplicateKey .User (st.coll .User) (seedAdminDoc env) with
        | true => simp
        | false => exact absurd ⟨hf, (seed_duplicate env _).mp hdup⟩ hnot
  · intro env2 hf hfresh
    exact seedAdmin_twice env env2 st hf hfresh

/-- In the empty store the first run of `seedAdmin` stores the default
administrator and the second run changes nothing. -/
theorem seedAdmin_empty_store :
    (seedAdmin env0 emptyStore).coll .User = [seedAdminDoc env0] ∧
    (seedAdmin env8 (seedAdmin env0 emptyStore)).coll .User = [seedAdminDoc env0] ∧
    seedAdmin env8 (seedAdmin env0 emptyStore) = seedAdmin env0 emptyStore :=
  ⟨by decide, by decide,
    (seedAdmin_cases env0 emptyStore).2.2 env8 rfl (fun x hx => by cases hx)⟩

/-- C25, at the failing input: the store holds no user with the role `admin`,
but a user with the username `admin` and the role `editor`. `seedAdmin`, which
is to create the default admin if none exists, creates no account: the insert
breaks the unique index of the usernames and the error is dropped, so the store
still holds no user with the role `admin` after the run. -/
theorem C25_seedAdmin_username_taken :
    (editorStore.coll .User).map
        (fun d => (d._id, getField d.fields "username", getField d.fields "role"))
      = [(7, some (.str "admin"), some (.str "editor"))] ∧
    (∀ x ∈ editorStore.coll .User, getField x.fields "role" ≠ some (.str "admin")) ∧
    Model.countDocuments env8 editorStore .User (.fieldIs "role" (.str "admin")) = .ok 0 ∧
    Model.save env8 editorStore .User (Model.new env8 .User seedAdminBody)
      = .error "E11000 duplicate key error" ∧
    (seedAdmin env8 editorStore).coll .User = editorStore.coll .User ∧
    (∀ x ∈ (seedAdmin env8 editorStore).coll .User,
      getField x.fields "role" ≠ some (.str "admin")) := by
  refine ⟨by decide, by decide, rfl, rfl, by decide, by decide⟩

end Guit

/-! ## The commissioner in the public data -/

namespace Guit

theorem healthy_commissioner (env : Env) (st : Store)
    (h : ∀ M ∈ publicModels, env.fault M = none) :
    (getPublicData env st).2.item "commissioner"
      = some (Item.doc ((sortDesc "updatedAt" (st.coll .Commissioner)).head?.map
          (fun d => (Model.hydrate env .Commissioner d).toObject))) := by
  rw [getPublicData_healthy env st h]
  rfl

theorem sortDesc_head (k : String) (l : List Doc) (h : l ≠ []) :
    ∃ d ∈ l, (sortDesc k l).head? = some d ∧ ∀ e ∈ l, sortsBefore k d e := by
  have hp := sortDesc_perm k l
  have hs := sortDesc_sorted k l
  cases hl : sortDesc k l with
  | nil =>
    rw [hl] at hp
    exact absurd (List.Perm.nil_eq hp) (fun h0 => h h0.symm)
  | cons d rest =>
    rw [hl] at hp hs
    refine ⟨d, hp.subset (List.mem_cons_self d rest), rfl, ?_⟩
    intro e he
    have he' : e ∈ d :: rest := hp.symm.subset he
    rcases List.mem_cons.mp he' with h1 | h1
    · subst h1
      exact le_refl _
    · exact List.rel_of_sorted_cons hs e h1

end Guit

namespace Guit

/-- C26: in every successful public-data response the key `commissioner` is
null when no Commissioner document is stored, and otherwise it is a stored
Commissioner document, as loaded, whose `updatedAt` is greatest among all
stored Commissioner documents (in the sort order of the store, in which a
missing value ranks lowest; for two dates, the later one is greater), both as
it is stored and as it is served. -/
theorem C26_commissioner_is_latest (env : Env) (st : Store)
    (h : (getPublicData env st).2.status = 200) :
    (st.coll .Commissioner = [] →
      (getPublicData env st).2.item "commissioner" = some (Item.doc none)) ∧
    (st.coll .Commissioner ≠ [] →
      ∃ d ∈ st.coll .Commissioner,
        (getPublicData env st).2.item "commissioner"
          = some (Item.doc (some (Model.hydrate env .Commissioner d).toObject)) ∧
        (∀ e ∈ st.coll .Commissioner,
          bsonKey (getField e.fields "updatedAt") ≤ bsonKey (getField d.fields "updatedAt")) ∧
        (∀ e ∈ st.coll .Commissioner, ∀ td te : Int,
          getField d.fields "updatedAt" = some (.date td) →
          getField e.fields "updatedAt" = some (.date te) → te ≤ td) ∧
        (∀ e ∈ st.coll .Commissioner, ∀ td te : Int,
          getField (Model.hydrate env .Commissioner d).fields "updatedAt"
            = some (.date td) →
          getField e.fields "updatedAt" = some (.date te) → te ≤ td)) := by
  have hc := healthy_commissioner env st (getPublicData_ok_healthy h)
  have hne : ("updatedAt" : String) ≠ "_id" := by decide
  constructor
  · intro hnil
    rw [hc, hnil]
    rfl
  · intro hcoll
    obtain ⟨d, hd, hhead, hmax⟩ := sortDesc_head "updatedAt" (st.coll .Commissioner) hcoll
    have hkey : ∀ e ∈ st.coll .Commissioner,
        bsonKey (getField e.fields "updatedAt") ≤ bsonKey (getField d.fields "updatedAt") := by
      intro e he
      have := hmax e he
      unfold sortsBefore at this
      rwa [getField_toObject_ne e hne, getField_toObject_ne d hne] at this
    refine ⟨d, hd, ?_, hkey, ?_, ?_⟩
    · rw [hc, hhead]
      rfl
    · intro e he td te h1 h2
      have := hkey e he
      rw [h1, h2] at this
      exact bsonKey_date_le this
    · intro e he td te h1 h2
      have h3 := hkey e he
      cases hs : getField d.fields "updatedAt" with
      | none =>
        exfalso
        rw [hs, h2] at h3
        simp only [bsonKey] at h3
        rw [Prod.Lex.le_iff] at h3
        rcases h3 with h5 | ⟨h5, _⟩
        · simp at h5
        · simp at h5
      | some v =>
        rw [hydrate_stored env .Commissioner d hs] at h1
        cases h1
        rw [hs, h2] at h3
        exact bsonKey_date_le h3

/-- The premise of C26 holds of a store with two commissioner profiles: the
later one is served. -/
theorem C26_commissioner_is_latest_witness :
    (getPublicData env0 twoCommissioners).2.status = 200 ∧
    (getPublicData env0 twoCommissioners).2.item "commissioner"
      = some (Item.doc (some [("_id", .oid 2), ("name", .str "B"),
          ("updatedAt", .date 200)])) ∧
    ((twoCommissioners.coll .Commissioner = [] →
      (getPublicData env0 twoCommissioners).2.item "commissioner" = some (Item.doc none)) ∧
     (twoCommissioners.coll .Commissioner ≠ [] →
      ∃ d ∈ twoCommissioners.coll .Commissioner,
        (getPublicData env0 twoCommissioners).2.item "commissioner"
          = some (Item.doc (some (Model.hydrate env0 .Commissioner d).toObject)) ∧
        (∀ e ∈ twoCommissioners.coll .Commissioner,
          bsonKey (getField e.fields "updatedAt") ≤ bsonKey (getField d.fields "updatedAt")) ∧
        (∀ e ∈ twoCommissioners.coll .Commissioner, ∀ td te : Int,
          getField d.fields "updatedAt" = some (.date td) →
          getField e.fields "updatedAt" = some (.date te) → te ≤ td) ∧
        (∀ e ∈ twoCommissioners.coll .Commissioner, ∀ td te : Int,
          getField (Model.hydrate env0 .Commissioner d).fields "updatedAt"
            = some (.date td) →
          getField e.fields "updatedAt" = some (.date te) → te ≤ td))) :=
  ⟨by decide, by decide, C26_commissioner_is_latest env0 twoCommissioners (by decide)⟩

end Guit

/-! ## The login form: attempts and lockout -/

namespace Guit

open Auth

theorem isLockedOut_none (now : Int) (p : Page) (h : p.lockout = none) :
    isLockedOut now p = (false, p) := by
  simp [isLockedOut, h]

/-- A submission with invalid credentials on a ready form without lockout. -/
theorem submit_invalid (now later : Int) (u pw : String) (p : Page)
    (hr : p.formReady = true) (hl : p.lockout = none) (hu : trim u ≠ "") (hpw : pw ≠ "")
    (ha : authenticate (trim u) pw = false) :
    submit now later (some u) (some pw) p =
      if 5 ≤ p.loginAttempts + 1 then
        (⟨p.loginAttempts + 1, some (p.loginAttempts + 1), some ⟨later, later + 300000⟩,
            p.session, true⟩, .lockedOut 5)
      else
        (⟨p.loginAttempts + 1, some (p.loginAttempts + 1), none, p.session, true⟩,
          .invalid (5 - ((p.loginAttempts + 1 : Nat) : Int))) := by
  unfold submit
  simp only [hr, Bool.not_true, Bool.false_eq_true, if_false, isLockedOut_none now p hl,
    Option.map_some', hu, hpw, or_self, ha, CONFIG]
  by_cases h5 : 5 ≤ p.loginAttempts + 1
  · have h5' : (5 : Int) - ((p.loginAttempts + 1 : Nat) : Int) ≤ 0 := by omega
    simp only [h5', if_true, h5, lockoutUser, handleLockout, CONFIG, hl, hr]
    have : -((later - (later + 300000)) / 60000) = (5 : Int) := by
      have : later - (later + 300000) = -300000 := by ring
      rw [this]
      decide
    rw [this]
  · have h5' : ¬ (5 : Int) - ((p.loginAttempts + 1 : Nat) : Int) ≤ 0 := by omega
    simp only [h5', if_false, h5, hl, hr]

end Guit

namespace Guit

open Auth

/-- Failed attempts one after the other, as long as the count stays under 5. -/
theorem submitAll_invalid (subs : List (Int × Int × Option String × Option String))
    (hall : ∀ x ∈ subs, ∃ u pw, x.2.2 = (some u, some pw) ∧ trim u ≠ "" ∧ pw ≠ "" ∧
      authenticate (trim u) pw = false)
    (p : Page) (hr : p.formReady = true) (hl : p.lockout = none)
    (hn : p.loginAttempts + subs.length ≤ 4) :
    (submitAll subs p).1
        = ⟨p.loginAttempts + subs.length,
            if subs = [] then p.storedAttempts else some (p.loginAttempts + subs.length),
            none, p.session, true⟩ ∧
      (submitAll subs p).2
        = (List.range subs.length).map
            (fun j => Outcome.invalid (5 - ((p.loginAttempts + 1 + j : Nat) : Int))) := by
  induction subs generalizing p with
  | nil =>
    cases p
    simp only [Page.formReady, Page.lockout] at hr hl
    subst hr hl
    simp [submitAll]
  | cons x rest ih =>
    obtain ⟨now, later, un, pwd⟩ := x
    obtain ⟨u, pw, hx, hu, hpw, ha⟩ := hall _ (List.mem_cons_self _ rest)
    simp only [Prod.mk.injEq] at hx
    obtain ⟨rfl, rfl⟩ := hx
    have hlen : p.loginAttempts + (rest.length + 1) ≤ 4 := by simpa using hn
    have hstep := submit_invalid now later u pw p hr hl hu hpw ha
    rw [if_neg (by omega)] at hstep
    have ih' := ih (fun y hy => hall y (List.mem_cons_of_mem _ hy))
      ⟨p.loginAttempts + 1, some (p.loginAttempts + 1), none, p.session, true⟩ rfl rfl
      (by simp only; omega)
    simp only [submitAll, hstep, ih'.1, ih'.2]
    constructor
    · simp only [List.length_cons, reduceCtorEq, if_false, Page.mk.injEq, and_true, true_and]
      constructor
      · omega
      · by_cases hrest : rest = []
        · simp [hrest]
        · simp only [hrest, if_false, Option.some.injEq]
          omega
    · rw [List.length_cons, List.range_succ_eq_map, List.map_cons, List.map_map]
      simp only [Nat.add_zero, List.cons.injEq, true_and]
      apply List.map_congr_left
      intro j _
      simp only [Function.comp]
      congr 2
      omega

end Guit

namespace Guit

open Auth

/-- A submission with the valid credentials when no lockout is in force. -/
theorem submit_valid_resets (now later : Int) (u pw : String) (p : Page)
    (hr : p.formReady = true) (hl : (isLockedOut now p).1 = false)
    (ha : authenticate (trim u) pw = true) :
    (submit now later (some u) (some pw) p).1.loginAttempts = 0 ∧
    (submit now later (some u) (some pw) p).1.storedAttempts = none ∧
    (submit now later (some u) (some pw) p).2 = .success := by
  have hu : trim u ≠ "" := by
    intro h
    rw [h] at ha
    simp [authenticate, CONFIG] at ha
  have hpw : pw ≠ "" := by
    intro h
    rw [h] at ha
    simp [authenticate, CONFIG] at ha
  unfold submit
  cases hlock : isLockedOut now p with
  | mk b p1 =>
    rw [hlock] at hl
    simp only at hl
    subst hl
    simp only [hr, Bool.not_true, Bool.false_eq_true, if_false, Option.map_some', hu, hpw,
      or_self, ha, if_true, createSession]
    simp

/-- C27: on the login form, starting without recorded failed attempts, each
failed attempt raises the count, in the variable and in the session storage,
by one; each of the first four failures reports 5 minus the count as the
attempts remaining and sets no lockout; the fifth failure (count 5, the value
of `MAX_LOGIN_ATTEMPTS`) sets a lockout that expires 300000 ms after it was
set; a successful login sets the count to zero and removes the stored count. -/
theorem C27_attempts_and_lockout :
    CONFIG.MAX_LOGIN_ATTEMPTS = 5 ∧ CONFIG.LOCKOUT_DURATION = 300000 ∧
    (∀ subs : List (Int × Int × Option String × Option String),
      subs.length ≤ 4 →
      (∀ x ∈ subs, ∃ u pw, x.2.2 = (some u, some pw) ∧ trim u ≠ "" ∧ pw ≠ "" ∧
        authenticate (trim u) pw = false) →
      (submitAll subs freshPage).1.loginAttempts = subs.length ∧
      (subs ≠ [] → (submitAll subs freshPage).1.storedAttempts = some subs.length) ∧
      (submitAll subs freshPage).1.lockout = none ∧
      (submitAll subs freshPage).2
        = (List.range subs.length).map
            (fun j => Outcome.invalid (CONFIG.MAX_LOGIN_ATTEMPTS - ((j + 1 : Nat) : Int)))) ∧
    (∀ (subs : List (Int × Int × Option String × Option String)) (now later : Int)
        (u pw : String),
      subs.length = 4 →
      (∀ x ∈ subs, ∃ u pw, x.2.2 = (some u, some pw) ∧ trim u ≠ "" ∧ pw ≠ "" ∧
        authenticate (trim u) pw = false) →
      trim u ≠ "" → pw ≠ "" → authenticate (trim u) pw = false →
      (submit now later (some u) (some pw) (submitAll subs freshPage).1).1.loginAttempts = 5 ∧
      (submit now later (some u) (some pw) (submitAll subs freshPage).1).1.storedAttempts
        = some 5 ∧
      (submit now later (some u) (some pw) (submitAll subs freshPage).1).1.lockout
        = some ⟨later, later + CONFIG.LOCKOUT_DURATION⟩ ∧
      (submit now later (some u) (some pw) (submitAll subs freshPage).1).2 = .lockedOut 5) ∧
    (∀ (p : Page) (now later : Int) (u pw : String),
      p.formReady = true → (isLockedOut now p).1 = false →
      authenticate (trim u) pw = true →
      (submit now later (some u) (some pw) p).1.loginAttempts = 0 ∧
      (submit now later (some u) (some pw) p).1.storedAttempts = none ∧
      (submit now later (some u) (some pw) p).2 = .success) := by
  refine ⟨rfl, rfl, ?_, ?_, ?_⟩
  · intro subs hlen hall
    obtain ⟨h1, h2⟩ := submitAll_invalid subs hall freshPage rfl rfl
      (by simp only [freshPage]; omega)
    rw [h1, h2]
    refine ⟨by simp [freshPage], ?_, rfl, ?_⟩
    · intro hne
      simp [hne, freshPage]
    · apply List.map_congr_left
      intro j _
      simp only [freshPage, CONFIG]
      congr 2
      omega
  · intro subs now later u pw hlen hall hu hpw ha
    obtain ⟨h1, _⟩ := submitAll_invalid subs hall freshPage rfl rfl
      (by simp only [freshPage]; omega)
    rw [h1, submit_invalid now later u pw _ rfl rfl hu hpw ha]
    simp only [freshPage, hlen, Nat.zero_add, Nat.reduceAdd, le_refl, if_true, CONFIG]
    simp
  · intro p now later u pw hr hl ha
    exact submit_valid_resets now later u pw p hr hl ha

end Guit

namespace Guit

open Auth

theorem fourFailures_fail :
    ∀ x ∈ fourFailures, ∃ u pw, x.2.2 = (some u, some pw) ∧ trim u ≠ "" ∧ pw ≠ "" ∧
      authenticate (trim u) pw = false := by
  intro x hx
  simp only [fourFailures, List.mem_cons, List.mem_singleton, List.not_mem_nil, or_false] at hx
  rcases hx with rfl | rfl | rfl | rfl
  · exact ⟨"admin", "wrong", rfl, by decide, by decide, by decide⟩
  · exact ⟨"admin", "wrong", rfl, by decide, by decide, by decide⟩
  · exact ⟨" admin ", "Password", rfl, by decide, by decide, by decide⟩
  · exact ⟨"root", "password", rfl, by decide, by decide, by decide⟩

/-- The premises of C27 hold of four failures and a fifth: the outcomes count
down from 4 to 1, the fifth sets the lockout from 240500 to 540500; the valid
credentials on the fresh page log in. -/
theorem C27_attempts_and_lockout_witness :
    (submitAll fourFailures freshPage)
      = (⟨4, some 4, none, none, true⟩,
          [.invalid 4, .invalid 3, .invalid 2, .invalid 1]) ∧
    ((submitAll fourFailures freshPage).1.loginAttempts = fourFailures.length ∧
      (fourFailures ≠ [] →
        (submitAll fourFailures freshPage).1.storedAttempts = some fourFailures.length) ∧
      (submitAll fourFailures freshPage).1.lockout = none ∧
      (submitAll fourFailures freshPage).2
        = (List.range fourFailures.length).map
            (fun j => Outcome.invalid (CONFIG.MAX_LOGIN_ATTEMPTS - ((j + 1 : Nat) : Int)))) ∧
    ((submit 240000 240500 (some "admin") (some "wrong")
        (submitAll fourFailures freshPage).1).1.loginAttempts = 5 ∧
      (submit 240000 240500 (some "admin") (some "wrong")
        (submitAll fourFailures freshPage).1).1.storedAttempts = some 5 ∧
      (submit 240000 240500 (some "admin") (some "wrong")
        (submitAll fourFailures freshPage).1).1.lockout
        = some ⟨240500, 240500 + CONFIG.LOCKOUT_DURATION⟩ ∧
      (submit 240000 240500 (some "admin") (some "wrong")
        (submitAll fourFailures freshPage).1).2 = .lockedOut 5) ∧
    ((submit 0 500 (some "admin") (some "password") freshPage).1.loginAttempts = 0 ∧
      (submit 0 500 (some "admin") (some "password") freshPage).1.storedAttempts = none ∧
      (submit 0 500 (some "admin") (some "password") freshPage).2 = .success) :=
  ⟨by decide,
    C27_attempts_and_lockout.2.2.1 fourFailures (by decide) fourFailures_fail,
    C27_attempts_and_lockout.2.2.2.1 fourFailures 240000 240500 "admin" "wrong" rfl
      fourFailures_fail (by decide) (by decide) (by decide),
    C27_attempts_and_lockout.2.2.2.2 freshPage 0 500 "admin" "password" rfl rfl
      (by decide)⟩

end Guit

/-! ## The login form after a lockout -/

namespace Guit

open Auth

/-- C28, the code at the failing input: after five failures the lockout runs
from 240500 to 540500 and the count 5 stays in the variable and in the session
storage; the page load after the expiry reads the count 5 back, and the first
failed attempt then makes it 6 and sets a new lockout at once. -/
theorem C28_one_failure_after_expiry_locks_again :
    lockedPage = ⟨5, some 5, some ⟨240500, 540500⟩, none, true⟩ ∧
    init 540501 lockedPage = ⟨5, some 5, none, none, true⟩ ∧
    submit 540600 541100 (some "admin") (some "wrong") (init 540501 lockedPage)
      = (⟨6, some 6, some ⟨541100, 841100⟩, none, true⟩, .lockedOut 5) := by
  decide

/-- Whatever the count was, a failed attempt on a form whose count is 5 or
more sets a lockout. -/
theorem submit_invalid_after_lockout (now later : Int) (u pw : String) (p : Page)
    (hr : p.formReady = true) (hl : p.lockout = none) (hu : trim u ≠ "") (hpw : pw ≠ "")
    (ha : authenticate (trim u) pw = false) (hn : 4 ≤ p.loginAttempts) :
    (submit now later (some u) (some pw) p).1.lockout = some ⟨later, later + 300000⟩ := by
  rw [submit_invalid now later u pw p hr hl hu hpw ha, if_pos (by omega)]

end Guit

/-! ## The hero slideshow -/

namespace Guit

open Slideshow

/-- C29, the code at the failing input: a slideshow of five slides is
advanced to its last slide; during the transition the document is refreshed
with two slides, and the state is left with `currentSlide` 4 and `totalSlides` 2. -/
theorem C29_refresh_during_transition_leaves_range :
    run CONFIG [.transitionEnd, .nextSlide, .transitionEnd, .nextSlide, .transitionEnd,
        .nextSlide, .transitionEnd, .nextSlide] (init CONFIG 5 initialState)
      = ⟨4, 5, true, false, true, true⟩ ∧
    step CONFIG ⟨4, 5, true, false, true, true⟩ (.refresh 2)
      = ⟨4, 2, true, false, true, true⟩ ∧
    step CONFIG ⟨4, 5, true, false, true, true⟩ (.restart 2 false)
      = ⟨4, 2, true, false, true, true⟩ ∧
    ¬ ((4 : Int) < ((2 : Nat) : Int)) := by
  decide

/-- The function `showSlide` leaves the state as it is during a transition and
for an index out of range, and shows the slide otherwise. -/
theorem showSlide_cases (s : State) (index : Int) :
    (s.isTransitioning = true → showSlide s index = s) ∧
    ((index < 0 ∨ (s.totalSlides : Int) ≤ index) → showSlide s index = s) ∧
    (s.isTransitioning = false → 0 ≤ index → index < (s.totalSlides : Int) →
      showSlide s index = { s with isTransitioning := true, currentSlide := index }) := by
  refine ⟨?_, ?_, ?_⟩
  · intro h
    simp [showSlide, h]
  · intro h
    have h' : index < 0 ∨ index ≥ (s.totalSlides : Int) := h
    unfold showSlide
    rw [if_pos h']
    simp
  · intro h h0 h1
    unfold showSlide
    rw [if_neg (by simp [h]), if_neg (by omega)]

/-- With `LOOP` set, `nextSlide` goes from the last slide to the first and
`prevSlide` from the first to the last, outside a transition. -/
theorem loop_wraps (cfg : Config) (s : State) (hloop : cfg.LOOP = true)
    (ht : s.isTransitioning = false) (hpos : 0 < s.totalSlides) :
    (s.currentSlide = (s.totalSlides : Int) - 1 → (nextSlide cfg s).currentSlide = 0) ∧
    (s.currentSlide = 0 →
      (prevSlide cfg s).currentSlide = (s.totalSlides : Int) - 1) := by
  constructor
  · intro hc
    unfold nextSlide
    rw [if_pos (by omega), hloop, if_pos rfl]
    rw [(showSlide_cases s 0).2.2 ht (le_refl 0) (by omega)]
  · intro hc
    unfold prevSlide
    rw [if_pos (by omega), hloop, if_pos rfl]
    rw [(showSlide_cases s _).2.2 ht (by omega) (by omega)]

theorem startAutoPlay_slides (cfg : Config) (t : State) :
    (startAutoPlay cfg t).currentSlide = t.currentSlide ∧
      (startAutoPlay cfg t).totalSlides = t.totalSlides := by
  unfold startAutoPlay stopAutoPlay
  split <;> exact ⟨rfl, rfl⟩

/-- The slides after `refresh`: the number of slide elements of the document,
and the first slide unless a transition is in progress or there is no slide. -/
theorem refresh_slides (cfg : Config) (slides : Nat) (s : State) :
    (refresh cfg slides s).totalSlides = slides ∧
    (refresh cfg slides s).currentSlide
      = if s.isTransitioning = false ∧ 0 < slides then 0 else s.currentSlide := by
  obtain ⟨c, t, si, ip, ii, it⟩ := s
  simp only [refresh, goToSlide, (startAutoPlay_slides cfg _).1, (startAutoPlay_slides cfg _).2,
    stopAutoPlay, showSlide]
  cases it
  · by_cases h0 : slides = 0
    · subst h0
      simp
    · have hpos : 0 < slides := Nat.pos_of_ne_zero h0
      have hneg : ¬ ((0 : Int) < 0 ∨ (0 : Int) ≥ (slides : Int)) := by omega
      simp [hpos, h0]
  · simp

theorem showSlide_keeps_range (t : State) (i : Int)
    (ht : 0 ≤ t.currentSlide ∧ t.currentSlide < (t.totalSlides : Int)) :
    0 ≤ (showSlide t i).currentSlide ∧
      (showSlide t i).currentSlide < ((showSlide t i).totalSlides : Int) := by
  unfold showSlide
  split
  · exact ht
  · split
    · exact ht
    · simp only
      omega

/-- Every operation keeps `0 ≤ currentSlide < totalSlides`, unless it changes
the number of slides during a transition. -/
theorem step_keeps_range (cfg : Config) (s : State) (op : Op)
    (h : 0 ≤ s.currentSlide ∧ s.currentSlide < (s.totalSlides : Int))
    (hop : s.isTransitioning = false ∨ (step cfg s op).totalSlides = s.totalSlides)
    (hpos : 0 < (step cfg s op).totalSlides) :
    0 ≤ (step cfg s op).currentSlide ∧
      (step cfg s op).currentSlide < ((step cfg s op).totalSlides : Int) := by
  have href : ∀ slides : Nat,
      (s.isTransitioning = false ∨ (refresh cfg slides s).totalSlides = s.totalSlides) →
      0 < (refresh cfg slides s).totalSlides →
      0 ≤ (refresh cfg slides s).currentSlide ∧
        (refresh cfg slides s).currentSlide < ((refresh cfg slides s).totalSlides : Int) := by
    intro slides hop hpos
    obtain ⟨h1, h2⟩ := refresh_slides cfg slides s
    rw [h1] at hop hpos ⊢
    rw [h2]
    rcases hop with hop | hop
    · rw [if_pos ⟨hop, hpos⟩]
      omega
    · subst hop
      split <;> omega
  cases op with
  | showSlide index => exact showSlide_keeps_range s index h
  | nextSlide => exact showSlide_keeps_range s _ h
  | prevSlide => exact showSlide_keeps_range s _ h
  | goToSlide index => exact showSlide_keeps_range s index h
  | transitionEnd => exact h
  | refresh slides => exact href slides hop hpos
  | restart slides firstChanged =>
    simp only [step, restart] at hop hpos ⊢
    split
    · rename_i hc
      rw [if_pos hc] at hop hpos
      exact href slides hop hpos
    · simp only [goToSlide, (startAutoPlay_slides cfg _).1, (startAutoPlay_slides cfg _).2]
      exact showSlide_keeps_range (stopAutoPlay s) 0 h

end Guit

/-! ## Registered users and the default administrator -/

namespace Guit

/-- C30 as stated fails: a registration succeeds, the registered user is
deleted through the generic route of the users, and `seedAdmin` then stores
the default administrator. -/
theorem C30_counterexample_seed_after_delete :
    (register env8 emptyStore ybBody).2.status = 201 ∧
    ((register env8 emptyStore ybBody).1.coll .User).map
        (fun d => (d._id, getField d.fields "role"))
      = [(8, some (.str "admin"))] ∧
    (handle env0 (register env8 emptyStore ybBody).1
        (.delete "users" "000000000000000000000008")).coll .User = [] ∧
    ((seedAdmin env0 (handle env0 (register env8 emptyStore ybBody).1
        (.delete "users" "000000000000000000000008"))).coll .User).map
        (fun d => (d._id, getField d.fields "username", getField d.fields "role"))
      = [(7, some (.str "admin"), some (.str "admin"))] := by
  decide

/-- C30, amended: every user a successful registration creates is stored
with the role `admin` and the status `active`, whatever the request body
holds; `seedAdmin` leaves the store a successful registration produced as it
is, and so it leaves every store in which a user with the role `admin` (such
as a registered one) is still stored. -/
theorem C30_registered_users_are_admins :
    (∀ (env : Env) (st : Store) (body : Fields),
      (register env st body).2.status = 201 →
      ∃ d : Doc, (register env st body).1.coll .User = st.coll .User ++ [d] ∧
        getField d.fields "role" = some (.str "admin") ∧
        getField d.fields "status" = some (.str "active") ∧
        ∀ env2 : Env, seedAdmin env2 (register env st body).1 = (register env st body).1) ∧
    (∀ (env2 : Env) (st2 : Store),
      (∃ x ∈ st2.coll .User, getField x.fields "role" = some (.str "admin")) →
      seedAdmin env2 st2 = st2) := by
  constructor
  · intro env st body hreg
    obtain ⟨email, d, hemail, _, _, hnew, hreq, _, hst⟩ := register_created hreg
    obtain ⟨_, _, hdr, hds, _⟩ := registered_fields hemail hnew hreq
    have hcoll : (register env st body).1.coll .User = st.coll .User ++ [d] := by
      rw [hst, put_coll_self]
    refine ⟨d, hcoll, hdr, hds, ?_⟩
    intro env2
    apply seedAdmin_admin_exists
    refine ⟨d, ?_, hdr⟩
    rw [hcoll]
    simp
  · intro env2 st2 h
    exact seedAdmin_admin_exists env2 st2 h

/-- The premise of C30 holds of a registration whose body asks for the role
`user` and the status `blocked`: the stored user is an active administrator
all the same. -/
theorem C30_registered_users_are_admins_witness :
    (register env8 emptyStore
        [("email", .str "y@b.com"), ("password", .str "p"), ("role", .str "user"),
         ("status", .str "blocked")]).2.status = 201 ∧
    ((register env8 emptyStore
        [("email", .str "y@b.com"), ("password", .str "p"), ("role", .str "user"),
         ("status", .str "blocked")]).1.coll .User).map
        (fun d => (getField d.fields "role", getField d.fields "status"))
      = [(some (.str "admin"), some (.str "active"))] ∧
    (∃ d : Doc,
        (register env8 emptyStore
          [("email", .str "y@b.com"), ("password", .str "p"), ("role", .str "user"),
           ("status", .str "blocked")]).1.coll .User = emptyStore.coll .User ++ [d] ∧
        getField d.fields "role" = some (.str "admin") ∧
        getField d.fields "status" = some (.str "active") ∧
        ∀ env2 : Env,
          seedAdmin env2 (register env8 emptyStore
            [("email", .str "y@b.com"), ("password", .str "p"), ("role", .str "user"),
             ("status", .str "blocked")]).1
          = (register env8 emptyStore
            [("email", .str "y@b.com"), ("password", .str "p"), ("role", .str "user"),
             ("status", .str "blocked")]).1) :=
  ⟨by decide, by decide,
    C30_registered_users_are_admins.1 env8 emptyStore
      [("email", .str "y@b.com"), ("password", .str "p"), ("role", .str "user"),
       ("status", .str "blocked")] (by decide)⟩

end Guit
